import Mathlib

/-! HexEx hex-mesh emission: a shallow embedding of `HexExtractor`.

The definitions below transcribe member functions of `HexEx::HexExtractor`
(`HexExtractor.hh`): the classification of input cells, the emission of output
vertices and cells, the large-cell fallback and the transition-function table.

Conventions of the embedding.

* OpenVolumeMesh handles are integer indices; the default-constructed handle has
  index `-1` and is the only invalid one.
* A mesh property (`CellProperty<T>`, `VertexProperty<T>`, ...) is a total function
  on handles; iterating over a mesh yields a list of handles.
* `std::vector` is a list.  Reading a vector outside its bounds is undefined in the
  source; the embedding reads the default value there.
* A `Parameter` is a `Vec3d` in the source.  The functions embedded here only test
  its coordinates for equality with `0` and `1` and convert such a coordinate to an
  array index, so integer coordinates reproduce every branch.
-/

set_option autoImplicit false

namespace HexEx

/-! ## Handles -/

/-- OpenVolumeMesh `VertexHandle`: an index, `-1` when default-constructed. -/
structure VertexHandle where
  idx : Int
deriving DecidableEq, Repr

/-- The default-constructed `VertexHandle()`. -/
def VertexHandle.invalid : VertexHandle := ⟨-1⟩

/-- The OpenVolumeMesh test `is_valid()`: the index differs from `-1`. -/
def VertexHandle.is_valid (v : VertexHandle) : Bool := v.idx != -1

/-- Cell handles of a mesh. -/
abbrev CellHandle := Nat

/-- Half-face handles of a mesh. -/
abbrev HalfFaceHandle := Nat

/-- A parameter-space point `(u, v, w)`; `p.1`, `p.2.1`, `p.2.2` are `p[0]`, `p[1]`, `p[2]`. -/
abbrev Parameter := Int × Int × Int

/-! ## Cell classification data -/

/-- The enum `CellType` of `HexExtractor`. -/
inductive CellType where
  | NotComputed
  | Proper
  | Flipped
  | Degenerate
deriving DecidableEq, Repr

/-- The three results of the exact orientation predicate `sign_orient3d`. -/
inductive Orientation where
  | ORI_ABOVE
  | ORI_BELOW
  | ORI_ZERO
deriving DecidableEq, Repr

/-! ## Transitions -/

/-- Modelled from the spec: the value type `Transition` (`GridIsomorphism`), whose
declaration is not part of the sources at hand.  Following section 3 of the
specification it is a signed permutation matrix, stored by rows, with a translation;
it maps `p` to `lin * p + trans`. -/
structure Transition where
  lin : Fin 3 → Fin 3 → Int
  trans : Fin 3 → Int
deriving DecidableEq

/-- Modelled from the spec: `inverse(a)` of section 4.1.  The inverse of a signed
permutation matrix is its transpose; the translation becomes `-(linᵀ * trans)`. -/
def Transition.inverse (t : Transition) : Transition where
  lin := fun i j => t.lin j i
  trans := fun i => -(t.lin 0 i * t.trans 0 + t.lin 1 i * t.trans 1 + t.lin 2 i * t.trans 2)

/-- Modelled from the spec: the distinguished identity transition. -/
def Transition.identity : Transition where
  lin := fun i j => if i = j then 1 else 0
  trans := fun _ => 0

/-- Modelled from the spec: a pure translation by `(a, b, c)`. -/
def Transition.translation (a b c : Int) : Transition where
  lin := fun i j => if i = j then 1 else 0
  trans := fun i => if i = 0 then a else if i = 1 then b else c

/-! ## The extractor state -/

/-- The data members of `HexExtractor` read or written by the embedded functions.
`inputCells` is `inputMesh.cells()`, `intermediateCells` is
`intermediateHexMesh.cells()` and `cv_iter ch` lists the vertices that
`intermediateHexMesh.cv_iter(ch)` visits, in order.  `localCellUVs ch v` is `none`
when `localCellUVs[ch].find(v)` reaches `end()`. -/
structure HexExtractor where
  inputCells : List CellHandle
  cellVertices : CellHandle → List VertexHandle
  vertexParameters : CellHandle → VertexHandle → Parameter
  cellTypes : CellHandle → CellType
  cellTypesComputed : Bool
  isCellFlippedCalls : Int
  isCellDegenerateCalls : Int
  isFaceDegenerateCalls : Int
  numMerges : Int
  numMergedVertices : Int
  numDartsTraced : Int
  numDartTraceLoops : Int
  callsToFindPort : Int
  portsCheckedInFindPort : Int
  equivalenceClasses : List (List Int)
  equivalenceClassVertices : List VertexHandle
  equivalenceClassIds : VertexHandle → Int
  intermediateCells : List CellHandle
  cv_iter : CellHandle → List VertexHandle
  differenceBetweenInvertedAndProperDartsPerCell : CellHandle → Int
  localCellUVs : CellHandle → VertexHandle → Option Parameter
  transitionFunctions : HalfFaceHandle → Transition

/-- The counters of the extractor, in declaration order: `numMerges`,
`numMergedVertices`, `isCellFlippedCalls`, `isCellDegenerateCalls`,
`isFaceDegenerateCalls`, `numDartsTraced`, `numDartTraceLoops`, `callsToFindPort`,
`portsCheckedInFindPort`. -/
def HexExtractor.counters (s : HexExtractor) : List Int :=
  [s.numMerges, s.numMergedVertices, s.isCellFlippedCalls, s.isCellDegenerateCalls,
   s.isFaceDegenerateCalls, s.numDartsTraced, s.numDartTraceLoops, s.callsToFindPort,
   s.portsCheckedInFindPort]

/-- An extractor with no cells, no classes, identity transitions and all counters zero. -/
def HexExtractor.blank : HexExtractor where
  inputCells := []
  cellVertices := fun _ => []
  vertexParameters := fun _ _ => (0, 0, 0)
  cellTypes := fun _ => CellType.NotComputed
  cellTypesComputed := false
  isCellFlippedCalls := 0
  isCellDegenerateCalls := 0
  isFaceDegenerateCalls := 0
  numMerges := 0
  numMergedVertices := 0
  numDartsTraced := 0
  numDartTraceLoops := 0
  callsToFindPort := 0
  portsCheckedInFindPort := 0
  equivalenceClasses := []
  equivalenceClassVertices := []
  equivalenceClassIds := fun _ => 0
  intermediateCells := []
  cv_iter := fun _ => []
  differenceBetweenInvertedAndProperDartsPerCell := fun _ => 0
  localCellUVs := fun _ _ => none
  transitionFunctions := fun _ => Transition.identity

/-! ## The output mesh -/

/-- The output mesh `HexMeshT`, generic in its point type: the vertex positions and
the cells, each cell being the vertex list handed to `add_cell`. -/
structure HexMesh (P : Type) where
  vertices : List P
  cells : List (List VertexHandle)

/-- The call `hexMesh.add_vertex(pos)`: appends the vertex and returns its handle, the
previous number of vertices. -/
def HexMesh.add_vertex {P : Type} (m : HexMesh P) (pos : P) : HexMesh P × VertexHandle :=
  ({ m with vertices := m.vertices ++ [pos] }, ⟨(m.vertices.length : Int)⟩)

/-- The call `hexMesh.add_cell(vertices, false)`: appends one cell. -/
def HexMesh.add_cell {P : Type} (m : HexMesh P) (vs : List VertexHandle) : HexMesh P :=
  { m with cells := m.cells ++ [vs] }

/-! ## `addCellsToHexMesh` -/

/-- The element `v[i]` of a `std::vector<VertexHandle>` for an `int` index. -/
def vectorAt (v : List VertexHandle) (i : Int) : VertexHandle :=
  if 0 ≤ i then v.getD i.toNat VertexHandle.invalid else VertexHandle.invalid

/-- The local `std::array<std::array<std::array<VertexHandle, 2>,2>,2>`. -/
abbrev VertexCube := Fin 2 → Fin 2 → Fin 2 → VertexHandle

/-- The value-initialised cube: every slot is `VertexHandle()`. -/
def VertexCube.init : VertexCube := fun _ _ _ => VertexHandle.invalid

/-- The assignment `vertexCube[a][b][c] = v`. -/
def VertexCube.set (cube : VertexCube) (a b c : Fin 2) (v : VertexHandle) : VertexCube :=
  fun i j k => if i = a ∧ j = b ∧ k = c then v else cube i j k

/-- The conversion `(int)x` of a coordinate known to be `0` or `1` to an array index. -/
def cornerIndex (x : Int) : Fin 2 := if x = 1 then 1 else 0

/-- The value `equivalenceClassVertices[equivalenceClassIds[v]]`. -/
def newVhOf (s : HexExtractor) (v : VertexHandle) : VertexHandle :=
  vectorAt s.equivalenceClassVertices (s.equivalenceClassIds v)

/-- One pass of the body of the `cv_iter` loop of `addCellsToHexMesh`. -/
def writeCorner (s : HexExtractor) (ch : CellHandle) (vertexCube : VertexCube)
    (cv : VertexHandle) : VertexCube :=
  let newVh := newVhOf s cv
  match s.localCellUVs ch cv with
  | none => vertexCube
  | some localUV =>
    if ¬(localUV.1 = 0 ∨ localUV.1 = 1) ∨
        ¬(localUV.2.1 = 0 ∨ localUV.2.1 = 1) ∨
        ¬(localUV.2.2 = 0 ∨ localUV.2.2 = 1) then
      vertexCube
    else
      vertexCube.set (cornerIndex localUV.1) (cornerIndex localUV.2.1)
        (cornerIndex localUV.2.2) newVh

/-- The cube after the whole `cv_iter` loop for cell `ch`. -/
def fillVertexCube (s : HexExtractor) (ch : CellHandle) : VertexCube :=
  (s.cv_iter ch).foldl (writeCorner s ch) VertexCube.init

/-- The corner `(a, b, c)` of the unit cube as a local UV. -/
def cornerUV (a b c : Fin 2) : Parameter := ((a.val : Int), (b.val : Int), (c.val : Int))

/-- The last vertex of `ch`, in `cv_iter` order, whose cached local UV is the corner
`(a, b, c)`. -/
def lastVertexAt (s : HexExtractor) (ch : CellHandle) (a b c : Fin 2) : Option VertexHandle :=
  (s.cv_iter ch).reverse.find? (fun v => decide (s.localCellUVs ch v = some (cornerUV a b c)))

/-- The reading of "the corner coordinates of the cell's vertices cover exactly the 8
corners of the unit cube with no repeats and no missing corner": every cell vertex has
a cached local UV that is a corner, no two cell vertices carry the same local UV, and
all 8 corners occur. -/
def CornersExactlyCovered (s : HexExtractor) (ch : CellHandle) : Prop :=
  (∀ v ∈ s.cv_iter ch, ∃ a b c, s.localCellUVs ch v = some (cornerUV a b c)) ∧
  (∀ v ∈ s.cv_iter ch, ∀ w ∈ s.cv_iter ch, v ≠ w → s.localCellUVs ch v ≠ s.localCellUVs ch w) ∧
  (∀ a b c, ∃ v ∈ s.cv_iter ch, s.localCellUVs ch v = some (cornerUV a b c))

/-- The eight `push_back` calls, in source order. -/
def cubeVertices (c : VertexCube) : List VertexHandle :=
  [c 0 0 1, c 1 0 1, c 1 1 1, c 0 1 1, c 0 0 0, c 0 1 0, c 1 1 0, c 1 0 0]

/-- The call `std::sort(vertices2.begin(), vertices2.end())`, handles ordered by index. -/
def sortHandles (l : List VertexHandle) : List VertexHandle :=
  l.insertionSort (fun a b => a.idx ≤ b.idx)

/-- The idiom `v.erase(std::unique(v.begin(), v.end()), v.end())`: of every run of equal
neighbours only the first is kept. -/
def eraseUnique (l : List VertexHandle) : List VertexHandle :=
  l.destutter (fun a b => a ≠ b)

/-- The body of the cell loop of `addCellsToHexMesh` for one intermediate cell: the
vertex list passed to `add_cell`, or `none` when no cell is added. -/
def hexCellOf (s : HexExtractor) (ch : CellHandle) : Option (List VertexHandle) :=
  if s.differenceBetweenInvertedAndProperDartsPerCell ch = -48 then
    let vertexCube := fillVertexCube s ch
    let vertices := cubeVertices vertexCube
    let vertices2 := eraseUnique (sortHandles vertices)
    if vertices2.length = 8 then
      if VertexHandle.invalid ∉ vertices then some vertices else none
    else none
  else none

/-- The member function `addCellsToHexMesh(hexMesh)`: the extractor after the call and
the output mesh after the call. -/
def addCellsToHexMesh {P : Type} (s : HexExtractor) (hexMesh : HexMesh P) :
    HexExtractor × HexMesh P :=
  s.intermediateCells.foldl
    (fun acc ch =>
      match hexCellOf acc.1 ch with
      | some vertices => (acc.1, acc.2.add_cell vertices)
      | none => acc)
    (s, hexMesh)

/-- A sample extractor with one intermediate cell `0` that passes the `-48` test.  Its
vertices `0 .. 7` carry the eight corners (vertex `i` the binary digits of `i`), vertex
`8` has no cached local UV and vertex `9` repeats the corner `(0, 0, 0)` of vertex `0`.
Vertex `i` belongs to class `i`, whose output vertex has the handle `i`. -/
def crowdedCube : HexExtractor :=
  { HexExtractor.blank with
    intermediateCells := [0]
    cv_iter := fun ch => if ch = 0 then (List.range 10).map (fun i => ⟨(i : Int)⟩) else []
    differenceBetweenInvertedAndProperDartsPerCell := fun _ => -48
    equivalenceClassIds := fun v => v.idx
    equivalenceClasses := (List.range 10).map (fun i => [(i : Int)])
    equivalenceClassVertices := (List.range 10).map (fun i => ⟨(i : Int)⟩)
    localCellUVs := fun ch v =>
      if ch = 0 then
        if 0 ≤ v.idx ∧ v.idx < 8 then some (v.idx / 4 % 2, v.idx / 2 % 2, v.idx % 2)
        else if v.idx = 9 then some (0, 0, 0)
        else none
      else none }

/-- A sample extractor with one intermediate cell `0` that fails the `-48` test. -/
def rejectedCell : HexExtractor :=
  { HexExtractor.blank with intermediateCells := [0] }

/-- An output mesh without vertices and cells, with `Unit` positions. -/
def emptyHexMesh : HexMesh Unit := { vertices := [], cells := [] }

/-! ## `addVerticesToHexMesh` -/

/-- Arithmetic of the 32-bit `int` counters: the value is reduced into
`[-2^31, 2^31)`. -/
def wrapInt32 (x : Int) : Int := (x + 2147483648) % 4294967296 - 2147483648

/-- Arithmetic of the 64-bit `long` counters: the value is reduced into
`[-2^63, 2^63)`. -/
def wrapInt64 (x : Int) : Int :=
  (x + 9223372036854775808) % 18446744073709551616 - 9223372036854775808

/-- The body of the loop of `addVerticesToHexMesh` for index `i`.  The position
`tovec(getMergePosition(i, optimizedMergePosition))` is computed by a member function
that is only declared in the sources at hand; it is passed in as `getMergePosition`. -/
def addVertexOfClass {P : Type} (getMergePosition : HexExtractor → Nat → Bool → P)
    (optimizedMergePosition : Bool) (acc : HexExtractor × HexMesh P) (i : Nat) :
    HexExtractor × HexMesh P :=
  let s := acc.1
  let hexMesh := acc.2
  let members := s.equivalenceClasses.getD i []
  if !members.isEmpty then
    let pos := getMergePosition s i optimizedMergePosition
    let added := hexMesh.add_vertex pos
    let s1 := { s with equivalenceClassVertices := s.equivalenceClassVertices.set i added.2 }
    if members.length > 1 then
      ({ s1 with
          numMerges := wrapInt32 (s1.numMerges + 1)
          numMergedVertices := wrapInt32 (s1.numMergedVertices + (members.length : Int)) },
        added.1)
    else
      (s1, added.1)
  else
    acc

/-- The member function `addVerticesToHexMesh(hexMesh, optimizedMergePosition)`:
`clear()` and `resize()` leave one default handle per class, then the loop runs over
`i = 0 .. equivalenceClasses.size() - 1`.  The loop counter is an `unsigned`; it
visits every index once as long as there are fewer than `2^32` classes. -/
def addVerticesToHexMesh {P : Type} (getMergePosition : HexExtractor → Nat → Bool → P)
    (s : HexExtractor) (hexMesh : HexMesh P) (optimizedMergePosition : Bool) :
    HexExtractor × HexMesh P :=
  let s0 := { s with
    equivalenceClassVertices :=
      List.replicate s.equivalenceClasses.length VertexHandle.invalid }
  (List.range s0.equivalenceClasses.length).foldl
    (addVertexOfClass getMergePosition optimizedMergePosition) (s0, hexMesh)

/-- The classes that are not empty. -/
def nonEmptyClasses (classes : List (List Int)) : List (List Int) :=
  classes.filter (fun c => !c.isEmpty)

/-- The classes with more than one member. -/
def mergedClasses (classes : List (List Int)) : List (List Int) :=
  classes.filter (fun c => decide (c.length > 1))

/-- The total number of members of the classes with more than one member. -/
def mergedMembers (classes : List (List Int)) : Nat :=
  ((mergedClasses classes).map List.length).sum

/-- A sample extractor with three classes: two members, none, one member. -/
def threeClasses : HexExtractor :=
  { HexExtractor.blank with equivalenceClasses := [[10, 11], [], [12]] }

/-! ## Cell classification -/

/-- The overload `getParameters(ch, vhs)`. -/
def getParametersOf (s : HexExtractor) (ch : CellHandle) (vhs : List VertexHandle) :
    List Parameter :=
  vhs.map (s.vertexParameters ch)

/-- The overload `getParameters(ch)`: the parameters of the cached cell vertices. -/
def getParameters (s : HexExtractor) (ch : CellHandle) : List Parameter :=
  getParametersOf s ch (s.cellVertices ch)

/-- The orientation sign of the four vertex parameters of `ch`, by the external exact
predicate `sign_orient3d`. -/
def cellOrientation (sign_orient3d : Parameter → Parameter → Parameter → Parameter → Orientation)
    (s : HexExtractor) (ch : CellHandle) : Orientation :=
  let params := getParameters s ch
  sign_orient3d (params.getD 0 (0, 0, 0)) (params.getD 1 (0, 0, 0))
    (params.getD 2 (0, 0, 0)) (params.getD 3 (0, 0, 0))

/-- The member function `computeCellType(ch)`. -/
def computeCellType (sign_orient3d : Parameter → Parameter → Parameter → Parameter → Orientation)
    (s : HexExtractor) (ch : CellHandle) : CellType :=
  let sign := cellOrientation sign_orient3d s ch
  if sign = Orientation.ORI_ZERO then CellType.Degenerate
  else if sign = Orientation.ORI_BELOW then CellType.Flipped
  else CellType.Proper

/-- The member function `computeCellTypes()`. -/
def computeCellTypes (sign_orient3d : Parameter → Parameter → Parameter → Parameter → Orientation)
    (s : HexExtractor) : HexExtractor :=
  let s1 := s.inputCells.foldl
    (fun acc ch =>
      { acc with cellTypes := Function.update acc.cellTypes ch (computeCellType sign_orient3d acc ch) })
    s
  { s1 with cellTypesComputed := true }

/-- The member function `isCellDegenerate(ch)`: the answer and the extractor after the
call. -/
def isCellDegenerate (sign_orient3d : Parameter → Parameter → Parameter → Parameter → Orientation)
    (s : HexExtractor) (ch : CellHandle) : Bool × HexExtractor :=
  let s1 := if !s.cellTypesComputed then computeCellTypes sign_orient3d s else s
  let s2 := { s1 with isCellDegenerateCalls := wrapInt64 (s1.isCellDegenerateCalls + 1) }
  (decide (s2.cellTypes ch = CellType.Degenerate), s2)

/-- The member function `isCellFlipped(ch)`: the answer and the extractor after the
call. -/
def isCellFlipped (sign_orient3d : Parameter → Parameter → Parameter → Parameter → Orientation)
    (s : HexExtractor) (ch : CellHandle) : Bool × HexExtractor :=
  let s1 := if !s.cellTypesComputed then computeCellTypes sign_orient3d s else s
  let s2 := { s1 with isCellFlippedCalls := wrapInt64 (s1.isCellFlippedCalls + 1) }
  (decide (s2.cellTypes ch = CellType.Flipped), s2)

/-- The stored table agrees with `computeCellType` on every input cell once it has been
computed. -/
def CellTypesUpToDate
    (sign_orient3d : Parameter → Parameter → Parameter → Parameter → Orientation)
    (s : HexExtractor) : Prop :=
  s.cellTypesComputed = true →
    ∀ c ∈ s.inputCells, s.cellTypes c = computeCellType sign_orient3d s c

/-- A sample orientation predicate for concrete evaluations: the sign of the first
coordinate difference `p1[0] - p0[0]`. -/
def sampleOrient (p0 p1 _p2 _p3 : Parameter) : Orientation :=
  if p1.1 - p0.1 = 0 then Orientation.ORI_ZERO
  else if p1.1 - p0.1 < 0 then Orientation.ORI_BELOW
  else Orientation.ORI_ABOVE

/-- A sample extractor with two input cells `0` and `1`.  Cell `c` has the vertices
`4c .. 4c+3`, and vertex `v` has the parameter `(v, 0, 0)` in either cell, so that
`sampleOrient` finds both cells `ORI_ABOVE`. -/
def twoProperCells : HexExtractor :=
  { HexExtractor.blank with
    inputCells := [0, 1]
    cellVertices := fun c => (List.range 4).map (fun i => ⟨((4 * c + i : Nat) : Int)⟩)
    vertexParameters := fun _ v => (v.idx, 0, 0) }

/-- A sample extractor with three input cells: cell `0` is `ORI_ABOVE`, cell `1` is
`ORI_ZERO` and cell `2` is `ORI_BELOW` for `sampleOrient`. -/
def mixedCells : HexExtractor :=
  { HexExtractor.blank with
    inputCells := [0, 1, 2]
    cellVertices := fun c =>
      if c = 0 then [⟨0⟩, ⟨1⟩, ⟨2⟩, ⟨3⟩]
      else if c = 1 then [⟨1⟩, ⟨1⟩, ⟨2⟩, ⟨3⟩]
      else [⟨1⟩, ⟨0⟩, ⟨2⟩, ⟨3⟩]
    vertexParameters := fun _ v => (v.idx, 0, 0) }

/-! ## The transition-function table -/

/-- OpenVolumeMesh `opposite_halfface_handle`: the two half-faces of face `f` have the
handles `2 * f` and `2 * f + 1`. -/
def opposite_halfface_handle (h : HalfFaceHandle) : HalfFaceHandle :=
  if h % 2 = 0 then h + 1 else h - 1

/-- The member function `setTransitionFunction(hfh, transitionFunction)`. -/
def setTransitionFunction (s : HexExtractor) (hfh : HalfFaceHandle)
    (transitionFunction : Transition) : HexExtractor :=
  { s with transitionFunctions := Function.update s.transitionFunctions hfh transitionFunction }

/-- The table invariant of the specification: the transition stored on the opposite
orientation of a face is the inverse of the one stored on the half-face itself. -/
def OppositeIsInverse (s : HexExtractor) : Prop :=
  ∀ f : HalfFaceHandle,
    s.transitionFunctions (opposite_halfface_handle f) = (s.transitionFunctions f).inverse

/-! ## The large-cell fallback -/

/-- A dart, identified by its address. -/
abbrev DartId := Nat

/-- The darts as `addCellsToHexMeshWithLargeCells` sees them: `alpha0 x` and `alpha1 x`
are `x->getAlpha<0>()` and `x->getAlpha<1>()` with `none` for `nullptr`, and
`dartsInCell ch` is the vector `ds` that `getAllDartsInCell` returns for the first dart
of the first half-face of cell `ch`. -/
structure DartGraph where
  alpha0 : DartId → Option DartId
  alpha1 : DartId → Option DartId
  isPrimary : DartId → Bool
  getVertex : DartId → VertexHandle
  dartsInCell : CellHandle → List DartId

/-- The dart `x->getAlpha<1>()->getAlpha<0>()`, or `none` when one of the two links is
null. -/
def backwardStep (g : DartGraph) (x : DartId) : Option DartId :=
  (g.alpha1 x).bind g.alpha0

/-- The dart `x->getAlpha<0>()->getAlpha<1>()`, or `none` when one of the two links is
null. -/
def forwardStep (g : DartGraph) (x : DartId) : Option DartId :=
  (g.alpha0 x).bind g.alpha1

/-- The first `do ... while (tmp_d != d)` loop, entered at `tmp_d` with `50 - steps`
passes left before `++steps > 50` breaks out. -/
def rotateBackwardLoop (g : DartGraph) (d : DartId) : Nat → DartId → DartId
  | 0, tmp_d => tmp_d
  | left + 1, tmp_d =>
    match backwardStep g tmp_d with
    | none => tmp_d
    | some next => if next = d then next else rotateBackwardLoop g d left next

/-- The value of `tmp_d` after the backward rotation from `d` (`steps` starts at `0`). -/
def rotateBackward (g : DartGraph) (d : DartId) : DartId :=
  rotateBackwardLoop g d 50 d

/-- The second `do ... while (tmp_d != d)` loop, which has no step counter.  `fuel`
bounds the number of passes of the embedding only: the result is `none` when the loop
is still running after `fuel` passes.  `processed_darts` is a `std::set` of which only
membership is observed. -/
def collectForwardLoop (s : HexExtractor) (g : DartGraph) (d : DartId) :
    Nat → DartId → List DartId → List VertexHandle → Option (List DartId × List VertexHandle)
  | 0, _, _, _ => none
  | fuel + 1, tmp_d, processed_darts, halfface_vertices =>
    let processed_darts := processed_darts.insert tmp_d
    let newVh := newVhOf s (g.getVertex tmp_d)
    let halfface_vertices := halfface_vertices ++ [newVh]
    match forwardStep g tmp_d with
    | none => some (processed_darts, halfface_vertices)
    | some next =>
      if next = d then some (processed_darts, halfface_vertices)
      else collectForwardLoop s g d fuel next processed_darts halfface_vertices

/-- The polyhedral output mesh `PolyMeshT`: the faces (vertex lists), the cells
(half-face lists) and the half-face property requested by the function. -/
structure PolyMesh where
  faces : List (List VertexHandle)
  cells : List (List HalfFaceHandle)
  differenceBetweenInvertedAndProperDartsPerHalffacePoly : HalfFaceHandle → Int

/-- The expression `polyMesh.halfface_handle(polyMesh.add_face(vs), 0)`: the face is
appended and its first half-face has the handle `2 * f`. -/
def PolyMesh.add_face (m : PolyMesh) (vs : List VertexHandle) : PolyMesh × HalfFaceHandle :=
  ({ m with faces := m.faces ++ [vs] }, 2 * m.faces.length)

/-- The call `polyMesh.add_cell(halffaces, false)`. -/
def PolyMesh.add_cell (m : PolyMesh) (hfs : List HalfFaceHandle) : PolyMesh :=
  { m with cells := m.cells ++ [hfs] }

/-- The per-cell locals of `addCellsToHexMeshWithLargeCells` together with the mesh. -/
structure CellAssembly where
  polyMesh : PolyMesh
  processed_darts : List DartId
  halffaces : List HalfFaceHandle

/-- What the function does with a finished `halfface_vertices`: a list of more than two
vertices becomes a half-face (looked up with the external `halfface_extensive`, added
when the lookup yields no valid handle) that is recorded in `halffaces`; a shorter
list is dropped. -/
def keepFace (halfface_extensive : PolyMesh → List VertexHandle → Option HalfFaceHandle)
    (acc : CellAssembly) (processed_darts : List DartId)
    (halfface_vertices : List VertexHandle) : CellAssembly :=
  if halfface_vertices.length > 2 then
    let found :=
      match halfface_extensive acc.polyMesh halfface_vertices with
      | some hfh => (acc.polyMesh, hfh)
      | none => acc.polyMesh.add_face halfface_vertices
    let polyMesh := { found.1 with
      differenceBetweenInvertedAndProperDartsPerHalffacePoly :=
        Function.update found.1.differenceBetweenInvertedAndProperDartsPerHalffacePoly found.2
          ((halfface_vertices.length : Int) * 2) }
    { polyMesh := polyMesh, processed_darts := processed_darts,
      halffaces := acc.halffaces ++ [found.2] }
  else
    { acc with processed_darts := processed_darts }

/-- The body of the loop `for (auto d : ds)`. -/
def assembleFace (halfface_extensive : PolyMesh → List VertexHandle → Option HalfFaceHandle)
    (s : HexExtractor) (g : DartGraph) (fuel : Nat) (acc : CellAssembly) (d : DartId) :
    Option CellAssembly :=
  if g.isPrimary d = true ∧ d ∉ acc.processed_darts then
    let tmp_d := rotateBackward g d
    match collectForwardLoop s g d fuel tmp_d acc.processed_darts [] with
    | none => none
    | some walk => some (keepFace halfface_extensive acc walk.1 walk.2)
  else
    some acc

/-- The body of the loop over the intermediate cells. -/
def addLargeCell (halfface_extensive : PolyMesh → List VertexHandle → Option HalfFaceHandle)
    (s : HexExtractor) (g : DartGraph) (fuel : Nat) (polyMesh : PolyMesh) (ch : CellHandle) :
    Option PolyMesh :=
  match (g.dartsInCell ch).foldlM (assembleFace halfface_extensive s g fuel)
      { polyMesh := polyMesh, processed_darts := [], halffaces := [] } with
  | none => none
  | some r =>
    if r.halffaces.length > 0 then some (r.polyMesh.add_cell r.halffaces)
    else some r.polyMesh

/-- The member function `addCellsToHexMeshWithLargeCells(polyMesh)`; `none` when one of
its forward walks is still running after `fuel` passes. -/
def addCellsToHexMeshWithLargeCells
    (halfface_extensive : PolyMesh → List VertexHandle → Option HalfFaceHandle)
    (s : HexExtractor) (g : DartGraph) (fuel : Nat) (polyMesh : PolyMesh) : Option PolyMesh :=
  s.intermediateCells.foldlM (addLargeCell halfface_extensive s g fuel) polyMesh

/-- The `n`-fold forward step from `x`, `none` as soon as a link is null. -/
def forwardIter (g : DartGraph) : Nat → DartId → Option DartId
  | 0, x => some x
  | n + 1, x => (forwardIter g n x).bind (forwardStep g)

/-- The `n`-fold backward step from `x`, `none` as soon as a link is null. -/
def backwardIter (g : DartGraph) : Nat → DartId → Option DartId
  | 0, x => some x
  | n + 1, x => (backwardIter g n x).bind (backwardStep g)

/-- The link `a` is an involution wherever it is defined. -/
def IsInvolution (a : DartId → Option DartId) : Prop :=
  ∀ x y, a x = some y → a y = some x

/-- The darts visited by `n` forward steps from `x`, `x` first; the list ends early at a
null link. -/
def orbitFrom (g : DartGraph) : Nat → DartId → List DartId
  | 0, _ => []
  | n + 1, x =>
    x :: (match forwardStep g x with
      | some y => orbitFrom g n y
      | none => [])

/-- A malformed dart graph on the darts `0`, `1`, `2` of cell `0`.  `alpha1` is an
involution where defined (`1 ↔ 2`, null on `0`), `alpha0` is not: both `0` and `2` name
`1` as their partner while `1` names `2`. -/
def stuckGraph : DartGraph where
  alpha0 := fun x => if x = 0 then some 1 else if x = 1 then some 2 else if x = 2 then some 1 else none
  alpha1 := fun x => if x = 1 then some 2 else if x = 2 then some 1 else none
  isPrimary := fun x => decide (x = 0)
  getVertex := fun x => ⟨(x : Int)⟩
  dartsInCell := fun ch => if ch = 0 then [0, 1, 2] else []

/-- The eight darts `0 .. 7` of a quadrilateral face of cell `0`: `alpha0` pairs `2i`
with `2i + 1`, `alpha1` pairs `2i + 1` with `2i + 2` (modulo `8`), and the even darts
are the primary ones. -/
def squareGraph : DartGraph where
  alpha0 := fun x => if x < 8 then some (if x % 2 = 0 then x + 1 else x - 1) else none
  alpha1 := fun x => if x < 8 then some (if x % 2 = 0 then (x + 7) % 8 else (x + 1) % 8) else none
  isPrimary := fun x => decide (x % 2 = 0)
  getVertex := fun x => ⟨(x : Int)⟩
  dartsInCell := fun ch => if ch = 0 then [0, 1, 2, 3, 4, 5, 6, 7] else []

/-- A polyhedral output mesh without faces and cells. -/
def emptyPolyMesh : PolyMesh where
  faces := []
  cells := []
  differenceBetweenInvertedAndProperDartsPerHalffacePoly := fun _ => 0

/-- A lookup `halfface_extensive` that never finds an existing half-face. -/
def noHalfface : PolyMesh → List VertexHandle → Option HalfFaceHandle := fun _ _ => none

/-! ## `reconnectOrDisconnect` -/

/-- The member template `reconnectOrDisconnect<i>(dart, otherDart, d1, d2)`.  A `Dart*`
is an optional dart, `none` being `nullptr`, and `G` is the store of all darts with
their links.  The members `connectAlpha<i>` and `disconnectAlpha<i>` of `Dart`, whose
code is not part of the sources at hand, are parameters: `connectAlpha i a b g` is the
store after `a->connectAlpha<i>(b)` and `disconnectAlpha i a g` the store after
`a->disconnectAlpha<i>()`. -/
def reconnectOrDisconnect {G : Type} (connectAlpha : Nat → DartId → DartId → G → G)
    (disconnectAlpha : Nat → DartId → G → G) (i : Nat)
    (dart otherDart d1 d2 : Option DartId) (g : G) : G :=
  if d2 ≠ dart ∧ d1 ≠ otherDart then
    match d2, d1 with
    | some x2, some x1 => connectAlpha i x2 x1 g
    | _, _ =>
      let g1 :=
        match d1 with
        | some x1 => disconnectAlpha i x1 g
        | none => g
      match d2 with
      | some x2 => disconnectAlpha i x2 g1
      | none => g1
  else g

/-- A store of darts that holds the alpha links only: `links i d` is
`d->getAlpha<i>()`. -/
abbrev AlphaLinks := Nat → DartId → Option DartId

/-- The links in which the darts `3` and `4` are each other's alpha-2 and no other link
is set. -/
def linkedPair : AlphaLinks := fun i d =>
  if i = 2 ∧ d = 3 then some 4 else if i = 2 ∧ d = 4 then some 3 else none

/-! ## Order instances for sorting handles -/

instance : IsTotal VertexHandle (fun a b => a.idx ≤ b.idx) := ⟨fun a b => le_total a.idx b.idx⟩

instance : IsTrans VertexHandle (fun a b => a.idx ≤ b.idx) :=
  ⟨fun _ _ _ h1 h2 => le_trans h1 h2⟩

end HexEx

/-! MC3D motorcycle tracing: a shallow embedding of `MotorcycleTracer`.

The definitions below transcribe the member functions of `mc3d::MotorcycleTracer`
(`MotorcycleTracer.cpp`): `traceAllMotorcycles`, `traceNextMotorcycle`,
`forEachChildMotorcycle`, `traceMotorcycle`, `propagateAcrossEdge` and `isAlive`.

Conventions of the embedding.

* OpenVolumeMesh handles are natural numbers; the half-faces of face `f` are `2 f` and
  `2 f + 1`, likewise for half-edges.
* The mesh with its properties is the record of the queries that the tracer makes; a
  member function is a function from the tracer before the call to the tracer after it.
* `Q` is the type of exact rationals of the source.  The counters are `int`s, reduced
  into the 32-bit range after each increment.
* The navigator, the manipulator, `Transition` and the queue discipline are not part of
  the sources at hand; they are the fields of `External`.
* A loop that need not terminate takes a bound on the number of its passes and yields
  `none` when it is still running after that many.
-/

namespace mc3d

/-! ## Handles, vectors and motorcycles -/

/-- Cell (tet) handles. -/
abbrev CH := Nat

/-- Edge handles. -/
abbrev EH := Nat

/-- Face handles. -/
abbrev FH := Nat

/-- Vertex handles. -/
abbrev VH := Nat

/-- Half-edge handles. -/
abbrev HEH := Nat

/-- Half-face handles. -/
abbrev HFH := Nat

/-- The exact rational number type `Q` of the source. -/
abbrev Q := ℚ

/-- A vector of three exact rationals. -/
abbrev Vec3Q := Q × Q × Q

/-- A vector of three integers. -/
abbrev Vec3i := Int × Int × Int

/-- The component `v[i]` of a three-vector. -/
def vecGet {α : Type} (v : α × α × α) (i : Fin 3) : α :=
  if i = 0 then v.1 else if i = 1 then v.2.1 else v.2.2

/-- The assignment `v[i] = x` on a three-vector. -/
def vecSet {α : Type} (v : α × α × α) (i : Fin 3) (x : α) : α × α × α :=
  if i = 0 then (x, v.2.1, v.2.2) else if i = 1 then (v.1, x, v.2.2) else (v.1, v.2.1, x)

/-- A motorcycle: the tet it is in, the edge it emanates from, its encoded coordinates,
its iso and start value and the distances travelled. -/
structure Motorcycle where
  tet : CH
  edge : EH
  encodedCoords : Vec3i
  isoValue : Q
  startValue : Q
  dist : Q
  directDist : Q
deriving DecidableEq, Repr

/-- The two return codes of `MotorcycleTracer::RetCode` that the tracer names, and a
constructor for any further code of the enumeration. -/
inductive RetCode where
  | SUCCESS
  | DEGENERATE_CHART
  | OTHER (code : Nat)
deriving DecidableEq, Repr

/-- The result of `orientationRelativeToTet`. -/
inductive Orientation where
  | OUTSIDE
  | BOUNDARY
  | INSIDE
deriving DecidableEq, Repr

/-- The mesh elements gathered by `getTetElements` that `traceMotorcycle` uses: the
vertices `A`, `B`, `C`, `D` of the tet (`BC` being the motorcycle's edge), the
half-edges `AD` and `BC` and the half-faces `BCD` and `CBA`. -/
structure TetElements where
  vA : VH
  vB : VH
  vC : VH
  vD : VH
  heAD : HEH
  heBC : HEH
  hfBCD : HFH
  hfCBA : HFH

/-! ## The mesh with its properties -/

/-- The tet mesh with its property maps, `meshProps()`, as far as the tracer observes
it.  Every query of the mesh or of a property is a total function on handles; `T` is
the type of the transitions stored on half-faces.  `WALL_DIST` holds `float` values,
which are rationals. -/
structure TetMeshProps (T : Type) where
  is_deleted_cell : CH → Bool
  is_deleted_edge : EH → Bool
  cell_edges : CH → List EH
  edge_faces : EH → List FH
  is_boundary_edge : EH → Bool
  is_boundary_halfedge : HEH → Bool
  is_boundary_face : FH → Bool
  next_halfedge_in_halfface : HEH → HFH → HEH
  prev_halfedge_in_halfface : HEH → HFH → HEH
  adjacent_halfface_in_cell : HFH → HEH → HFH
  incident_cell : HFH → CH
  find_halfface : List VH → HFH
  find_halfedge : VH → VH → HEH
  CHART : CH → VH → Vec3Q
  IS_WALL : FH → Bool
  WALL_DIST : FH → Q
  IS_SINGULAR : EH → Bool
  IS_ORIGINAL_F_allocated : Bool
  IS_ORIGINAL_F : FH → Bool
  MC_BLOCK_DATA_allocated : Bool
  CHILD_CELLS : CH → List CH
  CHILD_EDGES : EH → List EH
  hfTransition : HFH → T

/-- OpenVolumeMesh `face_handle`: half-faces `2 f` and `2 f + 1` belong to face `f`. -/
def face_handle (hf : HFH) : FH := hf / 2

/-- OpenVolumeMesh `edge_handle`: half-edges `2 e` and `2 e + 1` belong to edge `e`. -/
def edge_handle (he : HEH) : EH := he / 2

/-- OpenVolumeMesh `opposite_halfface_handle`. -/
def opposite_halfface_handle (hf : HFH) : HFH := if hf % 2 = 0 then hf + 1 else hf - 1

/-- OpenVolumeMesh `opposite_halfedge_handle`. -/
def opposite_halfedge_handle (he : HEH) : HEH := if he % 2 = 0 then he + 1 else he - 1

/-- The operations that the tracer calls and whose code is not part of the sources at
hand: the mesh navigator and manipulator, the static coordinate functions of
`Motorcycle`, the operations of `Transition`, the conversion `(float)q.get_d()` and the
queue discipline.  A queue is the list of its motorcycles in the order in which `top`
and `pop` would deliver them; `pushGlobal m q` and `pushLocal m q` are the queues after
`push(m)`.  `uninitialized` is the value read from an uninitialised `RetCode`. -/
structure External (T : Type) where
  getTetElements : TetMeshProps T → CH → EH → TetElements
  splitHalfEdge : TetMeshProps T → HEH → CH → Q → TetMeshProps T × VH
  orientationRelativeToTet : TetMeshProps T → Motorcycle → Orientation
  getDirectDistToOrigin : TetMeshProps T → Motorcycle → Q
  heCycle : TetMeshProps T → HEH → HFH → HFH → List HFH
  isoCoord : Vec3i → Fin 3
  propagationCoord : Vec3i → Fin 3
  identity : T
  chain : T → T → T
  rotate : T → Vec3i → Vec3i
  apply : T → Vec3Q → Vec3Q
  toFloat : Q → Q
  pushGlobal : Motorcycle → List Motorcycle → List Motorcycle
  pushLocal : Motorcycle → List Motorcycle → List Motorcycle
  uninitialized : RetCode

/-- The data members of `MotorcycleTracer`.  The counters `_qPops` and `_eSplits` are
`int`s. -/
structure MotorcycleTracer (T : Type) where
  meshProps : TetMeshProps T
  _mQ : List Motorcycle
  _localQ : List Motorcycle
  _qPops : Int
  _eSplits : Int
  _simulateBC : Bool
  newWalls : List FH

/-- Arithmetic of the 32-bit `int` counters: the value is reduced into
`[-2^31, 2^31)`. -/
def wrapInt (x : Int) : Int := (x + 2147483648) % 4294967296 - 2147483648

/-! ## `isAlive` -/

/-- The member function `isAlive(e)`. -/
def isAlive {T : Type} (s : MotorcycleTracer T) (e : EH) : Bool :=
  if s.meshProps.is_boundary_edge e then false
  else if s.meshProps.IS_SINGULAR e then false
  else if s._simulateBC && !s.meshProps.MC_BLOCK_DATA_allocated then true
  else
    let wallFacesIncidentOnNewEdge :=
      (s.meshProps.edge_faces e).foldl
        (fun (n : Int) f => if s.meshProps.IS_WALL f then n + 1 else n) 0
    decide (wallFacesIncidentOnNewEdge < 2)

/-! ## `propagateAcrossEdge` -/

/-- The tracer together with the locals that the callback of `propagateAcrossEdge`
captures by reference. -/
structure Propagation (T : Type) where
  tracer : MotorcycleTracer T
  hasPropagated : Bool
  passed : Int
  insideOriginalTet : Bool
  totalTransition : T

/-- The motorcycle `motNew` as constructed in the callback for half-face `hf`, given the
already chained `totalTransition`: distances `0`, the tet behind `hf`, the edge of
`heOpp`, rotated coordinates and transformed values. -/
def newMotorcycle {T : Type} (ext : External T) (mp : TetMeshProps T) (heOpp : HEH)
    (coords : Vec3i) (values : Vec3Q) (totalTransition : T) (hf : HFH) : Motorcycle :=
  let currentCoords := ext.rotate totalTransition coords
  let currentValues := ext.apply totalTransition values
  let nextCell := mp.incident_cell (opposite_halfface_handle hf)
  { tet := nextCell
    edge := edge_handle heOpp
    encodedCoords := currentCoords
    isoValue := vecGet currentValues (ext.isoCoord currentCoords)
    startValue := vecGet currentValues (ext.propagationCoord currentCoords)
    dist := 0
    directDist := 0 }

/-- The motorcycle that is pushed: `motNew` with `directDist` and `dist` filled in. -/
def followUp {T : Type} (ext : External T) (mp : TetMeshProps T) (mot motNew : Motorcycle) :
    Motorcycle :=
  let directDist := ext.getDirectDistToOrigin mp motNew
  { motNew with
    directDist := directDist
    dist := mot.dist + |directDist - mot.directDist| }

/-- The tracer after `_localQ.push(m)`. -/
def pushedLocal {T : Type} (ext : External T) (s : MotorcycleTracer T) (m : Motorcycle) :
    MotorcycleTracer T :=
  { s with _localQ := ext.pushLocal m s._localQ }

/-- The tracer after `_mQ.push(m)`. -/
def pushedGlobal {T : Type} (ext : External T) (s : MotorcycleTracer T) (m : Motorcycle) :
    MotorcycleTracer T :=
  { s with _mQ := ext.pushGlobal m s._mQ }

/-- The callback passed to `forEachHfInHeCycle` by `propagateAcrossEdge`; the second
component is its return value (`true`: break afterwards). -/
def propagateCallback {T : Type} (ext : External T) (mot : Motorcycle) (heOpp : HEH)
    (coords : Vec3i) (values : Vec3Q) (acc : Propagation T) (hf : HFH) :
    Propagation T × Bool :=
  let mp := acc.tracer.meshProps
  let insideOriginalTet :=
    if mp.IS_ORIGINAL_F_allocated && mp.IS_ORIGINAL_F (face_handle hf) then false
    else acc.insideOriginalTet
  let totalTransition := ext.chain acc.totalTransition (mp.hfTransition hf)
  let motNew := newMotorcycle ext mp heOpp coords values totalTransition hf
  if ext.orientationRelativeToTet mp motNew ≠ Orientation.OUTSIDE then
    let pushed := followUp ext mp mot motNew
    let tracer :=
      if insideOriginalTet then pushedLocal ext acc.tracer pushed
      else pushedGlobal ext acc.tracer pushed
    ({ tracer := tracer, hasPropagated := true, passed := acc.passed,
       insideOriginalTet := insideOriginalTet, totalTransition := totalTransition }, true)
  else
    ({ tracer := acc.tracer, hasPropagated := acc.hasPropagated, passed := acc.passed + 1,
       insideOriginalTet := insideOriginalTet, totalTransition := totalTransition }, false)

/-- The navigator `forEachHfInHeCycle`, given the half-faces of the cycle in visiting
order: the callback is called on each until it returns `true`. -/
def forEachHfInHeCycle {σ : Type} (func : σ → HFH → σ × Bool) : List HFH → σ → σ
  | [], acc => acc
  | hf :: rest, acc =>
    let r := func acc hf
    if r.2 then r.1 else forEachHfInHeCycle func rest r.1

/-- The vector `values` of `propagateAcrossEdge`. -/
def startValues {T : Type} (ext : External T) (mot : Motorcycle) : Vec3Q :=
  vecSet (vecSet ((0 : Q), (0 : Q), (0 : Q)) (ext.isoCoord mot.encodedCoords) mot.isoValue)
    (ext.propagationCoord mot.encodedCoords) mot.startValue

/-- The half-faces around `he` that `propagateAcrossEdge` circulates through, from
`hfStart` to `hfStop`. -/
def propagationCycle {T : Type} (ext : External T) (mp : TetMeshProps T) (he : HEH)
    (hfWall : HFH) : List HFH :=
  let heOpp := opposite_halfedge_handle he
  let hfStart := mp.adjacent_halfface_in_cell hfWall he
  let hfStop := opposite_halfface_handle
    (mp.adjacent_halfface_in_cell (opposite_halfface_handle hfWall) heOpp)
  ext.heCycle mp heOpp hfStart hfStop

/-- The locals of `propagateAcrossEdge` after the circulation. -/
def propagateLocals {T : Type} (ext : External T) (s : MotorcycleTracer T) (mot : Motorcycle)
    (he : HEH) (hfWall : HFH) : Propagation T :=
  forEachHfInHeCycle
    (propagateCallback ext mot (opposite_halfedge_handle he) mot.encodedCoords
      (startValues ext mot))
    (propagationCycle ext s.meshProps he hfWall)
    { tracer := s, hasPropagated := false, passed := 0, insideOriginalTet := true,
      totalTransition := ext.identity }

/-- The member function `propagateAcrossEdge(mot, he, hfWall)`. -/
def propagateAcrossEdge {T : Type} (ext : External T) (s : MotorcycleTracer T)
    (mot : Motorcycle) (he : HEH) (hfWall : HFH) : MotorcycleTracer T :=
  (propagateLocals ext s mot he hfWall).tracer

/-! ## `traceMotorcycle` -/

/-- The value `deltaA = uvwA[wallIsoCoord] - Q(mot.isoValue)`. -/
def deltaA {T : Type} (ext : External T) (mp : TetMeshProps T) (mot : Motorcycle) : Q :=
  let elems := ext.getTetElements mp mot.tet mot.edge
  vecGet (mp.CHART mot.tet elems.vA) (ext.isoCoord mot.encodedCoords) - mot.isoValue

/-- The value `deltaD = uvwD[wallIsoCoord] - Q(mot.isoValue)`. -/
def deltaD {T : Type} (ext : External T) (mp : TetMeshProps T) (mot : Motorcycle) : Q :=
  let elems := ext.getTetElements mp mot.tet mot.edge
  vecGet (mp.CHART mot.tet elems.vD) (ext.isoCoord mot.encodedCoords) - mot.isoValue

/-- The split parameter `t = deltaA / (uvwA[wallIsoCoord] - uvwD[wallIsoCoord])`. -/
def splitParameter {T : Type} (ext : External T) (mp : TetMeshProps T) (mot : Motorcycle) : Q :=
  let elems := ext.getTetElements mp mot.tet mot.edge
  deltaA ext mp mot /
    (vecGet (mp.CHART mot.tet elems.vA) (ext.isoCoord mot.encodedCoords) -
      vecGet (mp.CHART mot.tet elems.vD) (ext.isoCoord mot.encodedCoords))

/-- The tracer and the locals `newWallHf`, `heNext1`, `heNext2` where `traceMotorcycle`
reaches the line `FH newWall = tetMesh.face_handle(newWallHf)`. -/
structure WallCandidate (T : Type) where
  tracer : MotorcycleTracer T
  newWallHf : HFH
  heNext1 : HEH
  heNext2 : HEH

/-- The first part of `traceMotorcycle`, up to the choice of the wall candidate; `none`
stands for the early `return DEGENERATE_CHART`. -/
def wallCandidate {T : Type} (ext : External T) (s : MotorcycleTracer T) (mot : Motorcycle) :
    Option (WallCandidate T) :=
  let elems := ext.getTetElements s.meshProps mot.tet mot.edge
  let isoFacetCBA := decide (deltaA ext s.meshProps mot = 0)
  let isoFacetBCD := decide (deltaD ext s.meshProps mot = 0)
  if !isoFacetCBA && !isoFacetBCD then
    let t := splitParameter ext s.meshProps mot
    let split := ext.splitHalfEdge s.meshProps elems.heAD mot.tet t
    let vN := split.2
    some
      { tracer := { s with meshProps := split.1, _eSplits := wrapInt (s._eSplits + 1) }
        newWallHf := split.1.find_halfface [elems.vB, elems.vC, vN]
        heNext1 := split.1.find_halfedge vN elems.vB
        heNext2 := split.1.find_halfedge elems.vC vN }
  else if isoFacetBCD && isoFacetCBA then
    none
  else
    let newWallHf := if isoFacetBCD then elems.hfBCD else elems.hfCBA
    let heCurrent := if isoFacetBCD then elems.heBC else opposite_halfedge_handle elems.heBC
    some
      { tracer := s
        newWallHf := newWallHf
        heNext1 := s.meshProps.next_halfedge_in_halfface heCurrent newWallHf
        heNext2 := s.meshProps.prev_halfedge_in_halfface heCurrent newWallHf }

/-- The tracer after `set<IS_WALL>`, `set<WALL_DIST>` and `newWalls.emplace_back`. -/
def markWall {T : Type} (ext : External T) (s : MotorcycleTracer T) (mot : Motorcycle)
    (newWall : FH) : MotorcycleTracer T :=
  { s with
    meshProps := { s.meshProps with
      IS_WALL := Function.update s.meshProps.IS_WALL newWall true
      WALL_DIST := Function.update s.meshProps.WALL_DIST newWall (ext.toFloat mot.dist) }
    newWalls := s.newWalls ++ [newWall] }

/-- The tracer of `traceMotorcycle` right after the new wall has been marked. -/
def afterMark {T : Type} (ext : External T) (w : WallCandidate T) (mot : Motorcycle) :
    MotorcycleTracer T :=
  markWall ext w.tracer mot (face_handle w.newWallHf)

/-- The tracer of `traceMotorcycle` after the statement
`if (isAlive(tetMesh.edge_handle(heNext1))) propagateAcrossEdge(mot, heNext1, newWallHf);`. -/
def afterFirstEdge {T : Type} (ext : External T) (w : WallCandidate T) (mot : Motorcycle) :
    MotorcycleTracer T :=
  if isAlive (afterMark ext w mot) (edge_handle w.heNext1) then
    propagateAcrossEdge ext (afterMark ext w mot) mot w.heNext1 w.newWallHf
  else afterMark ext w mot

/-- The tracer of `traceMotorcycle` after the statement
`if (isAlive(tetMesh.edge_handle(heNext2))) propagateAcrossEdge(mot, heNext2, newWallHf);`. -/
def afterSecondEdge {T : Type} (ext : External T) (w : WallCandidate T) (mot : Motorcycle) :
    MotorcycleTracer T :=
  if isAlive (afterFirstEdge ext w mot) (edge_handle w.heNext2) then
    propagateAcrossEdge ext (afterFirstEdge ext w mot) mot w.heNext2 w.newWallHf
  else afterFirstEdge ext w mot

/-- The second part of `traceMotorcycle`, from `FH newWall = ...` to the end. -/
def wallAndPropagate {T : Type} (ext : External T) (w : WallCandidate T) (mot : Motorcycle) :
    RetCode × MotorcycleTracer T :=
  let newWall := face_handle w.newWallHf
  if w.tracer.meshProps.IS_WALL newWall || w.tracer.meshProps.is_boundary_face newWall then
    (RetCode.SUCCESS, w.tracer)
  else
    (RetCode.SUCCESS, afterSecondEdge ext w mot)

/-- The member function `traceMotorcycle(mot)`: the return code and the tracer after the
call. -/
def traceMotorcycle {T : Type} (ext : External T) (s : MotorcycleTracer T) (mot : Motorcycle) :
    RetCode × MotorcycleTracer T :=
  match wallCandidate ext s mot with
  | none => (RetCode.DEGENERATE_CHART, s)
  | some w => wallAndPropagate ext w mot

/-! ## `forEachChildMotorcycle` -/

/-- The inner loop of `forEachChildMotorcycle` over `validChildrenEdges` for the valid
tet `tet`.  `kept` are the edges before the iterator, `e :: rest` the edges from the
iterator on; the result is the callback state and the list after the loop.  `fuel`
bounds the passes of the embedding: `none` when the loop is still running.  The
callback state `σ` holds the tracer, whose mesh `meshOf` reads. -/
def childEdgeLoop {T σ : Type} (ext : External T) (meshOf : σ → TetMeshProps T)
    (func : σ → Motorcycle → σ) (mot : Motorcycle) (tet : CH) (tetEdges : List EH) :
    Nat → σ → List EH → List EH → Option (σ × List EH)
  | 0, _, _, _ => none
  | _ + 1, acc, kept, [] => some (acc, kept)
  | fuel + 1, acc, kept, e :: rest =>
    if (meshOf acc).is_deleted_edge e then
      childEdgeLoop ext meshOf func mot tet tetEdges fuel acc kept
        (rest ++ (meshOf acc).CHILD_EDGES e)
    else if e ∈ tetEdges then
      let motChild := { mot with tet := tet, edge := e }
      if ext.orientationRelativeToTet (meshOf acc) motChild ≠ Orientation.OUTSIDE then
        some (func acc motChild, kept ++ rest)
      else
        childEdgeLoop ext meshOf func mot tet tetEdges fuel acc (kept ++ [e]) rest
    else
      childEdgeLoop ext meshOf func mot tet tetEdges fuel acc (kept ++ [e]) rest

/-- The outer loop of `forEachChildMotorcycle` over `validChildrenTets`, from the
iterator on. -/
def childTetLoop {T σ : Type} (ext : External T) (meshOf : σ → TetMeshProps T)
    (func : σ → Motorcycle → σ) (mot : Motorcycle) :
    Nat → σ → List CH → List EH → Option σ
  | 0, _, _, _ => none
  | _ + 1, acc, [], _ => some acc
  | fuel + 1, acc, tet :: rest, validChildrenEdges =>
    if (meshOf acc).is_deleted_cell tet then
      childTetLoop ext meshOf func mot fuel acc (rest ++ (meshOf acc).CHILD_CELLS tet)
        validChildrenEdges
    else
      match childEdgeLoop ext meshOf func mot tet ((meshOf acc).cell_edges tet) fuel acc []
          validChildrenEdges with
      | none => none
      | some r => childTetLoop ext meshOf func mot fuel r.1 rest r.2

/-- The member function `forEachChildMotorcycle(mot, func)`. -/
def forEachChildMotorcycle {T σ : Type} (ext : External T) (meshOf : σ → TetMeshProps T)
    (fuel : Nat) (mot : Motorcycle) (func : σ → Motorcycle → σ) (acc : σ) : Option σ :=
  childTetLoop ext meshOf func mot fuel acc [mot.tet] [mot.edge]

/-! ## `traceNextMotorcycle` and `traceAllMotorcycles` -/

/-- The motorcycle `q.top()`; on an empty queue the call is undefined in the source and
yields this motorcycle of zeros. -/
def queueTop (q : List Motorcycle) : Motorcycle :=
  q.headD
    { tet := 0, edge := 0, encodedCoords := (0, 0, 0), isoValue := 0, startValue := 0,
      dist := 0, directDist := 0 }

/-- The lambda handed to `forEachChildMotorcycle` by `traceNextMotorcycle`: it traces the
child and stores the code in the captured `ret`. -/
def traceChild {T : Type} (ext : External T) (acc : MotorcycleTracer T × RetCode)
    (child : Motorcycle) : MotorcycleTracer T × RetCode :=
  let r := traceMotorcycle ext acc.1 child
  (r.2, r.1)

/-- The loop `while (!_localQ.empty())` of `traceNextMotorcycle` with the final
`return SUCCESS`; `none` when it is still running after `fuel` passes. -/
def drainLocalQueue {T : Type} (ext : External T) :
    Nat → MotorcycleTracer T → Option (RetCode × MotorcycleTracer T)
  | 0, _ => none
  | fuel + 1, s =>
    if s._localQ.isEmpty then some (RetCode.SUCCESS, s)
    else
      let mot := queueTop s._localQ
      let s1 := { s with _localQ := s._localQ.tail }
      if !s1.meshProps.is_deleted_cell mot.tet then
        let r := traceMotorcycle ext s1 mot
        if r.1 ≠ RetCode.SUCCESS then some r
        else drainLocalQueue ext fuel r.2
      else
        match forEachChildMotorcycle ext (fun acc => acc.1.meshProps) fuel mot
            (traceChild ext) (s1, ext.uninitialized) with
        | none => none
        | some r =>
          if r.2 ≠ RetCode.SUCCESS then some (r.2, r.1)
          else drainLocalQueue ext fuel r.1

/-- The tracer after the first three statements of `traceNextMotorcycle`. -/
def popGlobal {T : Type} (ext : External T) (s : MotorcycleTracer T) : MotorcycleTracer T :=
  { s with
    _localQ := ext.pushLocal (queueTop s._mQ) s._localQ
    _mQ := s._mQ.tail
    _qPops := wrapInt (s._qPops + 1) }

/-- The member function `traceNextMotorcycle()`. -/
def traceNextMotorcycle {T : Type} (ext : External T) (fuel : Nat) (s : MotorcycleTracer T) :
    Option (RetCode × MotorcycleTracer T) :=
  drainLocalQueue ext fuel (popGlobal ext s)

/-- The member function `traceAllMotorcycles()` (its logging and the logged `maxDist`
are left out); `none` when it is still running after `fuel` passes of its loop or when a
call of `traceNextMotorcycle` is still running after `fuel` passes of its loops. -/
def traceAllMotorcycles {T : Type} (ext : External T) (fuel : Nat) :
    Nat → MotorcycleTracer T → Option (RetCode × MotorcycleTracer T)
  | 0, _ => none
  | n + 1, s =>
    if s._mQ.isEmpty then some (RetCode.SUCCESS, s)
    else
      match traceNextMotorcycle ext fuel s with
      | none => none
      | some r =>
        if r.1 ≠ RetCode.SUCCESS then some r
        else traceAllMotorcycles ext fuel n r.2

/-! ## The follow-up motorcycle, described by position in the cycle -/

/-- The transition `t0` chained with the transitions of the half-faces `cycle[0 .. i]`. -/
def chainedFrom {T : Type} (ext : External T) (mp : TetMeshProps T) (t0 : T)
    (cycle : List HFH) (i : Nat) : T :=
  (cycle.take (i + 1)).foldl (fun t hf => ext.chain t (mp.hfTransition hf)) t0

/-- The motorcycle handed to the tet behind `cycle[i]`: the coordinates and values of
`mot` carried through the transitions of `cycle[0 .. i]`, chained onto `t0`. -/
def candidateAt {T : Type} (ext : External T) (mp : TetMeshProps T) (mot : Motorcycle)
    (he : HEH) (t0 : T) (cycle : List HFH) (i : Nat) : Motorcycle :=
  newMotorcycle ext mp (opposite_halfedge_handle he) mot.encodedCoords (startValues ext mot)
    (chainedFrom ext mp t0 cycle i) (cycle.getD i 0)

/-- The tet behind `cycle[i]` receives its motorcycle with an orientation other than
`OUTSIDE`. -/
def acceptsAt {T : Type} (ext : External T) (mp : TetMeshProps T) (mot : Motorcycle)
    (he : HEH) (t0 : T) (cycle : List HFH) (i : Nat) : Bool :=
  decide (ext.orientationRelativeToTet mp (candidateAt ext mp mot he t0 cycle i) ≠
    Orientation.OUTSIDE)

/-- The half-face lies on a face marked `IS_ORIGINAL_F`, the property being allocated. -/
def onOriginalFace {T : Type} (mp : TetMeshProps T) (hf : HFH) : Bool :=
  mp.IS_ORIGINAL_F_allocated && mp.IS_ORIGINAL_F (face_handle hf)

/-- None of the half-faces `cycle[0 .. i]` lies on an original face. -/
def insideUpTo {T : Type} (mp : TetMeshProps T) (cycle : List HFH) (i : Nat) : Bool :=
  (cycle.take (i + 1)).all (fun hf => !onOriginalFace mp hf)

/-! ## Frame conditions -/

/-- The queue `q'` arises from `q` by pushing motorcycles with `push`. -/
def PushedOnto (push : Motorcycle → List Motorcycle → List Motorcycle)
    (q q' : List Motorcycle) : Prop :=
  ∃ ms : List Motorcycle, q' = ms.foldl (fun acc m => push m acc) q

/-- The tracer `s'` differs from `s` at most by motorcycles pushed into the two queues. -/
def OnlyPushes {T : Type} (ext : External T) (s s' : MotorcycleTracer T) : Prop :=
  s'.meshProps = s.meshProps ∧ s'._qPops = s._qPops ∧ s'._eSplits = s._eSplits ∧
  s'._simulateBC = s._simulateBC ∧ s'.newWalls = s.newWalls ∧
  PushedOnto ext.pushGlobal s._mQ s'._mQ ∧ PushedOnto ext.pushLocal s._localQ s'._localQ

/-! ## A sample mesh for concrete evaluations -/

/-- A sample mesh with integer transitions.  In tet `c` the vertices `A` and `D` are
`4 c` and `4 c + 3`; the first chart coordinate of `A` is `-1` in the tets `0` and `1`
and `0` elsewhere, that of `D` is `1` in the tets with an odd handle and `0` elsewhere.  Edges
from `10` on are boundary edges, edge `e` has the faces `e` and `e + 1`, nothing is
deleted, and the transition of half-face `hf` is the integer `hf`. -/
def sampleProps : TetMeshProps Int where
  is_deleted_cell := fun _ => false
  is_deleted_edge := fun _ => false
  cell_edges := fun _ => []
  edge_faces := fun e => [e, e + 1]
  is_boundary_edge := fun e => decide (10 ≤ e)
  is_boundary_halfedge := fun _ => false
  is_boundary_face := fun _ => false
  next_halfedge_in_halfface := fun he _ => he + 2
  prev_halfedge_in_halfface := fun he _ => he + 40
  adjacent_halfface_in_cell := fun hf _ => hf + 2
  incident_cell := fun hf => hf / 2
  find_halfface := fun _ => 60
  find_halfedge := fun a b => 2 * (a + b)
  CHART := fun c v =>
    (if v % 4 = 0 then (if c = 0 ∨ c = 1 then -1 else 0)
      else if v % 4 = 3 then (if c % 2 = 1 then 1 else 0) else 0, 0, 0)
  IS_WALL := fun _ => false
  WALL_DIST := fun _ => 0
  IS_SINGULAR := fun _ => false
  IS_ORIGINAL_F_allocated := true
  IS_ORIGINAL_F := fun f => decide (f = 4)
  MC_BLOCK_DATA_allocated := false
  CHILD_CELLS := fun _ => []
  CHILD_EDGES := fun _ => []
  hfTransition := fun hf => (hf : Int)

/-- Sample external operations on `sampleProps`-like meshes: tet `c` has the elements
`A = 4 c`, `B = 4 c + 1`, `C = 4 c + 2`, `D = 4 c + 3`, a split changes nothing and
yields the vertex `99`, a tet with an odd handle accepts every motorcycle, the cycle
from `hfStart` runs over three half-faces, transitions add up and shift the second
value, the global queue is first-in first-out and the local queue is a stack. -/
def sampleExt : External Int where
  getTetElements := fun _ c e =>
    { vA := 4 * c, vB := 4 * c + 1, vC := 4 * c + 2, vD := 4 * c + 3,
      heAD := 2 * (100 + c), heBC := 2 * e, hfBCD := 2 * (20 + c), hfCBA := 2 * (30 + c) }
  splitHalfEdge := fun mp _ _ _ => (mp, 99)
  orientationRelativeToTet := fun _ m =>
    if m.tet % 2 = 1 then Orientation.INSIDE else Orientation.OUTSIDE
  getDirectDistToOrigin := fun _ m => m.startValue
  heCycle := fun _ _ hfStart _ => [hfStart, hfStart + 4, hfStart + 7]
  isoCoord := fun _ => 0
  propagationCoord := fun _ => 1
  identity := 0
  chain := fun a b => a + b
  rotate := fun _ c => c
  apply := fun t v => (v.1, v.2.1 + (t : Q), v.2.2)
  toFloat := fun q => q
  pushGlobal := fun m q => q ++ [m]
  pushLocal := fun m q => m :: q
  uninitialized := RetCode.OTHER 7

/-- A sample motorcycle in tet `c` on edge `e` with iso value `0` and start value `2`. -/
def sampleMotorcycle (c : CH) (e : EH) : Motorcycle :=
  { tet := c, edge := e, encodedCoords := (1, 2, 3), isoValue := 0, startValue := 2,
    dist := 5, directDist := 1 }

/-- A sample tracer on `sampleProps` with the given global queue. -/
def sampleTracer (q : List Motorcycle) : MotorcycleTracer Int :=
  { meshProps := sampleProps, _mQ := q, _localQ := [], _qPops := 0, _eSplits := 0,
    _simulateBC := false, newWalls := [] }

/-- A sample wall candidate on the sample tracer: half-face `8` of face `4`, with next
edges `4` (faces `4`, `5`) and `3` (faces `3`, `4`). -/
def sampleWall : WallCandidate Int :=
  { tracer := sampleTracer [], newWallHf := 8, heNext1 := 8, heNext2 := 6 }

/-- The wall candidate of `sampleMotorcycle 0 3` on the sample tracer: the facet `BCD`. -/
def sampleCandidate : WallCandidate Int :=
  { tracer := sampleTracer [], newWallHf := 40, heNext1 := 8, heNext2 := 46 }

/-! ## The passes of the loop of `traceAllMotorcycles` -/

/-- One pass of the loop `while (!_mQ.empty())` of `traceAllMotorcycles` that goes on to
the next test of the loop condition: the global queue is non-empty and
`traceNextMotorcycle` returns `SUCCESS`; the result is the tracer after the pass.
`none` when the loop is left (or the call is still running after `fuel` passes of its
loops). -/
def loopPass {T : Type} (ext : External T) (fuel : Nat) (s : MotorcycleTracer T) :
    Option (MotorcycleTracer T) :=
  if s._mQ.isEmpty then none
  else
    match traceNextMotorcycle ext fuel s with
    | none => none
    | some r => if r.1 ≠ RetCode.SUCCESS then none else some r.2

/-- The tracer at the head of the loop of `traceAllMotorcycles` after `k` passes;
`none` when the loop makes fewer passes. -/
def loopHeadAfter {T : Type} (ext : External T) (fuel : Nat) :
    Nat → MotorcycleTracer T → Option (MotorcycleTracer T)
  | 0, s => some s
  | k + 1, s => (loopHeadAfter ext fuel k s).bind (loopPass ext fuel)

/-- The tracer `s'` has the `_qPops` of `s` and a global queue that arises from that of
`s` by pushes alone. -/
def KeepsPops {T : Type} (ext : External T) (s s' : MotorcycleTracer T) : Prop :=
  s'._qPops = s._qPops ∧ PushedOnto ext.pushGlobal s._mQ s'._mQ

end mc3d

/-! # Theorems -/

namespace HexEx

/-! ## Sorting and `std::unique` -/

theorem VertexHandle.eq_of_idx_eq {a b : VertexHandle} (h : a.idx = b.idx) : a = b := by
  cases a; cases b; simp_all

theorem sortHandles_perm (l : List VertexHandle) : (sortHandles l).Perm l :=
  List.perm_insertionSort _ l

theorem sortHandles_sorted (l : List VertexHandle) :
    (sortHandles l).Sorted (fun a b => a.idx ≤ b.idx) :=
  List.sorted_insertionSort _ l

theorem nodup_of_sorted_of_chain (m : List VertexHandle)
    (hs : m.Sorted (fun a b => a.idx ≤ b.idx)) (hc : m.Chain' (fun a b => a ≠ b)) :
    m.Nodup := by
  induction m with
  | nil => exact List.nodup_nil
  | cons a m ih =>
    have hs' := List.sorted_cons.1 hs
    have hc' := List.chain'_cons'.1 hc
    refine List.nodup_cons.2 ⟨?_, ih hs'.2 hc'.2⟩
    intro ha
    cases m with
    | nil => simp at ha
    | cons y m =>
      have hay : a ≠ y := hc'.1 y (by simp)
      have h1 : a.idx ≤ y.idx := hs'.1 y (by simp)
      rcases List.mem_cons.1 ha with h | h
      · exact hay h
      · have h2 : y.idx ≤ a.idx := (List.sorted_cons.1 hs'.2).1 a h
        exact hay (VertexHandle.eq_of_idx_eq (le_antisymm h1 h2))

theorem eraseUnique_length_eq_iff (l : List VertexHandle) :
    (eraseUnique (sortHandles l)).length = l.length ↔ l.Nodup := by
  have hperm := sortHandles_perm l
  have hsorted := sortHandles_sorted l
  constructor
  · intro h
    have hlen : (eraseUnique (sortHandles l)).length = (sortHandles l).length := by
      rw [h, hperm.length_eq]
    have heq : eraseUnique (sortHandles l) = sortHandles l :=
      (List.destutter_sublist _ _).eq_of_length hlen
    have hchain : (sortHandles l).Chain' (fun a b => a ≠ b) :=
      (List.destutter_eq_self_iff _ _).1 heq
    exact hperm.nodup_iff.1 (nodup_of_sorted_of_chain _ hsorted hchain)
  · intro h
    have hnd : (sortHandles l).Nodup := hperm.nodup_iff.2 h
    have hchain : (sortHandles l).Chain' (fun a b => a ≠ b) := by
      have : (sortHandles l).Pairwise (fun a b => a ≠ b) := hnd
      exact this.chain'
    have heq : eraseUnique (sortHandles l) = sortHandles l :=
      (List.destutter_eq_self_iff _ _).2 hchain
    rw [heq, hperm.length_eq]

theorem VertexHandle.is_valid_iff (v : VertexHandle) :
    v.is_valid = true ↔ v ≠ VertexHandle.invalid := by
  cases v with
  | mk i =>
    simp [VertexHandle.is_valid, VertexHandle.invalid]

theorem cubeVertices_length (c : VertexCube) : (cubeVertices c).length = 8 := rfl

/-! ## `addCellsToHexMesh` -/

/-- The vertex list handed to `add_cell` for `ch`, characterised. -/
theorem hexCellOf_eq_some_iff (s : HexExtractor) (ch : CellHandle) (vs : List VertexHandle) :
    hexCellOf s ch = some vs ↔
      (s.differenceBetweenInvertedAndProperDartsPerCell ch = -48 ∧
        (cubeVertices (fillVertexCube s ch)).Nodup ∧
        (∀ v ∈ cubeVertices (fillVertexCube s ch), v.is_valid = true) ∧
        vs = cubeVertices (fillVertexCube s ch)) := by
  have hlen := eraseUnique_length_eq_iff (cubeVertices (fillVertexCube s ch))
  rw [cubeVertices_length] at hlen
  have hval : (VertexHandle.invalid ∉ cubeVertices (fillVertexCube s ch)) ↔
      ∀ v ∈ cubeVertices (fillVertexCube s ch), v.is_valid = true := by
    constructor
    · intro h v hv
      rw [VertexHandle.is_valid_iff]
      intro hv'
      exact h (hv' ▸ hv)
    · intro h hmem
      have := h _ hmem
      rw [VertexHandle.is_valid_iff] at this
      exact this rfl
  unfold hexCellOf
  by_cases h48 : s.differenceBetweenInvertedAndProperDartsPerCell ch = -48
  · by_cases hnd : (cubeVertices (fillVertexCube s ch)).Nodup
    · by_cases hv : VertexHandle.invalid ∉ cubeVertices (fillVertexCube s ch)
      · simp only [h48, hlen.2 hnd, hv, if_true, not_false_eq_true, Option.some.injEq]
        constructor
        · intro h; exact ⟨trivial, hnd, hval.1 hv, h.symm⟩
        · intro h; exact h.2.2.2.symm
      · simp only [h48, hlen.2 hnd, hv, if_true, if_false]
        constructor
        · intro h; cases h
        · intro h; exact absurd (hval.2 h.2.2.1) hv
    · have : ¬ (eraseUnique (sortHandles (cubeVertices (fillVertexCube s ch)))).length = 8 :=
        fun h => hnd (hlen.1 h)
      simp only [h48, this, if_true, if_false]
      constructor
      · intro h; cases h
      · intro h; exact absurd h.2.1 hnd
  · simp only [h48, if_false]
    constructor
    · intro h; cases h
    · intro h; exact h.1.elim

theorem cornerIndex_val (a : Fin 2) : cornerIndex (a.val : Int) = a := by
  fin_cases a <;> rfl

theorem cornerIndex_eq_iff (x : Int) (hx : x = 0 ∨ x = 1) (a : Fin 2) :
    cornerIndex x = a ↔ x = (a.val : Int) := by
  rcases hx with rfl | rfl <;> fin_cases a <;> simp [cornerIndex]

theorem cornerUV_range (a : Fin 2) : ((a.val : Int) = 0 ∨ (a.val : Int) = 1) := by
  fin_cases a <;> simp

/-- One pass of the `cv_iter` loop, read at a slot. -/
theorem writeCorner_apply (s : HexExtractor) (ch : CellHandle) (cube : VertexCube)
    (v : VertexHandle) (a b c : Fin 2) :
    writeCorner s ch cube v a b c =
      if s.localCellUVs ch v = some (cornerUV a b c) then newVhOf s v else cube a b c := by
  unfold writeCorner
  cases huv : s.localCellUVs ch v with
  | none => simp
  | some uv =>
    obtain ⟨x, y, z⟩ := uv
    by_cases hr : (x = 0 ∨ x = 1) ∧ (y = 0 ∨ y = 1) ∧ (z = 0 ∨ z = 1)
    · obtain ⟨hx, hy, hz⟩ := hr
      have hcond : ¬(¬(x = 0 ∨ x = 1) ∨ ¬(y = 0 ∨ y = 1) ∨ ¬(z = 0 ∨ z = 1)) := by
        simp [hx, hy, hz]
      simp only [hcond, if_false, VertexCube.set, cornerUV, Option.some.injEq, Prod.mk.injEq]
      have h1 := cornerIndex_eq_iff x hx a
      have h2 := cornerIndex_eq_iff y hy b
      have h3 := cornerIndex_eq_iff z hz c
      by_cases h : x = (a.val : Int) ∧ y = (b.val : Int) ∧ z = (c.val : Int)
      · have h' : a = cornerIndex x ∧ b = cornerIndex y ∧ c = cornerIndex z :=
          ⟨(h1.2 h.1).symm, (h2.2 h.2.1).symm, (h3.2 h.2.2).symm⟩
        rw [if_pos h', if_pos h]
      · have h' : ¬(a = cornerIndex x ∧ b = cornerIndex y ∧ c = cornerIndex z) := by
          intro hh
          exact h ⟨h1.1 hh.1.symm, h2.1 hh.2.1.symm, h3.1 hh.2.2.symm⟩
        rw [if_neg h', if_neg h]
    · have hcond : (¬(x = 0 ∨ x = 1) ∨ ¬(y = 0 ∨ y = 1) ∨ ¬(z = 0 ∨ z = 1)) := by
        by_contra hc
        push_neg at hc
        exact hr ⟨hc.1, hc.2.1, hc.2.2⟩
      have hne : ¬ (x = (a.val : Int) ∧ y = (b.val : Int) ∧ z = (c.val : Int)) := by
        intro hh
        apply hr
        rw [hh.1, hh.2.1, hh.2.2]
        exact ⟨cornerUV_range a, cornerUV_range b, cornerUV_range c⟩
      simp only [hcond, if_true, cornerUV, Option.some.injEq, Prod.mk.injEq, hne, if_false]

/-- The `cv_iter` loop from an arbitrary cube, read at a slot: the last vertex carrying
the corner decides, otherwise the slot keeps its content. -/
theorem foldl_writeCorner_apply (s : HexExtractor) (ch : CellHandle) (a b c : Fin 2)
    (l : List VertexHandle) (cube : VertexCube) :
    l.foldl (writeCorner s ch) cube a b c =
      ((l.reverse.find? (fun v => decide (s.localCellUVs ch v = some (cornerUV a b c)))).map
        (newVhOf s)).getD (cube a b c) := by
  induction l using List.reverseRecOn with
  | nil => simp
  | append_singleton l v ih =>
    rw [List.foldl_append, List.foldl_cons, List.foldl_nil, writeCorner_apply, ih,
      List.reverse_append, List.reverse_singleton, List.singleton_append, List.find?_cons]
    by_cases h : s.localCellUVs ch v = some (cornerUV a b c)
    · simp [h]
    · simp [h]

theorem fillVertexCube_apply (s : HexExtractor) (ch : CellHandle) (a b c : Fin 2) :
    fillVertexCube s ch a b c =
      ((lastVertexAt s ch a b c).map (newVhOf s)).getD VertexHandle.invalid := by
  unfold fillVertexCube lastVertexAt
  rw [foldl_writeCorner_apply]
  rfl

/-- The cell loop of `addCellsToHexMesh` from any output mesh. -/
theorem foldl_addCell {P : Type} (s : HexExtractor) (l : List CellHandle) (m : HexMesh P) :
    l.foldl
      (fun (acc : HexExtractor × HexMesh P) ch =>
        match hexCellOf acc.1 ch with
        | some vertices => (acc.1, acc.2.add_cell vertices)
        | none => acc)
      (s, m) =
    (s, { vertices := m.vertices, cells := m.cells ++ l.filterMap (hexCellOf s) }) := by
  induction l generalizing m with
  | nil => simp
  | cons ch l ih =>
    rw [List.foldl_cons]
    cases h : hexCellOf s ch with
    | none =>
      simp only [h]
      rw [ih, List.filterMap_cons_none h]
    | some vs =>
      simp only [h]
      rw [ih, List.filterMap_cons_some h]
      simp [HexMesh.add_cell]

theorem addCellsToHexMesh_eq {P : Type} (s : HexExtractor) (hexMesh : HexMesh P) :
    addCellsToHexMesh s hexMesh =
      (s, { vertices := hexMesh.vertices,
            cells := hexMesh.cells ++ s.intermediateCells.filterMap (hexCellOf s) }) :=
  foldl_addCell s s.intermediateCells hexMesh

/-- C1: `addCellsToHexMesh` appends, in cell order, one hex cell for every intermediate
cell `ch` that passes both tests and nothing for the others.  A cell is emitted for
`ch` exactly when `differenceBetweenInvertedAndProperDartsPerCell[ch]` is `-48` and the
eight slots of the filled cube are pairwise distinct valid handles, where each slot
holds the output vertex of the last cell vertex whose cached local UV addresses it (the
default handle when there is none).  An emitted cell is the slot list: eight pairwise
distinct valid output vertices. -/
theorem addCellsToHexMesh_emits_iff {P : Type} (s : HexExtractor) (hexMesh : HexMesh P) :
    (addCellsToHexMesh s hexMesh).2.cells =
        hexMesh.cells ++ s.intermediateCells.filterMap (hexCellOf s) ∧
    (∀ ch a b c, fillVertexCube s ch a b c =
        ((lastVertexAt s ch a b c).map (newVhOf s)).getD VertexHandle.invalid) ∧
    (∀ ch, (hexCellOf s ch).isSome = true ↔
        (s.differenceBetweenInvertedAndProperDartsPerCell ch = -48 ∧
          (cubeVertices (fillVertexCube s ch)).Nodup ∧
          ∀ v ∈ cubeVertices (fillVertexCube s ch), v.is_valid = true)) ∧
    (∀ ch vs, hexCellOf s ch = some vs →
        vs = cubeVertices (fillVertexCube s ch) ∧ vs.length = 8 ∧ vs.Nodup ∧
          ∀ v ∈ vs, v.is_valid = true) := by
  refine ⟨?_, fun ch a b c => fillVertexCube_apply s ch a b c, ?_, ?_⟩
  · rw [addCellsToHexMesh_eq]
  · intro ch
    rw [Option.isSome_iff_exists]
    constructor
    · rintro ⟨vs, h⟩
      have := (hexCellOf_eq_some_iff s ch vs).1 h
      exact ⟨this.1, this.2.1, this.2.2.1⟩
    · rintro ⟨h1, h2, h3⟩
      exact ⟨_, (hexCellOf_eq_some_iff s ch _).2 ⟨h1, h2, h3, rfl⟩⟩
  · intro ch vs h
    have := (hexCellOf_eq_some_iff s ch vs).1 h
    obtain ⟨_, h2, h3, h4⟩ := this
    subst h4
    exact ⟨rfl, rfl, h2, h3⟩

theorem mem_cubeVertices (cube : VertexCube) (a b c : Fin 2) :
    cube a b c ∈ cubeVertices cube := by
  fin_cases a <;> fin_cases b <;> fin_cases c <;> simp [cubeVertices]

theorem cube_injective_of_nodup (cube : VertexCube) (h : (cubeVertices cube).Nodup)
    (a b c a' b' c' : Fin 2) (heq : cube a b c = cube a' b' c') :
    a = a' ∧ b = b' ∧ c = c' := by
  simp only [cubeVertices, List.nodup_cons, List.mem_cons, List.mem_singleton, not_or,
    List.not_mem_nil, not_false_eq_true, List.nodup_nil, and_true] at h
  fin_cases a <;> fin_cases b <;> fin_cases c <;> fin_cases a' <;> fin_cases b' <;>
    fin_cases c' <;> simp_all

/-- C2 (as stated) fails: for the sample cell a hex cell is emitted although vertex `8`
of the cell has no cached local UV and the vertices `0` and `9` carry the same one. -/
theorem crowdedCube_emitted_not_exactly_covered :
    hexCellOf crowdedCube 0 = some [⟨1⟩, ⟨5⟩, ⟨7⟩, ⟨3⟩, ⟨9⟩, ⟨2⟩, ⟨6⟩, ⟨4⟩] ∧
    (⟨8⟩ ∈ crowdedCube.cv_iter 0 ∧ crowdedCube.localCellUVs 0 ⟨8⟩ = none) ∧
    (⟨0⟩ ∈ crowdedCube.cv_iter 0 ∧ ⟨9⟩ ∈ crowdedCube.cv_iter 0 ∧
      crowdedCube.localCellUVs 0 ⟨0⟩ = crowdedCube.localCellUVs 0 ⟨9⟩) ∧
    ¬ CornersExactlyCovered crowdedCube 0 := by
  refine ⟨by decide, by decide, by decide, ?_⟩
  intro h
  obtain ⟨a, b, c, habc⟩ := h.1 ⟨8⟩ (by decide)
  have hnone : crowdedCube.localCellUVs 0 ⟨8⟩ = none := by decide
  rw [hnone] at habc
  cases habc

/-- C2 (amended): whenever `addCellsToHexMesh` emits a hex cell for `ch`, every corner
of the unit cube is the cached local UV of at least one vertex of `ch`; the last such
vertex in iteration order supplies the slot of that corner, its output vertex is valid
and belongs to the emitted cell, and different corners have different output vertices
(hence different supplying vertices). -/
theorem addCellsToHexMesh_emitted_corners (s : HexExtractor) (ch : CellHandle)
    (vs : List VertexHandle) (h : hexCellOf s ch = some vs) :
    (∀ a b c, ∃ v ∈ s.cv_iter ch,
        lastVertexAt s ch a b c = some v ∧
        s.localCellUVs ch v = some (cornerUV a b c) ∧
        fillVertexCube s ch a b c = newVhOf s v ∧
        (newVhOf s v).is_valid = true ∧ newVhOf s v ∈ vs) ∧
    (∀ a b c a' b' c' v w,
        lastVertexAt s ch a b c = some v → lastVertexAt s ch a' b' c' = some w →
        (a, b, c) ≠ (a', b', c') → v ≠ w ∧ newVhOf s v ≠ newVhOf s w) := by
  obtain ⟨_, hnd, hvalid, rfl⟩ := (hexCellOf_eq_some_iff s ch vs).1 h
  constructor
  · intro a b c
    have hmem := mem_cubeVertices (fillVertexCube s ch) a b c
    have hv := hvalid _ hmem
    have happ := fillVertexCube_apply s ch a b c
    cases hl : lastVertexAt s ch a b c with
    | none =>
      rw [hl] at happ
      rw [VertexHandle.is_valid_iff] at hv
      exact absurd happ hv
    | some v =>
      rw [hl] at happ
      have hfind := hl
      unfold lastVertexAt at hfind
      have hp := List.find?_some hfind
      have hm := List.mem_of_find?_eq_some hfind
      refine ⟨v, List.mem_reverse.1 hm, rfl, of_decide_eq_true hp, happ, ?_, ?_⟩
      · have : newVhOf s v = fillVertexCube s ch a b c := happ.symm
        rw [this]; exact hv
      · have : newVhOf s v = fillVertexCube s ch a b c := happ.symm
        rw [this]; exact hmem
  · intro a b c a' b' c' v w hv hw hne
    have h1 := fillVertexCube_apply s ch a b c
    have h2 := fillVertexCube_apply s ch a' b' c'
    rw [hv] at h1
    rw [hw] at h2
    have hnew : newVhOf s v ≠ newVhOf s w := by
      intro heq
      have hcube : fillVertexCube s ch a b c = fillVertexCube s ch a' b' c' := by
        rw [h1, h2]; exact heq
      obtain ⟨ha, hb, hc⟩ := cube_injective_of_nodup _ hnd a b c a' b' c' hcube
      exact hne (by rw [ha, hb, hc])
    exact ⟨fun hvw => hnew (by rw [hvw]), hnew⟩

theorem addCellsToHexMesh_emitted_corners_witness :
    hexCellOf crowdedCube 0 = some [⟨1⟩, ⟨5⟩, ⟨7⟩, ⟨3⟩, ⟨9⟩, ⟨2⟩, ⟨6⟩, ⟨4⟩] ∧
    ((∀ a b c, ∃ v ∈ crowdedCube.cv_iter 0,
        lastVertexAt crowdedCube 0 a b c = some v ∧
        crowdedCube.localCellUVs 0 v = some (cornerUV a b c) ∧
        fillVertexCube crowdedCube 0 a b c = newVhOf crowdedCube v ∧
        (newVhOf crowdedCube v).is_valid = true ∧
        newVhOf crowdedCube v ∈ [⟨1⟩, ⟨5⟩, ⟨7⟩, ⟨3⟩, ⟨9⟩, ⟨2⟩, ⟨6⟩, ⟨4⟩]) ∧
    (∀ a b c a' b' c' v w,
        lastVertexAt crowdedCube 0 a b c = some v → lastVertexAt crowdedCube 0 a' b' c' = some w →
        (a, b, c) ≠ (a', b', c') → v ≠ w ∧ newVhOf crowdedCube v ≠ newVhOf crowdedCube w)) :=
  ⟨by decide, addCellsToHexMesh_emitted_corners crowdedCube 0 _ (by decide)⟩

/-- C6 (as stated) fails: the sample cell is excluded from emission, yet no counter of
the extractor differs after the call. -/
theorem rejectedCell_dropped_silently :
    (0 ∈ rejectedCell.intermediateCells ∧ hexCellOf rejectedCell 0 = none) ∧
    (addCellsToHexMesh rejectedCell emptyHexMesh).2.cells = [] ∧
    (addCellsToHexMesh rejectedCell emptyHexMesh).1.counters = rejectedCell.counters := by
  refine ⟨by decide, by decide, by decide⟩

/-- C6 (amended): `addCellsToHexMesh` leaves every member of the extractor, its counters
included, as it was and does not touch the output vertices; its only effect is the list
of emitted cells, so an excluded cell is visible only as a missing output cell: the
cells added and the cells excluded together number the intermediate cells. -/
theorem addCellsToHexMesh_changes_no_counter {P : Type} (s : HexExtractor)
    (hexMesh : HexMesh P) :
    (addCellsToHexMesh s hexMesh).1 = s ∧
    (addCellsToHexMesh s hexMesh).1.counters = s.counters ∧
    (addCellsToHexMesh s hexMesh).2.vertices = hexMesh.vertices ∧
    (addCellsToHexMesh s hexMesh).2.cells.length +
        (s.intermediateCells.filter (fun ch => (hexCellOf s ch).isNone)).length =
      hexMesh.cells.length + s.intermediateCells.length := by
  rw [addCellsToHexMesh_eq]
  refine ⟨rfl, rfl, rfl, ?_⟩
  simp only [List.length_append]
  have key : ∀ l : List CellHandle,
      (l.filterMap (hexCellOf s)).length +
        (l.filter (fun ch => (hexCellOf s ch).isNone)).length = l.length := by
    intro l
    induction l with
    | nil => simp
    | cons ch l ih =>
      cases hc : hexCellOf s ch with
      | none =>
        rw [List.filterMap_cons_none hc, List.filter_cons_of_pos (by simp [hc])]
        simp only [List.length_cons]
        omega
      | some vs =>
        rw [List.filterMap_cons_some hc, List.filter_cons_of_neg (by simp [hc])]
        simp only [List.length_cons]
        omega
  have := key s.intermediateCells
  omega

/-! ## `addVerticesToHexMesh` -/

/-- The number of non-empty classes among the first `i`. -/
theorem nonEmpty_take_succ (classes : List (List Int)) (i : Nat) (hi : i < classes.length) :
    (nonEmptyClasses (classes.take (i + 1))).length =
      (nonEmptyClasses (classes.take i)).length +
        (if classes.getD i [] = [] then 0 else 1) := by
  rw [List.take_succ, List.getD_eq_getElem?_getD, List.getElem?_eq_getElem hi]
  simp only [nonEmptyClasses, Option.toList, List.filter_append, List.length_append,
    Option.getD_some]
  by_cases h : classes[i] = []
  · simp [h]
  · simp [h]

/-- One pass of the loop of `addVerticesToHexMesh`, without the counters. -/
theorem addVertexOfClass_effect {P : Type} (g : HexExtractor → Nat → Bool → P) (o : Bool)
    (acc : HexExtractor × HexMesh P) (i : Nat) :
    (addVertexOfClass g o acc i).1.equivalenceClasses = acc.1.equivalenceClasses ∧
    (addVertexOfClass g o acc i).2.cells = acc.2.cells ∧
    (acc.1.equivalenceClasses.getD i [] = [] →
      (addVertexOfClass g o acc i).2.vertices = acc.2.vertices ∧
      (addVertexOfClass g o acc i).1.equivalenceClassVertices =
        acc.1.equivalenceClassVertices) ∧
    (acc.1.equivalenceClasses.getD i [] ≠ [] →
      (addVertexOfClass g o acc i).2.vertices = acc.2.vertices ++ [g acc.1 i o] ∧
      (addVertexOfClass g o acc i).1.equivalenceClassVertices =
        acc.1.equivalenceClassVertices.set i ⟨(acc.2.vertices.length : Int)⟩) := by
  unfold addVertexOfClass
  simp only []
  generalize acc.1.equivalenceClasses.getD i [] = members
  cases members with
  | nil => simp
  | cons x xs =>
    by_cases hl : (x :: xs).length > 1
    · simp only [List.isEmpty_cons, Bool.not_false, if_true, if_pos hl]
      simp [HexMesh.add_vertex]
    · simp only [List.isEmpty_cons, Bool.not_false, if_true, if_neg hl]
      simp [HexMesh.add_vertex]

/-- The state after the first `k` passes of the loop of `addVerticesToHexMesh`, started
with one default handle per class: the classes and the output cells are untouched, one
vertex has been added per non-empty class among the first `k`, and the handle of such a
class is the number of vertices present when its pass began. -/
theorem addVertices_prefix {P : Type} (g : HexExtractor → Nat → Bool → P) (o : Bool)
    (s0 : HexExtractor) (m : HexMesh P)
    (hinit : s0.equivalenceClassVertices =
      List.replicate s0.equivalenceClasses.length VertexHandle.invalid)
    (k : Nat) (hk : k ≤ s0.equivalenceClasses.length) :
    ∀ r, (List.range k).foldl (addVertexOfClass g o) (s0, m) = r →
      r.1.equivalenceClasses = s0.equivalenceClasses ∧
      r.2.cells = m.cells ∧
      r.2.vertices.length =
        m.vertices.length + (nonEmptyClasses (s0.equivalenceClasses.take k)).length ∧
      r.1.equivalenceClassVertices.length = s0.equivalenceClasses.length ∧
      ∀ i, i < s0.equivalenceClasses.length →
        r.1.equivalenceClassVertices[i]? =
          some (if i < k ∧ s0.equivalenceClasses.getD i [] ≠ [] then
              ⟨((m.vertices.length + (nonEmptyClasses (s0.equivalenceClasses.take i)).length : Nat) : Int)⟩
            else VertexHandle.invalid) := by
  induction k with
  | zero =>
    intro r hr
    simp only [List.range_zero, List.foldl_nil] at hr
    subst hr
    refine ⟨rfl, rfl, by simp [nonEmptyClasses], by simp [hinit], ?_⟩
    intro i hi
    simp only [hinit, List.getElem?_replicate, hi, if_true]
    simp
  | succ k ih =>
    intro r hr
    have hk' : k < s0.equivalenceClasses.length := hk
    obtain ⟨h1, h2, h3, h4, h5⟩ := ih (Nat.le_of_lt hk') _ rfl
    rw [List.range_succ, List.foldl_append, List.foldl_cons, List.foldl_nil] at hr
    generalize (List.range k).foldl (addVertexOfClass g o) (s0, m) = acc at h1 h2 h3 h4 h5 hr
    obtain ⟨e1, e2, e3, e4⟩ := addVertexOfClass_effect g o acc k
    rw [hr] at e1 e2 e3 e4
    rw [h1] at e3 e4
    have hcnt := nonEmpty_take_succ s0.equivalenceClasses k hk'
    refine ⟨e1.trans h1, e2.trans h2, ?_, ?_, ?_⟩
    · by_cases he : s0.equivalenceClasses.getD k [] = []
      · rw [(e3 he).1, h3, hcnt, if_pos he]; rfl
      · rw [(e4 he).1, List.length_append, h3, hcnt, if_neg he]; rfl
    · by_cases he : s0.equivalenceClasses.getD k [] = []
      · rw [(e3 he).2, h4]
      · rw [(e4 he).2, List.length_set, h4]
    · intro i hi
      by_cases he : s0.equivalenceClasses.getD k [] = []
      · rw [(e3 he).2, h5 i hi]
        by_cases hik : i = k
        · subst hik
          rw [if_neg (fun h => Nat.lt_irrefl _ h.1), if_neg (fun h => h.2 he)]
        · have : (i < k + 1) ↔ (i < k) := by omega
          simp only [this]
      · rw [(e4 he).2, List.getElem?_set]
        by_cases hik : k = i
        · subst hik
          rw [if_pos rfl, if_pos (by rw [h4]; exact hi), h3,
            if_pos ⟨Nat.lt_succ_self _, he⟩]
        · rw [if_neg hik, h5 i hi]
          have : (i < k + 1) ↔ (i < k) := by omega
          simp only [this]

theorem nonEmpty_take_mono (classes : List (List Int)) {i j : Nat} (h : i ≤ j) :
    (nonEmptyClasses (classes.take i)).length ≤ (nonEmptyClasses (classes.take j)).length :=
  ((List.take_sublist_take_left classes h).filter _).length_le

theorem nonEmpty_take_all (classes : List (List Int)) :
    nonEmptyClasses (classes.take classes.length) = nonEmptyClasses classes := by
  rw [List.take_length]

/-- C3: `addVerticesToHexMesh` adds one output vertex per non-empty equivalence class
and none for an empty class (for fewer than `2^32` classes, the range of the `unsigned`
loop counter).  Afterwards `equivalenceClassVertices` has one entry per class; the entry
of class `i` is valid exactly when class `i` is non-empty; it then is the handle of a
vertex added by this call; two different non-empty classes have different handles; the
number of vertices grows by the number of non-empty classes and the classes and output
cells are untouched. -/
theorem addVerticesToHexMesh_one_vertex_per_class {P : Type}
    (getMergePosition : HexExtractor → Nat → Bool → P) (s : HexExtractor)
    (hexMesh : HexMesh P) (optimizedMergePosition : Bool)
    (_hsize : s.equivalenceClasses.length < 4294967296) :
    ∀ r, addVerticesToHexMesh getMergePosition s hexMesh optimizedMergePosition = r →
      r.1.equivalenceClasses = s.equivalenceClasses ∧
      r.2.cells = hexMesh.cells ∧
      r.2.vertices.length =
        hexMesh.vertices.length + (nonEmptyClasses s.equivalenceClasses).length ∧
      r.1.equivalenceClassVertices.length = s.equivalenceClasses.length ∧
      (∀ i, i < s.equivalenceClasses.length →
        ((r.1.equivalenceClassVertices.getD i VertexHandle.invalid).is_valid = true ↔
          s.equivalenceClasses.getD i [] ≠ [])) ∧
      (∀ i, i < s.equivalenceClasses.length → s.equivalenceClasses.getD i [] ≠ [] →
        (hexMesh.vertices.length : Int) ≤
            (r.1.equivalenceClassVertices.getD i VertexHandle.invalid).idx ∧
          (r.1.equivalenceClassVertices.getD i VertexHandle.invalid).idx <
            (r.2.vertices.length : Int)) ∧
      (∀ i j, i < s.equivalenceClasses.length → j < s.equivalenceClasses.length → i ≠ j →
        s.equivalenceClasses.getD i [] ≠ [] → s.equivalenceClasses.getD j [] ≠ [] →
        r.1.equivalenceClassVertices.getD i VertexHandle.invalid ≠
          r.1.equivalenceClassVertices.getD j VertexHandle.invalid) := by
  intro r hr
  unfold addVerticesToHexMesh at hr
  obtain ⟨h1, h2, h3, h4, h5⟩ :=
    addVertices_prefix getMergePosition optimizedMergePosition
      { s with equivalenceClassVertices :=
          List.replicate s.equivalenceClasses.length VertexHandle.invalid }
      hexMesh rfl s.equivalenceClasses.length (Nat.le_refl _) r hr
  simp only [] at h1 h3 h4 h5
  rw [nonEmpty_take_all] at h3
  have hget : ∀ i, i < s.equivalenceClasses.length →
      r.1.equivalenceClassVertices.getD i VertexHandle.invalid =
        (if s.equivalenceClasses.getD i [] ≠ [] then
          (⟨((hexMesh.vertices.length +
              (nonEmptyClasses (s.equivalenceClasses.take i)).length : Nat) : Int)⟩ : VertexHandle)
        else VertexHandle.invalid) := by
    intro i hi
    rw [List.getD_eq_getElem?_getD, h5 i hi, Option.getD_some]
    by_cases he : s.equivalenceClasses.getD i [] ≠ []
    · rw [if_pos ⟨hi, he⟩, if_pos he]
    · rw [if_neg (fun h => he h.2), if_neg he]
  have hbound : ∀ i, i < s.equivalenceClasses.length → s.equivalenceClasses.getD i [] ≠ [] →
      (nonEmptyClasses (s.equivalenceClasses.take i)).length <
        (nonEmptyClasses s.equivalenceClasses).length := by
    intro i hi he
    have hs := nonEmpty_take_succ s.equivalenceClasses i hi
    rw [if_neg he] at hs
    have hm := nonEmpty_take_mono s.equivalenceClasses (show i + 1 ≤ _ from hi)
    rw [nonEmpty_take_all] at hm
    omega
  refine ⟨h1, h2, h3, h4, ?_, ?_, ?_⟩
  · intro i hi
    rw [hget i hi]
    by_cases he : s.equivalenceClasses.getD i [] ≠ []
    · rw [if_pos he]
      simp only [VertexHandle.is_valid, he, not_false_eq_true, iff_true, bne_iff_ne, ne_eq]
      omega
    · rw [if_neg he]
      simp only [he, iff_false]
      decide
  · intro i hi he
    rw [hget i hi, if_pos he, h3]
    have := hbound i hi he
    constructor
    · simp only [Nat.cast_add]; omega
    · simp only [Nat.cast_add]; omega
  · intro i j hi hj hij hei hej heq
    rw [hget i hi, hget j hj, if_pos hei, if_pos hej] at heq
    have hidx := congrArg VertexHandle.idx heq
    simp only [Nat.cast_add] at hidx
    have hcnt : (nonEmptyClasses (s.equivalenceClasses.take i)).length =
        (nonEmptyClasses (s.equivalenceClasses.take j)).length := by omega
    rcases Nat.lt_or_gt_of_ne hij with hlt | hlt
    · have hs := nonEmpty_take_succ s.equivalenceClasses i hi
      rw [if_neg hei] at hs
      have hm := nonEmpty_take_mono s.equivalenceClasses (show i + 1 ≤ j from hlt)
      omega
    · have hs := nonEmpty_take_succ s.equivalenceClasses j hj
      rw [if_neg hej] at hs
      have hm := nonEmpty_take_mono s.equivalenceClasses (show j + 1 ≤ i from hlt)
      omega

theorem addVerticesToHexMesh_one_vertex_per_class_witness :
    threeClasses.equivalenceClasses.length < 4294967296 ∧
    (addVerticesToHexMesh (fun _ _ _ => ()) threeClasses emptyHexMesh true).1.equivalenceClassVertices
      = [⟨0⟩, VertexHandle.invalid, ⟨1⟩] ∧
    (addVerticesToHexMesh (fun _ _ _ => ()) threeClasses emptyHexMesh true).2.vertices.length =
      emptyHexMesh.vertices.length + (nonEmptyClasses threeClasses.equivalenceClasses).length :=
  ⟨by decide, by decide,
    (addVerticesToHexMesh_one_vertex_per_class (fun _ _ _ => ()) threeClasses emptyHexMesh true
      (by decide) _ rfl).2.2.1⟩

/-! ## The merge counters -/

theorem wrapInt32_of_range (x : Int) (h1 : -2147483648 ≤ x) (h2 : x ≤ 2147483647) :
    wrapInt32 x = x := by
  unfold wrapInt32
  omega

theorem merged_take_succ (classes : List (List Int)) (i : Nat) (hi : i < classes.length) :
    (mergedClasses (classes.take (i + 1))).length =
        (mergedClasses (classes.take i)).length +
          (if (classes.getD i []).length > 1 then 1 else 0) ∧
    mergedMembers (classes.take (i + 1)) =
        mergedMembers (classes.take i) +
          (if (classes.getD i []).length > 1 then (classes.getD i []).length else 0) := by
  rw [List.take_succ, List.getD_eq_getElem?_getD, List.getElem?_eq_getElem hi]
  simp only [mergedMembers, mergedClasses, Option.toList, List.filter_append, List.length_append,
    Option.getD_some, List.map_append, List.sum_append]
  by_cases h : classes[i].length > 1
  · simp [h]
  · simp [h]

theorem merged_take_mono (classes : List (List Int)) {i j : Nat} (h : i ≤ j) :
    (mergedClasses (classes.take i)).length ≤ (mergedClasses (classes.take j)).length ∧
    mergedMembers (classes.take i) ≤ mergedMembers (classes.take j) := by
  induction j with
  | zero =>
    have : i = 0 := by omega
    subst this
    exact ⟨le_refl _, le_refl _⟩
  | succ j ih =>
    rcases Nat.lt_or_ge j classes.length with hj | hj
    · rcases Nat.eq_or_lt_of_le h with heq | hlt
      · subst heq; exact ⟨le_refl _, le_refl _⟩
      · have ih' := ih (by omega)
        have hs := merged_take_succ classes j hj
        constructor
        · rw [hs.1]; omega
        · rw [hs.2]; omega
    · rcases Nat.eq_or_lt_of_le h with heq | hlt
      · subst heq; exact ⟨le_refl _, le_refl _⟩
      · have ih' := ih (by omega)
        rw [List.take_of_length_le (by omega : classes.length ≤ j + 1)]
        rw [List.take_of_length_le hj] at ih'
        exact ih'

/-- The counters after one pass of the loop of `addVerticesToHexMesh`. -/
theorem addVertexOfClass_counters {P : Type} (g : HexExtractor → Nat → Bool → P) (o : Bool)
    (acc : HexExtractor × HexMesh P) (i : Nat) :
    ((acc.1.equivalenceClasses.getD i []).length > 1 →
      (addVertexOfClass g o acc i).1.numMerges = wrapInt32 (acc.1.numMerges + 1) ∧
      (addVertexOfClass g o acc i).1.numMergedVertices =
        wrapInt32 (acc.1.numMergedVertices +
          ((acc.1.equivalenceClasses.getD i []).length : Int))) ∧
    (¬ (acc.1.equivalenceClasses.getD i []).length > 1 →
      (addVertexOfClass g o acc i).1.numMerges = acc.1.numMerges ∧
      (addVertexOfClass g o acc i).1.numMergedVertices = acc.1.numMergedVertices) := by
  unfold addVertexOfClass
  simp only []
  generalize acc.1.equivalenceClasses.getD i [] = members
  cases members with
  | nil => simp
  | cons x xs =>
    by_cases hl : (x :: xs).length > 1
    · simp only [List.isEmpty_cons, Bool.not_false, if_true, if_pos hl]
      constructor
      · intro _; simp
      · intro h; exact absurd hl h
    · simp only [List.isEmpty_cons, Bool.not_false, if_true, if_neg hl]
      constructor
      · intro h; exact absurd h hl
      · intro _; simp

/-- The counters after the first `k` passes, as long as the exact sums fit an `int`. -/
theorem addVertices_prefix_counters {P : Type} (g : HexExtractor → Nat → Bool → P) (o : Bool)
    (s0 : HexExtractor) (m : HexMesh P)
    (h1 : -2147483648 ≤ s0.numMerges)
    (h2 : s0.numMerges + ((mergedClasses s0.equivalenceClasses).length : Int) ≤ 2147483647)
    (h3 : -2147483648 ≤ s0.numMergedVertices)
    (h4 : s0.numMergedVertices + (mergedMembers s0.equivalenceClasses : Int) ≤ 2147483647)
    (k : Nat) (hk : k ≤ s0.equivalenceClasses.length) :
    ∀ r, (List.range k).foldl (addVertexOfClass g o) (s0, m) = r →
      r.1.equivalenceClasses = s0.equivalenceClasses ∧
      r.1.numMerges =
        s0.numMerges + ((mergedClasses (s0.equivalenceClasses.take k)).length : Int) ∧
      r.1.numMergedVertices =
        s0.numMergedVertices + (mergedMembers (s0.equivalenceClasses.take k) : Int) := by
  induction k with
  | zero =>
    intro r hr
    simp only [List.range_zero, List.foldl_nil] at hr
    subst hr
    simp [mergedClasses, mergedMembers]
  | succ k ih =>
    intro r hr
    have hk' : k < s0.equivalenceClasses.length := hk
    obtain ⟨e1, e2, e3⟩ := ih (Nat.le_of_lt hk') _ rfl
    rw [List.range_succ, List.foldl_append, List.foldl_cons, List.foldl_nil] at hr
    generalize (List.range k).foldl (addVertexOfClass g o) (s0, m) = acc at e1 e2 e3 hr
    have hc := (addVertexOfClass_effect g o acc k).1
    obtain ⟨c1, c2⟩ := addVertexOfClass_counters g o acc k
    rw [hr] at hc c1 c2
    rw [e1] at c1 c2
    obtain ⟨s1, s2⟩ := merged_take_succ s0.equivalenceClasses k hk'
    have hm := merged_take_mono s0.equivalenceClasses (show k + 1 ≤ s0.equivalenceClasses.length from hk)
    rw [List.take_length] at hm
    refine ⟨hc.trans e1, ?_, ?_⟩
    · by_cases hl : (s0.equivalenceClasses.getD k []).length > 1
      · rw [(c1 hl).1, e2, s1, if_pos hl]
        rw [s1, if_pos hl] at hm
        rw [wrapInt32_of_range _ (by omega) (by omega)]
        push_cast
        ring
      · rw [(c2 hl).1, e2, s1, if_neg hl]
        simp
    · by_cases hl : (s0.equivalenceClasses.getD k []).length > 1
      · rw [(c1 hl).2, e3, s2, if_pos hl]
        rw [s2, if_pos hl] at hm
        rw [wrapInt32_of_range _ (by omega) (by omega)]
        push_cast
        ring
      · rw [(c2 hl).2, e3, s2, if_neg hl]
        simp

theorem twice_merged_le_members (classes : List (List Int)) :
    2 * (mergedClasses classes).length ≤ mergedMembers classes := by
  induction classes with
  | nil => simp [mergedClasses, mergedMembers]
  | cons c cs ih =>
    unfold mergedMembers mergedClasses at *
    by_cases h : c.length > 1
    · rw [List.filter_cons_of_pos (by simpa using h)]
      simp only [List.length_cons, List.map_cons, List.sum_cons]
      omega
    · rw [List.filter_cons_of_neg (by simpa using h)]
      exact ih

/-- C7: one call of `addVerticesToHexMesh` raises `numMerges` by the number of classes
with more than one member and `numMergedVertices` by the total number of members of
those classes, provided the two sums fit the `int` counters (and there are fewer than
`2^32` classes).  A pass for a class with at most one member changes neither counter,
and the increase of `numMergedVertices` is at least twice that of `numMerges`. -/
theorem addVerticesToHexMesh_merge_counters {P : Type}
    (getMergePosition : HexExtractor → Nat → Bool → P) (s : HexExtractor)
    (hexMesh : HexMesh P) (optimizedMergePosition : Bool)
    (_hsize : s.equivalenceClasses.length < 4294967296)
    (h1 : -2147483648 ≤ s.numMerges)
    (h2 : s.numMerges + ((mergedClasses s.equivalenceClasses).length : Int) ≤ 2147483647)
    (h3 : -2147483648 ≤ s.numMergedVertices)
    (h4 : s.numMergedVertices + (mergedMembers s.equivalenceClasses : Int) ≤ 2147483647) :
    ∀ r, addVerticesToHexMesh getMergePosition s hexMesh optimizedMergePosition = r →
      r.1.numMerges = s.numMerges + ((mergedClasses s.equivalenceClasses).length : Int) ∧
      r.1.numMergedVertices =
        s.numMergedVertices + (mergedMembers s.equivalenceClasses : Int) ∧
      2 * (r.1.numMerges - s.numMerges) ≤ r.1.numMergedVertices - s.numMergedVertices ∧
      (∀ (acc : HexExtractor × HexMesh P) (i : Nat),
        (acc.1.equivalenceClasses.getD i []).length ≤ 1 →
        (addVertexOfClass getMergePosition optimizedMergePosition acc i).1.numMerges =
            acc.1.numMerges ∧
          (addVertexOfClass getMergePosition optimizedMergePosition acc i).1.numMergedVertices =
            acc.1.numMergedVertices) := by
  intro r hr
  unfold addVerticesToHexMesh at hr
  obtain ⟨_, e2, e3⟩ :=
    addVertices_prefix_counters getMergePosition optimizedMergePosition
      { s with equivalenceClassVertices :=
          List.replicate s.equivalenceClasses.length VertexHandle.invalid }
      hexMesh h1 h2 h3 h4 s.equivalenceClasses.length (Nat.le_refl _) r hr
  simp only [List.take_length] at e2 e3
  have ht := twice_merged_le_members s.equivalenceClasses
  refine ⟨e2, e3, ?_, ?_⟩
  · rw [e2, e3]
    have : (2 : Int) * ((mergedClasses s.equivalenceClasses).length : Int) ≤
        (mergedMembers s.equivalenceClasses : Int) := by exact_mod_cast ht
    omega
  · intro acc i hle
    exact (addVertexOfClass_counters getMergePosition optimizedMergePosition acc i).2
      (by omega)

theorem addVerticesToHexMesh_merge_counters_witness :
    (threeClasses.equivalenceClasses.length < 4294967296 ∧
      -2147483648 ≤ threeClasses.numMerges ∧
      threeClasses.numMerges + ((mergedClasses threeClasses.equivalenceClasses).length : Int)
        ≤ 2147483647 ∧
      -2147483648 ≤ threeClasses.numMergedVertices ∧
      threeClasses.numMergedVertices + (mergedMembers threeClasses.equivalenceClasses : Int)
        ≤ 2147483647) ∧
    (addVerticesToHexMesh (fun _ _ _ => ()) threeClasses emptyHexMesh true).1.numMerges = 1 ∧
    (addVerticesToHexMesh (fun _ _ _ => ()) threeClasses emptyHexMesh true).1.numMergedVertices =
      threeClasses.numMergedVertices + (mergedMembers threeClasses.equivalenceClasses : Int) :=
  ⟨by decide, by decide,
    (addVerticesToHexMesh_merge_counters (fun _ _ _ => ()) threeClasses emptyHexMesh true
      (by decide) (by decide) (by decide) (by decide) (by decide) _ rfl).2.1⟩

/-! ## Cell classification -/


/-- `computeCellType` only reads the cached cell vertices and the parametrization. -/
theorem computeCellType_congr
    (sign : Parameter → Parameter → Parameter → Parameter → Orientation)
    (s t : HexExtractor) (hv : t.cellVertices = s.cellVertices)
    (hp : t.vertexParameters = s.vertexParameters) (ch : CellHandle) :
    computeCellType sign t ch = computeCellType sign s ch := by
  unfold computeCellType cellOrientation getParameters getParametersOf
  rw [hv, hp]

/-- The loop of `computeCellTypes` over a list of cells: only `cellTypes` changes, the
listed cells get their computed type and the other entries stay. -/
theorem foldl_computeCellType
    (sign : Parameter → Parameter → Parameter → Parameter → Orientation)
    (l : List CellHandle) (s : HexExtractor) :
    ∀ r, l.foldl
        (fun acc ch =>
          { acc with cellTypes := Function.update acc.cellTypes ch (computeCellType sign acc ch) })
        s = r →
      r = { s with cellTypes := r.cellTypes } ∧
      (∀ c ∈ l, r.cellTypes c = computeCellType sign s c) ∧
      (∀ c, c ∉ l → r.cellTypes c = s.cellTypes c) := by
  induction l generalizing s with
  | nil =>
    intro r hr
    simp only [List.foldl_nil] at hr
    subst hr
    exact ⟨rfl, fun c hc => absurd hc (List.not_mem_nil c), fun _ _ => rfl⟩
  | cons a l ih =>
    intro r hr
    rw [List.foldl_cons] at hr
    obtain ⟨h1, h2, h3⟩ := ih _ r hr
    have hcong : ∀ c, computeCellType sign
        { s with cellTypes := Function.update s.cellTypes a (computeCellType sign s a) } c =
        computeCellType sign s c :=
      fun c => computeCellType_congr sign s _ rfl rfl c
    refine ⟨?_, ?_, ?_⟩
    · rw [h1]
    · intro c hc
      by_cases hcl : c ∈ l
      · rw [h2 c hcl, hcong]
      · rw [h3 c hcl]
        rcases List.mem_cons.1 hc with rfl | h
        · simp
        · exact absurd h hcl
    · intro c hc
      have hca : c ≠ a := fun h => hc (h ▸ List.mem_cons_self _ _)
      have hcl : c ∉ l := fun h => hc (List.mem_cons_of_mem _ h)
      rw [h3 c hcl]
      simp [Function.update, hca]

/-- The effect of `computeCellTypes`: the flag is set, every input cell gets its
computed type and nothing else changes. -/
theorem computeCellTypes_effect
    (sign : Parameter → Parameter → Parameter → Parameter → Orientation) (s : HexExtractor) :
    ∀ r, computeCellTypes sign s = r →
      r = { s with cellTypes := r.cellTypes, cellTypesComputed := true } ∧
      (∀ c ∈ s.inputCells, r.cellTypes c = computeCellType sign s c) ∧
      (∀ c, c ∉ s.inputCells → r.cellTypes c = s.cellTypes c) := by
  intro r hr
  unfold computeCellTypes at hr
  simp only [] at hr
  obtain ⟨h1, h2, h3⟩ := foldl_computeCellType sign s.inputCells s _ rfl
  generalize s.inputCells.foldl
      (fun acc ch =>
        { acc with cellTypes := Function.update acc.cellTypes ch (computeCellType sign acc ch) })
      s = s1 at h1 h2 h3 hr
  subst hr
  refine ⟨?_, h2, h3⟩
  conv_lhs => rw [h1]

theorem wrapInt64_of_range (x : Int) (h1 : -9223372036854775808 ≤ x)
    (h2 : x ≤ 9223372036854775807) : wrapInt64 x = x := by
  unfold wrapInt64
  omega

/-- C4: `computeCellType` returns `Degenerate` exactly for orientation sign `ORI_ZERO`,
`Flipped` exactly for `ORI_BELOW`, `Proper` exactly in the remaining case and never
`NotComputed`.  Hence, when every input cell has sign `ORI_ABOVE` (and the stored table,
if already computed, is up to date), `isCellDegenerate` and `isCellFlipped` answer
`false` for every input cell. -/
theorem computeCellType_by_sign
    (sign_orient3d : Parameter → Parameter → Parameter → Parameter → Orientation)
    (s : HexExtractor) :
    (∀ ch,
      (computeCellType sign_orient3d s ch = CellType.Degenerate ↔
        cellOrientation sign_orient3d s ch = Orientation.ORI_ZERO) ∧
      (computeCellType sign_orient3d s ch = CellType.Flipped ↔
        cellOrientation sign_orient3d s ch = Orientation.ORI_BELOW) ∧
      (computeCellType sign_orient3d s ch = CellType.Proper ↔
        (cellOrientation sign_orient3d s ch ≠ Orientation.ORI_ZERO ∧
          cellOrientation sign_orient3d s ch ≠ Orientation.ORI_BELOW)) ∧
      computeCellType sign_orient3d s ch ≠ CellType.NotComputed) ∧
    (CellTypesUpToDate sign_orient3d s →
      (∀ c ∈ s.inputCells, cellOrientation sign_orient3d s c = Orientation.ORI_ABOVE) →
      ∀ c ∈ s.inputCells,
        (isCellDegenerate sign_orient3d s c).1 = false ∧
        (isCellFlipped sign_orient3d s c).1 = false) := by
  have hcases : ∀ ch,
      (computeCellType sign_orient3d s ch = CellType.Degenerate ↔
        cellOrientation sign_orient3d s ch = Orientation.ORI_ZERO) ∧
      (computeCellType sign_orient3d s ch = CellType.Flipped ↔
        cellOrientation sign_orient3d s ch = Orientation.ORI_BELOW) ∧
      (computeCellType sign_orient3d s ch = CellType.Proper ↔
        (cellOrientation sign_orient3d s ch ≠ Orientation.ORI_ZERO ∧
          cellOrientation sign_orient3d s ch ≠ Orientation.ORI_BELOW)) ∧
      computeCellType sign_orient3d s ch ≠ CellType.NotComputed := by
    intro ch
    unfold computeCellType
    simp only []
    cases cellOrientation sign_orient3d s ch <;> simp
  refine ⟨hcases, ?_⟩
  intro hup habove c hc
  have hproper : computeCellType sign_orient3d s c = CellType.Proper := by
    rw [(hcases c).2.2.1, habove c hc]
    exact ⟨by decide, by decide⟩
  have htable : (if !s.cellTypesComputed then computeCellTypes sign_orient3d s else s).cellTypes c
      = CellType.Proper := by
    cases hflag : s.cellTypesComputed with
    | false =>
      simp only [Bool.not_false, if_true]
      rw [(computeCellTypes_effect sign_orient3d s _ rfl).2.1 c hc, hproper]
    | true =>
      simp only [Bool.not_true, Bool.false_eq_true, if_false]
      rw [hup hflag c hc, hproper]
  unfold isCellDegenerate isCellFlipped
  simp only [htable]
  exact ⟨by decide, by decide⟩

theorem computeCellType_by_sign_witness :
    (CellTypesUpToDate sampleOrient twoProperCells ∧
      ∀ c ∈ twoProperCells.inputCells,
        cellOrientation sampleOrient twoProperCells c = Orientation.ORI_ABOVE) ∧
    ∀ c ∈ twoProperCells.inputCells,
      (isCellDegenerate sampleOrient twoProperCells c).1 = false ∧
      (isCellFlipped sampleOrient twoProperCells c).1 = false :=
  ⟨⟨fun h => absurd h (by decide), by decide⟩,
    (computeCellType_by_sign sampleOrient twoProperCells).2
      (fun h => absurd h (by decide)) (by decide)⟩

/-- The state and answer of `isCellDegenerate`, by the state of the flag. -/
theorem isCellDegenerate_effect
    (sign : Parameter → Parameter → Parameter → Parameter → Orientation)
    (s : HexExtractor) (ch : CellHandle) :
    (s.cellTypesComputed = false →
      (isCellDegenerate sign s ch).2 =
        { s with
          cellTypes := (computeCellTypes sign s).cellTypes
          cellTypesComputed := true
          isCellDegenerateCalls := wrapInt64 (s.isCellDegenerateCalls + 1) } ∧
      (isCellDegenerate sign s ch).1 =
        decide ((computeCellTypes sign s).cellTypes ch = CellType.Degenerate)) ∧
    (s.cellTypesComputed = true →
      (isCellDegenerate sign s ch).2 =
        { s with isCellDegenerateCalls := wrapInt64 (s.isCellDegenerateCalls + 1) } ∧
      (isCellDegenerate sign s ch).1 = decide (s.cellTypes ch = CellType.Degenerate)) := by
  constructor
  · intro h
    have he := (computeCellTypes_effect sign s _ rfl).1
    unfold isCellDegenerate
    simp only [h, Bool.not_false, if_true]
    refine ⟨?_, trivial⟩
    conv_lhs => rw [he]
  · intro h
    unfold isCellDegenerate
    simp only [h, Bool.not_true, Bool.false_eq_true, if_false]
    exact ⟨trivial, trivial⟩

/-- The state and answer of `isCellFlipped`, by the state of the flag. -/
theorem isCellFlipped_effect
    (sign : Parameter → Parameter → Parameter → Parameter → Orientation)
    (s : HexExtractor) (ch : CellHandle) :
    (s.cellTypesComputed = false →
      (isCellFlipped sign s ch).2 =
        { s with
          cellTypes := (computeCellTypes sign s).cellTypes
          cellTypesComputed := true
          isCellFlippedCalls := wrapInt64 (s.isCellFlippedCalls + 1) } ∧
      (isCellFlipped sign s ch).1 =
        decide ((computeCellTypes sign s).cellTypes ch = CellType.Flipped)) ∧
    (s.cellTypesComputed = true →
      (isCellFlipped sign s ch).2 =
        { s with isCellFlippedCalls := wrapInt64 (s.isCellFlippedCalls + 1) } ∧
      (isCellFlipped sign s ch).1 = decide (s.cellTypes ch = CellType.Flipped)) := by
  constructor
  · intro h
    have he := (computeCellTypes_effect sign s _ rfl).1
    unfold isCellFlipped
    simp only [h, Bool.not_false, if_true]
    refine ⟨?_, trivial⟩
    conv_lhs => rw [he]
  · intro h
    unfold isCellFlipped
    simp only [h, Bool.not_true, Bool.false_eq_true, if_false]
    exact ⟨trivial, trivial⟩

/-- The table that a call of `isCellDegenerate` or `isCellFlipped` on `u` answers from. -/
theorem isCell_answers_exclusive
    (sign : Parameter → Parameter → Parameter → Parameter → Orientation)
    (u : HexExtractor) (ch : CellHandle) :
    ¬ ((isCellDegenerate sign u ch).1 = true ∧ (isCellFlipped sign u ch).1 = true) := by
  rintro ⟨hd, hf⟩
  cases hflag : u.cellTypesComputed with
  | false =>
    rw [((isCellDegenerate_effect sign u ch).1 hflag).2] at hd
    rw [((isCellFlipped_effect sign u ch).1 hflag).2] at hf
    have h1 := of_decide_eq_true hd
    have h2 := of_decide_eq_true hf
    rw [h1] at h2
    cases h2
  | true =>
    rw [((isCellDegenerate_effect sign u ch).2 hflag).2] at hd
    rw [((isCellFlipped_effect sign u ch).2 hflag).2] at hf
    have h1 := of_decide_eq_true hd
    have h2 := of_decide_eq_true hf
    rw [h1] at h2
    cases h2

/-- C5: classification is lazy and memoized.  On an extractor `s` whose flag
`cellTypesComputed` is `false`, a call of `isCellDegenerate` or `isCellFlipped` stores
`computeCellType c` for every input cell `c` and sets the flag, changing nothing else
but its own call counter.  On an extractor `t` whose flag is set, either call leaves
`cellTypes` and the flag alone, answers from the stored table and changes only its own
call counter, by exactly one (the counter being below the largest `long`).  From any
state, at most one of the two functions answers `true` for a cell. -/
theorem cell_classification_lazy_memoized
    (sign_orient3d : Parameter → Parameter → Parameter → Parameter → Orientation)
    (s t : HexExtractor) (ch : CellHandle)
    (hs : s.cellTypesComputed = false) (ht : t.cellTypesComputed = true)
    (hd : -9223372036854775808 ≤ t.isCellDegenerateCalls ∧
      t.isCellDegenerateCalls < 9223372036854775807)
    (hf : -9223372036854775808 ≤ t.isCellFlippedCalls ∧
      t.isCellFlippedCalls < 9223372036854775807) :
    ((isCellDegenerate sign_orient3d s ch).2 =
        { s with
          cellTypes := (isCellDegenerate sign_orient3d s ch).2.cellTypes
          cellTypesComputed := true
          isCellDegenerateCalls := wrapInt64 (s.isCellDegenerateCalls + 1) } ∧
      ∀ c ∈ s.inputCells,
        (isCellDegenerate sign_orient3d s ch).2.cellTypes c = computeCellType sign_orient3d s c) ∧
    ((isCellFlipped sign_orient3d s ch).2 =
        { s with
          cellTypes := (isCellFlipped sign_orient3d s ch).2.cellTypes
          cellTypesComputed := true
          isCellFlippedCalls := wrapInt64 (s.isCellFlippedCalls + 1) } ∧
      ∀ c ∈ s.inputCells,
        (isCellFlipped sign_orient3d s ch).2.cellTypes c = computeCellType sign_orient3d s c) ∧
    ((isCellDegenerate sign_orient3d t ch).2 =
        { t with isCellDegenerateCalls := t.isCellDegenerateCalls + 1 } ∧
      (isCellDegenerate sign_orient3d t ch).1 = decide (t.cellTypes ch = CellType.Degenerate)) ∧
    ((isCellFlipped sign_orient3d t ch).2 =
        { t with isCellFlippedCalls := t.isCellFlippedCalls + 1 } ∧
      (isCellFlipped sign_orient3d t ch).1 = decide (t.cellTypes ch = CellType.Flipped)) ∧
    (∀ u : HexExtractor,
      ¬ ((isCellDegenerate sign_orient3d u ch).1 = true ∧
          (isCellFlipped sign_orient3d u ch).1 = true)) := by
  have hcomp := (computeCellTypes_effect sign_orient3d s _ rfl).2.1
  obtain ⟨d1, d2⟩ := (isCellDegenerate_effect sign_orient3d s ch).1 hs
  obtain ⟨f1, f2⟩ := (isCellFlipped_effect sign_orient3d s ch).1 hs
  obtain ⟨d3, d4⟩ := (isCellDegenerate_effect sign_orient3d t ch).2 ht
  obtain ⟨f3, f4⟩ := (isCellFlipped_effect sign_orient3d t ch).2 ht
  rw [wrapInt64_of_range _ (by omega) (by omega)] at d3 f3
  refine ⟨⟨?_, ?_⟩, ⟨?_, ?_⟩, ⟨d3, d4⟩, ⟨f3, f4⟩,
    fun u => isCell_answers_exclusive sign_orient3d u ch⟩
  · rw [d1]
  · intro c hc
    rw [d1]
    exact hcomp c hc
  · rw [f1]
  · intro c hc
    rw [f1]
    exact hcomp c hc

theorem cell_classification_lazy_memoized_witness :
    (mixedCells.cellTypesComputed = false ∧
      (isCellFlipped sampleOrient mixedCells 1).2.cellTypesComputed = true) ∧
    (∀ c ∈ mixedCells.inputCells,
      (isCellDegenerate sampleOrient mixedCells 1).2.cellTypes c =
        computeCellType sampleOrient mixedCells c) ∧
    (isCellDegenerate sampleOrient (isCellFlipped sampleOrient mixedCells 1).2 1).1 = true ∧
    (isCellDegenerate sampleOrient (isCellFlipped sampleOrient mixedCells 1).2 1).2 =
      { (isCellFlipped sampleOrient mixedCells 1).2 with
        isCellDegenerateCalls :=
          (isCellFlipped sampleOrient mixedCells 1).2.isCellDegenerateCalls + 1 } :=
  ⟨⟨by decide, by decide⟩,
    (cell_classification_lazy_memoized sampleOrient mixedCells
      (isCellFlipped sampleOrient mixedCells 1).2 1 (by decide) (by decide)
      (by decide) (by decide)).1.2,
    by decide,
    (cell_classification_lazy_memoized sampleOrient mixedCells
      (isCellFlipped sampleOrient mixedCells 1).2 1 (by decide) (by decide)
      (by decide) (by decide)).2.2.1.1⟩

/-! ## The transition-function table -/

theorem flip_parity_ne (n : Nat) : (if n % 2 = 0 then n + 1 else n - 1) ≠ n := by
  split <;> omega

theorem flip_parity_twice (n : Nat) :
    (if (if n % 2 = 0 then n + 1 else n - 1) % 2 = 0
      then (if n % 2 = 0 then n + 1 else n - 1) + 1
      else (if n % 2 = 0 then n + 1 else n - 1) - 1) = n := by
  by_cases h : n % 2 = 0
  · rw [if_pos h, if_neg (by omega)]; omega
  · rw [if_neg h, if_pos (by omega)]; omega

theorem opposite_halfface_handle_ne (f : HalfFaceHandle) : opposite_halfface_handle f ≠ f :=
  flip_parity_ne f

theorem opposite_halfface_handle_involutive (f : HalfFaceHandle) :
    opposite_halfface_handle (opposite_halfface_handle f) = f :=
  flip_parity_twice f

theorem identity_inverse : Transition.identity.inverse = Transition.identity := by
  unfold Transition.inverse Transition.identity
  simp only [Transition.mk.injEq]
  constructor
  · funext i j
    fin_cases i <;> fin_cases j <;> rfl
  · funext i
    simp

/-- A table that stores the identity everywhere satisfies the invariant. -/
theorem blank_oppositeIsInverse : OppositeIsInverse HexExtractor.blank := by
  intro f
  show Transition.identity = Transition.identity.inverse
  rw [identity_inverse]

/-- C8 (as stated) fails: the all-identity table satisfies the invariant, but after
storing the translation by `(1, 0, 0)` on half-face `0` the entry of the opposite
half-face `1` is still the identity, which is not the inverse of that translation. -/
theorem setTransitionFunction_breaks_invariant :
    OppositeIsInverse HexExtractor.blank ∧
    (setTransitionFunction HexExtractor.blank 0 (Transition.translation 1 0 0)).transitionFunctions
        (opposite_halfface_handle 0) = Transition.identity ∧
    (Transition.translation 1 0 0).inverse ≠ Transition.identity ∧
    ¬ OppositeIsInverse
        (setTransitionFunction HexExtractor.blank 0 (Transition.translation 1 0 0)) := by
  have hne : (Transition.translation 1 0 0).inverse ≠ Transition.identity := by
    intro h
    have h0 := congrFun (congrArg Transition.trans h) 0
    simp [Transition.inverse, Transition.translation, Transition.identity] at h0
  have hstored :
      (setTransitionFunction HexExtractor.blank 0
        (Transition.translation 1 0 0)).transitionFunctions (opposite_halfface_handle 0) =
        Transition.identity := by
    simp [setTransitionFunction, opposite_halfface_handle, HexExtractor.blank, Function.update]
  refine ⟨blank_oppositeIsInverse, hstored, hne, ?_⟩
  intro h
  have h0 := h 0
  rw [hstored] at h0
  have hset : (setTransitionFunction HexExtractor.blank 0
      (Transition.translation 1 0 0)).transitionFunctions 0 = Transition.translation 1 0 0 := by
    simp [setTransitionFunction]
  rw [hset] at h0
  exact hne h0.symm

/-- C8 (amended): `setTransitionFunction(hfh, t)` overwrites the entry of `hfh` only.
If the table satisfied the invariant before, then afterwards every half-face other than
`hfh` and its opposite still satisfies it, and the whole table satisfies it exactly when
`t` is the transition that was already stored on `hfh`. -/
theorem setTransitionFunction_invariant_iff (s : HexExtractor) (hfh : HalfFaceHandle)
    (t : Transition) (hinv : OppositeIsInverse s) :
    (setTransitionFunction s hfh t).transitionFunctions hfh = t ∧
    (∀ f, f ≠ hfh →
      (setTransitionFunction s hfh t).transitionFunctions f = s.transitionFunctions f) ∧
    (∀ f, f ≠ hfh → f ≠ opposite_halfface_handle hfh →
      (setTransitionFunction s hfh t).transitionFunctions (opposite_halfface_handle f) =
        ((setTransitionFunction s hfh t).transitionFunctions f).inverse) ∧
    (OppositeIsInverse (setTransitionFunction s hfh t) ↔ t = s.transitionFunctions hfh) := by
  have hself : (setTransitionFunction s hfh t).transitionFunctions hfh = t := by
    simp [setTransitionFunction]
  have hother : ∀ f, f ≠ hfh →
      (setTransitionFunction s hfh t).transitionFunctions f = s.transitionFunctions f := by
    intro f hf
    simp [setTransitionFunction, Function.update, hf]
  refine ⟨hself, hother, ?_, ?_⟩
  · intro f hf hfo
    have hof : opposite_halfface_handle f ≠ hfh := by
      intro h
      apply hfo
      rw [← h, opposite_halfface_handle_involutive]
    rw [hother _ hof, hother _ hf]
    exact hinv f
  · constructor
    · intro h
      have h1 := h (opposite_halfface_handle hfh)
      rw [opposite_halfface_handle_involutive, hself,
        hother _ (opposite_halfface_handle_ne hfh)] at h1
      have h2 := hinv (opposite_halfface_handle hfh)
      rw [opposite_halfface_handle_involutive] at h2
      rw [h1, h2]
    · intro h
      have hsame : setTransitionFunction s hfh t = s := by
        unfold setTransitionFunction
        rw [h, Function.update_eq_self]
      rw [hsame]
      exact hinv

theorem setTransitionFunction_invariant_iff_witness :
    OppositeIsInverse HexExtractor.blank ∧
    (OppositeIsInverse
        (setTransitionFunction HexExtractor.blank 0 (Transition.translation 1 0 0)) ↔
      Transition.translation 1 0 0 = HexExtractor.blank.transitionFunctions 0) :=
  ⟨blank_oppositeIsInverse,
    (setTransitionFunction_invariant_iff HexExtractor.blank 0 (Transition.translation 1 0 0)
      blank_oppositeIsInverse).2.2.2⟩

/-! ## The large-cell fallback: the two dart walks -/


/-- On `stuckGraph` the forward walk entered at dart `2` for the start dart `0` is still
running after any number of passes. -/
theorem stuck_forward_from_two (s : HexExtractor) (fuel : Nat) (processed_darts : List DartId)
    (halfface_vertices : List VertexHandle) :
    collectForwardLoop s stuckGraph 0 fuel 2 processed_darts halfface_vertices = none := by
  induction fuel generalizing processed_darts halfface_vertices with
  | zero => rfl
  | succ fuel ih =>
    have hstep : forwardStep stuckGraph 2 = some 2 := by decide
    unfold collectForwardLoop
    simp only [hstep]
    rw [if_neg (by decide)]
    exact ih _ _

theorem forwardIter_succ_left (g : DartGraph) (n : Nat) (x : DartId) :
    forwardIter g (n + 1) x = (forwardStep g x).bind (forwardIter g n) := by
  induction n with
  | zero =>
    show (some x).bind (forwardStep g) = (forwardStep g x).bind (fun y => some y)
    simp
  | succ n ih =>
    show (forwardIter g (n + 1) x).bind (forwardStep g) = _
    rw [ih]
    cases forwardStep g x with
    | none => rfl
    | some y => rfl

theorem backwardIter_succ_left (g : DartGraph) (n : Nat) (x : DartId) :
    backwardIter g (n + 1) x = (backwardStep g x).bind (backwardIter g n) := by
  induction n with
  | zero =>
    show (some x).bind (backwardStep g) = (backwardStep g x).bind (fun y => some y)
    simp
  | succ n ih =>
    show (backwardIter g (n + 1) x).bind (backwardStep g) = _
    rw [ih]
    cases backwardStep g x with
    | none => rfl
    | some y => rfl

/-- The backward rotation makes at most as many steps as it has passes left. -/
theorem rotateBackwardLoop_bounded (g : DartGraph) (d : DartId) (left : Nat) (x : DartId) :
    ∃ k, k ≤ left ∧ backwardIter g k x = some (rotateBackwardLoop g d left x) := by
  induction left generalizing x with
  | zero => exact ⟨0, Nat.le_refl _, rfl⟩
  | succ left ih =>
    unfold rotateBackwardLoop
    cases hstep : backwardStep g x with
    | none => exact ⟨0, Nat.zero_le _, rfl⟩
    | some next =>
      simp only []
      by_cases hd : next = d
      · rw [if_pos hd]
        refine ⟨1, by omega, ?_⟩
        rw [backwardIter_succ_left, hstep]
        rfl
      · rw [if_neg hd]
        obtain ⟨k, hk, hiter⟩ := ih next
        refine ⟨k + 1, by omega, ?_⟩
        rw [backwardIter_succ_left, hstep]
        exact hiter

/-- C9 (the code at the failing input): the backward rotation always stops within its
50 steps, but the forward collection has no bound.  On `stuckGraph` with start dart `0`
the backward rotation stays at `0`, and the forward walk, the face assembly and the
whole function are still running after any number `fuel` of passes. -/
theorem forward_walk_unbounded_on_stuckGraph
    (halfface_extensive : PolyMesh → List VertexHandle → Option HalfFaceHandle)
    (polyMesh : PolyMesh) (fuel : Nat) :
    (∀ (g : DartGraph) (d : DartId),
      ∃ k, k ≤ 50 ∧ backwardIter g k d = some (rotateBackward g d)) ∧
    rotateBackward stuckGraph 0 = 0 ∧
    collectForwardLoop rejectedCell stuckGraph 0 fuel (rotateBackward stuckGraph 0) [] [] = none ∧
    addCellsToHexMeshWithLargeCells halfface_extensive rejectedCell stuckGraph fuel polyMesh
      = none := by
  have hback : rotateBackward stuckGraph 0 = 0 := by decide
  have hwalk : collectForwardLoop rejectedCell stuckGraph 0 fuel 0 [] [] = none := by
    cases fuel with
    | zero => rfl
    | succ fuel =>
      have hstep : forwardStep stuckGraph 0 = some 2 := by decide
      unfold collectForwardLoop
      simp only [hstep]
      rw [if_neg (by decide)]
      exact stuck_forward_from_two _ _ _ _
  refine ⟨fun g d => rotateBackwardLoop_bounded g d 50 d, hback, by rw [hback]; exact hwalk, ?_⟩
  have hface : assembleFace halfface_extensive rejectedCell stuckGraph fuel
      { polyMesh := polyMesh, processed_darts := [], halffaces := [] } 0 = none := by
    unfold assembleFace
    rw [if_pos ⟨by decide, by simp⟩]
    simp only [hback, hwalk]
  have hcell : addLargeCell halfface_extensive rejectedCell stuckGraph fuel polyMesh 0 = none := by
    unfold addLargeCell
    have hds : stuckGraph.dartsInCell 0 = [0, 1, 2] := by decide
    rw [hds, List.foldlM_cons, hface]
    rfl
  unfold addCellsToHexMeshWithLargeCells
  have hcells : rejectedCell.intermediateCells = [0] := rfl
  rw [hcells, List.foldlM_cons, hcell]
  rfl

/-! ## The large-cell fallback: the face of a closed cycle -/

theorem forwardStep_of_backwardStep (g : DartGraph) (h0 : IsInvolution g.alpha0)
    (h1 : IsInvolution g.alpha1) (x y : DartId) (h : backwardStep g x = some y) :
    forwardStep g y = some x := by
  unfold backwardStep at h
  unfold forwardStep
  cases hu : g.alpha1 x with
  | none => rw [hu] at h; cases h
  | some u =>
    rw [hu] at h
    have hy : g.alpha0 u = some y := h
    rw [h0 u y hy]
    exact h1 x u hu

theorem forwardIter_of_backwardIter (g : DartGraph) (h0 : IsInvolution g.alpha0)
    (h1 : IsInvolution g.alpha1) (k : Nat) (x y : DartId)
    (h : backwardIter g k x = some y) : forwardIter g k y = some x := by
  induction k generalizing y with
  | zero =>
    have : some x = some y := h
    cases this
    rfl
  | succ k ih =>
    have h' : (backwardIter g k x).bind (backwardStep g) = some y := h
    cases hz : backwardIter g k x with
    | none => rw [hz] at h'; cases h'
    | some z =>
      rw [hz] at h'
      have hstep : backwardStep g z = some y := h'
      rw [forwardIter_succ_left, forwardStep_of_backwardStep g h0 h1 z y hstep]
      exact ih z hz

theorem forwardIter_add (g : DartGraph) (m n : Nat) (x : DartId) :
    forwardIter g (m + n) x = (forwardIter g m x).bind (forwardIter g n) := by
  induction n with
  | zero =>
    show forwardIter g m x = (forwardIter g m x).bind (fun y => some y)
    simp
  | succ n ih =>
    show (forwardIter g (m + n) x).bind (forwardStep g) = _
    rw [ih, Option.bind_assoc]
    rfl

/-- The backward rotation returns to `d` when `d` recurs within the passes left. -/
theorem rotateBackwardLoop_returns (g : DartGraph) (d : DartId) (n : Nat) :
    ∀ (left : Nat) (x : DartId), 0 < n → n ≤ left → backwardIter g n x = some d →
      (∀ i, 0 < i → i < n → backwardIter g i x ≠ some d) →
      rotateBackwardLoop g d left x = d := by
  induction n with
  | zero => intro left x h; exact absurd h (Nat.lt_irrefl 0)
  | succ n ih =>
    intro left x _ hle hiter hmin
    cases left with
    | zero => omega
    | succ left =>
      rw [backwardIter_succ_left] at hiter
      unfold rotateBackwardLoop
      cases hstep : backwardStep g x with
      | none => rw [hstep] at hiter; cases hiter
      | some y =>
        rw [hstep] at hiter
        have hiter' : backwardIter g n y = some d := hiter
        simp only []
        by_cases hy : y = d
        · rw [if_pos hy]; exact hy
        · rw [if_neg hy]
          have hn : 0 < n := by
            rcases Nat.eq_zero_or_pos n with h | h
            · subst h
              have : some y = some d := hiter'
              cases this
              exact absurd rfl hy
            · exact h
          apply ih left y hn (by omega) hiter'
          intro i hi hin
          have := hmin (i + 1) (by omega) (by omega)
          rw [backwardIter_succ_left, hstep] at this
          exact this

/-- The forward collection from `x` when `d` is first met after `n` steps: the darts of
`orbitFrom g n x` are inserted and their output vertices appended, in order. -/
theorem collectForwardLoop_orbit (s : HexExtractor) (g : DartGraph) (d : DartId) (n : Nat) :
    ∀ (fuel : Nat) (x : DartId) (processed_darts : List DartId)
      (halfface_vertices : List VertexHandle),
      0 < n → n ≤ fuel → forwardIter g n x = some d →
      (∀ i, 0 < i → i < n → forwardIter g i x ≠ some d) →
      collectForwardLoop s g d fuel x processed_darts halfface_vertices =
        some ((orbitFrom g n x).foldl (fun acc y => acc.insert y) processed_darts,
          halfface_vertices ++ (orbitFrom g n x).map (fun y => newVhOf s (g.getVertex y))) := by
  induction n with
  | zero => intro fuel x p v h; exact absurd h (Nat.lt_irrefl 0)
  | succ n ih =>
    intro fuel x p v _ hle hiter hmin
    cases fuel with
    | zero => omega
    | succ fuel =>
      rw [forwardIter_succ_left] at hiter
      unfold collectForwardLoop orbitFrom
      cases hstep : forwardStep g x with
      | none => rw [hstep] at hiter; cases hiter
      | some y =>
        rw [hstep] at hiter
        have hiter' : forwardIter g n y = some d := hiter
        simp only []
        by_cases hy : y = d
        · rw [if_pos hy]
          have hn : n = 0 := by
            rcases Nat.eq_zero_or_pos n with h | h
            · exact h
            · have := hmin 1 (by omega) (by omega)
              rw [forwardIter_succ_left, hstep] at this
              exact absurd (by rw [hy]; rfl) this
          subst hn
          simp [orbitFrom]
        · rw [if_neg hy]
          have hn : 0 < n := by
            rcases Nat.eq_zero_or_pos n with h | h
            · subst h
              have : some y = some d := hiter'
              cases this
              exact absurd rfl hy
            · exact h
          rw [ih fuel y _ _ hn (by omega) hiter' ?_]
          · simp [List.append_assoc]
          · intro i hi hin
            have := hmin (i + 1) (by omega) (by omega)
            rw [forwardIter_succ_left, hstep] at this
            exact this

/-- The list `orbitFrom g n x` holds the first `n` darts of the forward orbit of `x`, in
order, when the orbit is defined that far. -/
theorem orbitFrom_getElem (g : DartGraph) (n : Nat) :
    ∀ (x z : DartId), forwardIter g n x = some z →
      (orbitFrom g n x).length = n ∧
      ∀ i, i < n → (orbitFrom g n x)[i]? = forwardIter g i x := by
  induction n with
  | zero =>
    intro x z _
    exact ⟨rfl, fun i hi => absurd hi (Nat.not_lt_zero i)⟩
  | succ n ih =>
    intro x z hiter
    rw [forwardIter_succ_left] at hiter
    unfold orbitFrom
    cases hstep : forwardStep g x with
    | none => rw [hstep] at hiter; cases hiter
    | some y =>
      rw [hstep] at hiter
      obtain ⟨hlen, hget⟩ := ih y z hiter
      simp only []
      refine ⟨by rw [List.length_cons, hlen], ?_⟩
      intro i hi
      cases i with
      | zero =>
        rw [List.getElem?_cons_zero]
        rfl
      | succ i =>
        rw [List.getElem?_cons_succ, hget i (by omega), forwardIter_succ_left, hstep]
        rfl

/-- A closed forward orbit is periodic. -/
theorem forwardIter_mod (g : DartGraph) (d : DartId) (p : Nat) (hp : 0 < p)
    (hclosed : forwardIter g p d = some d) (n : Nat) :
    forwardIter g n d = forwardIter g (n % p) d := by
  induction n using Nat.strong_induction_on with
  | _ n ih =>
    rcases Nat.lt_or_ge n p with h | h
    · rw [Nat.mod_eq_of_lt h]
    · have hn : n = p + (n - p) := by omega
      have hmod : n % p = (n - p) % p := Nat.mod_eq_sub_mod h
      rw [hmod, ← ih (n - p) (by omega)]
      conv_lhs => rw [hn, forwardIter_add, hclosed]
      rfl

/-- The darts of one period of a closed forward orbit with least period `p`: pairwise
distinct and exhausting the orbit. -/
theorem orbitFrom_period (g : DartGraph) (d : DartId) (p : Nat) (hp : 0 < p)
    (hclosed : forwardIter g p d = some d)
    (hmin : ∀ i, 0 < i → i < p → forwardIter g i d ≠ some d) :
    (orbitFrom g p d).length = p ∧
    (∀ i, i < p → forwardIter g i d = (orbitFrom g p d)[i]?) ∧
    (orbitFrom g p d).Nodup ∧
    (∀ n x, forwardIter g n d = some x → x ∈ orbitFrom g p d) := by
  obtain ⟨hlen, hget⟩ := orbitFrom_getElem g p d d hclosed
  refine ⟨hlen, fun i hi => (hget i hi).symm, ?_, ?_⟩
  · rw [List.nodup_iff_getElem?_ne_getElem?]
    intro i j hij hj
    rw [hlen] at hj
    rw [hget i (by omega), hget j hj]
    intro heq
    have h1 : forwardIter g (i + (p - j)) d = some d := by
      rw [forwardIter_add, heq, ← forwardIter_add]
      have : j + (p - j) = p := by omega
      rw [this, hclosed]
    exact hmin (i + (p - j)) (by omega) (by omega) h1
  · intro n x hx
    rw [forwardIter_mod g d p hp hclosed n] at hx
    have hlt : n % p < p := Nat.mod_lt n hp
    rw [← hget (n % p) hlt] at hx
    exact List.getElem?_mem hx

/-- Every dart of a list is present after inserting the list into a set. -/
theorem mem_foldl_insert (l : List DartId) (processed_darts : List DartId) (x : DartId) :
    x ∈ l.foldl (fun acc y => acc.insert y) processed_darts ↔ x ∈ l ∨ x ∈ processed_darts := by
  induction l generalizing processed_darts with
  | nil => simp
  | cons a l ih =>
    rw [List.foldl_cons, ih, List.mem_insert_iff, List.mem_cons]
    constructor
    · rintro (h | h | h)
      · exact Or.inl (Or.inr h)
      · exact Or.inl (Or.inl h)
      · exact Or.inr h
    · rintro ((h | h) | h)
      · exact Or.inr (Or.inl h)
      · exact Or.inl h
      · exact Or.inr (Or.inr h)

/-- A finished vertex list with fewer than three vertices is dropped. -/
theorem keepFace_short (hfe : PolyMesh → List VertexHandle → Option HalfFaceHandle)
    (acc : CellAssembly) (processed_darts : List DartId) (halfface_vertices : List VertexHandle)
    (h : halfface_vertices.length < 3) :
    keepFace hfe acc processed_darts halfface_vertices =
      { acc with processed_darts := processed_darts } := by
  unfold keepFace
  rw [if_neg (by omega)]

/-- A finished vertex list with at least three vertices yields one more half-face; the
cells of the mesh are not touched. -/
theorem keepFace_long (hfe : PolyMesh → List VertexHandle → Option HalfFaceHandle)
    (acc : CellAssembly) (processed_darts : List DartId) (halfface_vertices : List VertexHandle)
    (h : 3 ≤ halfface_vertices.length) :
    (∃ hfh, (keepFace hfe acc processed_darts halfface_vertices).halffaces =
        acc.halffaces ++ [hfh]) ∧
    (keepFace hfe acc processed_darts halfface_vertices).polyMesh.cells = acc.polyMesh.cells ∧
    (keepFace hfe acc processed_darts halfface_vertices).processed_darts = processed_darts := by
  unfold keepFace
  rw [if_pos (by omega)]
  cases hfe acc.polyMesh halfface_vertices with
  | none => exact ⟨⟨_, rfl⟩, rfl, rfl⟩
  | some hfh => exact ⟨⟨_, rfl⟩, rfl, rfl⟩

theorem keepFace_cells (hfe : PolyMesh → List VertexHandle → Option HalfFaceHandle)
    (acc : CellAssembly) (processed_darts : List DartId) (halfface_vertices : List VertexHandle) :
    (keepFace hfe acc processed_darts halfface_vertices).polyMesh.cells = acc.polyMesh.cells := by
  rcases Nat.lt_or_ge halfface_vertices.length 3 with h | h
  · rw [keepFace_short hfe acc _ _ h]
  · exact (keepFace_long hfe acc _ _ h).2.1

theorem assembleFace_cells (hfe : PolyMesh → List VertexHandle → Option HalfFaceHandle)
    (s : HexExtractor) (g : DartGraph) (fuel : Nat) (acc r : CellAssembly) (d : DartId)
    (h : assembleFace hfe s g fuel acc d = some r) : r.polyMesh.cells = acc.polyMesh.cells := by
  unfold assembleFace at h
  by_cases hc : g.isPrimary d = true ∧ d ∉ acc.processed_darts
  · rw [if_pos hc] at h
    simp only [] at h
    cases hw : collectForwardLoop s g d fuel (rotateBackward g d) acc.processed_darts [] with
    | none => rw [hw] at h; cases h
    | some walk =>
      rw [hw] at h
      simp only [Option.some.injEq] at h
      rw [← h]
      exact keepFace_cells hfe acc _ _
  · rw [if_neg hc] at h
    simp only [Option.some.injEq] at h
    rw [← h]

theorem foldlM_assembleFace_cells (hfe : PolyMesh → List VertexHandle → Option HalfFaceHandle)
    (s : HexExtractor) (g : DartGraph) (fuel : Nat) (ds : List DartId) :
    ∀ (acc r : CellAssembly), ds.foldlM (assembleFace hfe s g fuel) acc = some r →
      r.polyMesh.cells = acc.polyMesh.cells := by
  induction ds with
  | nil =>
    intro acc r h
    have : some acc = some r := h
    cases this
    rfl
  | cons d ds ih =>
    intro acc r h
    rw [List.foldlM_cons] at h
    cases hd : assembleFace hfe s g fuel acc d with
    | none => rw [hd] at h; cases h
    | some acc' =>
      rw [hd] at h
      have h' : ds.foldlM (assembleFace hfe s g fuel) acc' = some r := h
      rw [ih acc' r h', assembleFace_cells hfe s g fuel acc acc' d hd]

/-- The cell loop body: one cell is appended exactly when `halffaces` is not empty. -/
theorem addLargeCell_cells (hfe : PolyMesh → List VertexHandle → Option HalfFaceHandle)
    (s : HexExtractor) (g : DartGraph) (fuel : Nat) (polyMesh r : PolyMesh) (ch : CellHandle)
    (h : addLargeCell hfe s g fuel polyMesh ch = some r) :
    ∃ a : CellAssembly,
      (g.dartsInCell ch).foldlM (assembleFace hfe s g fuel)
        { polyMesh := polyMesh, processed_darts := [], halffaces := [] } = some a ∧
      ((a.halffaces ≠ [] ∧ r.cells = polyMesh.cells ++ [a.halffaces]) ∨
        (a.halffaces = [] ∧ r.cells = polyMesh.cells)) := by
  unfold addLargeCell at h
  cases ha : (g.dartsInCell ch).foldlM (assembleFace hfe s g fuel)
      { polyMesh := polyMesh, processed_darts := [], halffaces := [] } with
  | none => rw [ha] at h; cases h
  | some a =>
    rw [ha] at h
    have hcells := foldlM_assembleFace_cells hfe s g fuel _ _ _ ha
    simp only [] at h hcells
    refine ⟨a, rfl, ?_⟩
    by_cases hl : a.halffaces.length > 0
    · rw [if_pos hl] at h
      simp only [Option.some.injEq] at h
      left
      refine ⟨fun he => by rw [he] at hl; exact absurd hl (by decide), ?_⟩
      rw [← h]
      show a.polyMesh.cells ++ [a.halffaces] = _
      rw [hcells]
    · rw [if_neg hl] at h
      simp only [Option.some.injEq] at h
      right
      refine ⟨List.eq_nil_of_length_eq_zero (by omega), ?_⟩
      rw [← h, hcells]

/-- A closed backward cycle of at most 50 steps has a least period, forwards as well. -/
theorem least_periods (g : DartGraph) (h0 : IsInvolution g.alpha0) (h1 : IsInvolution g.alpha1)
    (d : DartId) (hret : ∃ k, 0 < k ∧ k ≤ 50 ∧ backwardIter g k d = some d) :
    (∃ q, 0 < q ∧ q ≤ 50 ∧ backwardIter g q d = some d ∧
      ∀ i, 0 < i → i < q → backwardIter g i d ≠ some d) ∧
    (∃ p, 0 < p ∧ p ≤ 50 ∧ forwardIter g p d = some d ∧
      ∀ i, 0 < i → i < p → forwardIter g i d ≠ some d) := by
  obtain ⟨k, hk0, hk50, hk⟩ := hret
  have hb : ∃ q, 0 < q ∧ backwardIter g q d = some d := ⟨k, hk0, hk⟩
  have hf : ∃ p, 0 < p ∧ forwardIter g p d = some d :=
    ⟨k, hk0, forwardIter_of_backwardIter g h0 h1 k d d hk⟩
  refine ⟨⟨Nat.find hb, (Nat.find_spec hb).1, ?_, (Nat.find_spec hb).2, ?_⟩,
    ⟨Nat.find hf, (Nat.find_spec hf).1, ?_, (Nat.find_spec hf).2, ?_⟩⟩
  · exact le_trans (Nat.find_min' hb ⟨hk0, hk⟩) hk50
  · intro i hi hlt hiter
    exact Nat.find_min hb hlt ⟨hi, hiter⟩
  · exact le_trans (Nat.find_min' hf ⟨hk0, forwardIter_of_backwardIter g h0 h1 k d d hk⟩) hk50
  · intro i hi hlt hiter
    exact Nat.find_min hf hlt ⟨hi, hiter⟩

/-- C10: in the large-cell path, let `alpha0` and `alpha1` be involutions wherever
defined and let the backward rotation from the primary, not yet processed dart `d`
return to `d` within 50 steps.  Then the rotation ends at `d`, and with enough fuel the
forward collection returns: the face assembled for `d` lists the output vertices of the
darts `l` of one period of `d`'s orbit under `x ↦ alpha1(alpha0(x))`, in orbit order
from `d`, each dart once, `l` exhausts the orbit and all of it is marked processed.  A
vertex list with fewer than three vertices is dropped, a longer one adds one half-face,
and the cell loop appends one polyhedral cell exactly when a half-face was kept. -/
theorem largeCell_face_of_closed_cycle
    (halfface_extensive : PolyMesh → List VertexHandle → Option HalfFaceHandle)
    (s : HexExtractor) (g : DartGraph) (d : DartId) (acc : CellAssembly)
    (h0 : IsInvolution g.alpha0) (h1 : IsInvolution g.alpha1)
    (hret : ∃ k, 0 < k ∧ k ≤ 50 ∧ backwardIter g k d = some d)
    (hprimary : g.isPrimary d = true) (hnew : d ∉ acc.processed_darts) :
    rotateBackward g d = d ∧
    (∃ l : List DartId,
      (0 < l.length ∧ l.length ≤ 50) ∧
      l[0]? = some d ∧
      (∀ i, i < l.length → forwardIter g i d = l[i]?) ∧
      forwardIter g l.length d = some d ∧
      l.Nodup ∧
      (∀ n x, forwardIter g n d = some x → x ∈ l) ∧
      (∀ x ∈ l, x ∈ l.foldl (fun a y => a.insert y) acc.processed_darts) ∧
      ∀ fuel, l.length ≤ fuel →
        collectForwardLoop s g d fuel (rotateBackward g d) acc.processed_darts [] =
          some (l.foldl (fun a y => a.insert y) acc.processed_darts,
            l.map (fun y => newVhOf s (g.getVertex y))) ∧
        assembleFace halfface_extensive s g fuel acc d =
          some (keepFace halfface_extensive acc
            (l.foldl (fun a y => a.insert y) acc.processed_darts)
            (l.map (fun y => newVhOf s (g.getVertex y))))) ∧
    (∀ (a : CellAssembly) (processed_darts : List DartId) (halfface_vertices : List VertexHandle),
      (halfface_vertices.length < 3 →
        keepFace halfface_extensive a processed_darts halfface_vertices =
          { a with processed_darts := processed_darts }) ∧
      (3 ≤ halfface_vertices.length →
        ∃ hfh, (keepFace halfface_extensive a processed_darts halfface_vertices).halffaces =
          a.halffaces ++ [hfh])) ∧
    (∀ (fuel : Nat) (polyMesh r : PolyMesh) (ch : CellHandle),
      addLargeCell halfface_extensive s g fuel polyMesh ch = some r →
      ∃ a : CellAssembly,
        (g.dartsInCell ch).foldlM (assembleFace halfface_extensive s g fuel)
          { polyMesh := polyMesh, processed_darts := [], halffaces := [] } = some a ∧
        ((a.halffaces ≠ [] ∧ r.cells = polyMesh.cells ++ [a.halffaces]) ∨
          (a.halffaces = [] ∧ r.cells = polyMesh.cells))) := by
  obtain ⟨⟨q, hq0, hq50, hq, hqmin⟩, ⟨p, hp0, hp50, hp, hpmin⟩⟩ := least_periods g h0 h1 d hret
  have hback : rotateBackward g d = d :=
    rotateBackwardLoop_returns g d q 50 d hq0 hq50 hq hqmin
  obtain ⟨hlen, hget, hnodup, hcover⟩ := orbitFrom_period g d p hp0 hp hpmin
  refine ⟨hback, ⟨orbitFrom g p d, ?_, ?_, ?_, ?_, hnodup, hcover, ?_, ?_⟩, ?_, ?_⟩
  · rw [hlen]; exact ⟨hp0, hp50⟩
  · rw [← hget 0 hp0]; rfl
  · intro i hi
    rw [hlen] at hi
    exact hget i hi
  · rw [hlen]; exact hp
  · intro x hx
    exact (mem_foldl_insert _ _ x).2 (Or.inl hx)
  · intro fuel hfuel
    rw [hlen] at hfuel
    have hwalk := collectForwardLoop_orbit s g d p fuel d acc.processed_darts [] hp0 hfuel hp hpmin
    rw [List.nil_append] at hwalk
    refine ⟨by rw [hback]; exact hwalk, ?_⟩
    unfold assembleFace
    rw [if_pos ⟨hprimary, hnew⟩]
    simp only [hback, hwalk]
  · intro a pd hv
    exact ⟨fun h => keepFace_short halfface_extensive a pd hv h,
      fun h => (keepFace_long halfface_extensive a pd hv h).1⟩
  · intro fuel polyMesh r ch h
    exact addLargeCell_cells halfface_extensive s g fuel polyMesh r ch h

theorem squareGraph_involutions :
    IsInvolution squareGraph.alpha0 ∧ IsInvolution squareGraph.alpha1 := by
  constructor
  · intro x y h
    by_cases hx : x < 8
    · interval_cases x <;> (simp [squareGraph] at h; subst h; decide)
    · simp [squareGraph, hx] at h
  · intro x y h
    by_cases hx : x < 8
    · interval_cases x <;> (simp [squareGraph] at h; subst h; decide)
    · simp [squareGraph, hx] at h

theorem largeCell_face_of_closed_cycle_witness :
    (IsInvolution squareGraph.alpha0 ∧ IsInvolution squareGraph.alpha1 ∧
      (∃ k, 0 < k ∧ k ≤ 50 ∧ backwardIter squareGraph k 0 = some 0) ∧
      squareGraph.isPrimary 0 = true ∧ (0 : DartId) ∉ ([] : List DartId)) ∧
    rotateBackward squareGraph 0 = 0 ∧
    collectForwardLoop crowdedCube squareGraph 0 50 0 [] [] =
      some ([6, 4, 2, 0], [⟨0⟩, ⟨2⟩, ⟨4⟩, ⟨6⟩]) ∧
    (addCellsToHexMeshWithLargeCells noHalfface crowdedCube squareGraph 50 emptyPolyMesh).map
      (fun m => (m.faces, m.cells)) = some ([[⟨0⟩, ⟨2⟩, ⟨4⟩, ⟨6⟩]], [[0]]) :=
  ⟨⟨squareGraph_involutions.1, squareGraph_involutions.2, ⟨4, by decide, by decide, by decide⟩,
      by decide, by decide⟩,
    (largeCell_face_of_closed_cycle noHalfface crowdedCube squareGraph 0
      { polyMesh := emptyPolyMesh, processed_darts := [], halffaces := [] }
      squareGraph_involutions.1 squareGraph_involutions.2
      ⟨4, by decide, by decide, by decide⟩ (by decide) (by decide)).1,
    by decide, by decide⟩

/-! ## `reconnectOrDisconnect` -/

/-- What `reconnectOrDisconnect` does, by cases. -/
theorem reconnectOrDisconnect_cases {G : Type} (connectAlpha : Nat → DartId → DartId → G → G)
    (disconnectAlpha : Nat → DartId → G → G) (i : Nat)
    (dart otherDart d1 d2 : Option DartId) (g : G) :
    ((d2 = dart ∨ d1 = otherDart) →
      reconnectOrDisconnect connectAlpha disconnectAlpha i dart otherDart d1 d2 g = g) ∧
    (d2 ≠ dart → d1 ≠ otherDart → ∀ x1 x2, d1 = some x1 → d2 = some x2 →
      reconnectOrDisconnect connectAlpha disconnectAlpha i dart otherDart d1 d2 g =
        connectAlpha i x2 x1 g) ∧
    (d2 ≠ dart → d1 ≠ otherDart → ∀ x1, d1 = some x1 → d2 = none →
      reconnectOrDisconnect connectAlpha disconnectAlpha i dart otherDart d1 d2 g =
        disconnectAlpha i x1 g) ∧
    (d2 ≠ dart → d1 ≠ otherDart → ∀ x2, d1 = none → d2 = some x2 →
      reconnectOrDisconnect connectAlpha disconnectAlpha i dart otherDart d1 d2 g =
        disconnectAlpha i x2 g) ∧
    (d2 ≠ dart → d1 ≠ otherDart → d1 = none → d2 = none →
      reconnectOrDisconnect connectAlpha disconnectAlpha i dart otherDart d1 d2 g = g) := by
  refine ⟨?_, ?_, ?_, ?_, ?_⟩
  · intro h
    unfold reconnectOrDisconnect
    rw [if_neg]
    intro hc
    rcases h with h | h
    · exact hc.1 h
    · exact hc.2 h
  · intro h2 h1 x1 x2 e1 e2
    unfold reconnectOrDisconnect
    rw [if_pos ⟨h2, h1⟩, e1, e2]
  · intro h2 h1 x1 e1 e2
    unfold reconnectOrDisconnect
    rw [if_pos ⟨h2, h1⟩, e1, e2]
  · intro h2 h1 x2 e1 e2
    unfold reconnectOrDisconnect
    rw [if_pos ⟨h2, h1⟩, e1, e2]
  · intro h2 h1 e1 e2
    unfold reconnectOrDisconnect
    rw [if_pos ⟨h2, h1⟩, e1, e2]

/-- C19: called with `d2` equal to `dart`, `reconnectOrDisconnect<2>` calls neither
`connectAlpha` nor `disconnectAlpha`, whatever these do: the store comes back as it
is, and the non-null dart `d1 = 3` still has its alpha-2 link to dart `4`, although
`d1` and `d2` are not both different from `dart` and `otherDart`.  Called with `d1`
equal to `dart` and `d2` another dart, it connects the two. -/
theorem reconnectOrDisconnect_guard_leaves_links
    (connectAlpha : Nat → DartId → DartId → AlphaLinks → AlphaLinks)
    (disconnectAlpha : Nat → DartId → AlphaLinks → AlphaLinks) :
    reconnectOrDisconnect connectAlpha disconnectAlpha 2 (some 1) (some 2) (some 3) (some 1)
        linkedPair = linkedPair ∧
    linkedPair 2 3 = some 4 ∧
    reconnectOrDisconnect connectAlpha disconnectAlpha 2 (some 1) (some 2) (some 1) (some 3)
        linkedPair = connectAlpha 2 3 1 linkedPair := by
  refine ⟨?_, by decide, ?_⟩
  · exact (reconnectOrDisconnect_cases connectAlpha disconnectAlpha 2 (some 1) (some 2)
      (some 3) (some 1) linkedPair).1 (Or.inl rfl)
  · exact (reconnectOrDisconnect_cases connectAlpha disconnectAlpha 2 (some 1) (some 2)
      (some 1) (some 3) linkedPair).2.1 (by decide) (by decide) 1 3 rfl rfl

end HexEx

namespace mc3d

/-! ## `propagateAcrossEdge` -/

theorem chainedFrom_cons_zero {T : Type} (ext : External T) (mp : TetMeshProps T) (t0 : T)
    (hf : HFH) (rest : List HFH) :
    chainedFrom ext mp t0 (hf :: rest) 0 = ext.chain t0 (mp.hfTransition hf) := by
  simp [chainedFrom]

theorem chainedFrom_cons_succ {T : Type} (ext : External T) (mp : TetMeshProps T) (t0 : T)
    (hf : HFH) (rest : List HFH) (i : Nat) :
    chainedFrom ext mp t0 (hf :: rest) (i + 1) =
      chainedFrom ext mp (ext.chain t0 (mp.hfTransition hf)) rest i := by
  simp [chainedFrom]

theorem acceptsAt_cons_succ {T : Type} (ext : External T) (mp : TetMeshProps T)
    (mot : Motorcycle) (he : HEH) (t0 : T) (hf : HFH) (rest : List HFH) (i : Nat) :
    acceptsAt ext mp mot he t0 (hf :: rest) (i + 1) =
      acceptsAt ext mp mot he (ext.chain t0 (mp.hfTransition hf)) rest i := by
  simp [acceptsAt, candidateAt, chainedFrom_cons_succ]

theorem candidateAt_cons_succ {T : Type} (ext : External T) (mp : TetMeshProps T)
    (mot : Motorcycle) (he : HEH) (t0 : T) (hf : HFH) (rest : List HFH) (i : Nat) :
    candidateAt ext mp mot he t0 (hf :: rest) (i + 1) =
      candidateAt ext mp mot he (ext.chain t0 (mp.hfTransition hf)) rest i := by
  simp [candidateAt, chainedFrom_cons_succ]

theorem inside_flag_eq {T : Type} (mp : TetMeshProps T) (hf : HFH) (b : Bool) :
    (if (mp.IS_ORIGINAL_F_allocated && mp.IS_ORIGINAL_F (face_handle hf)) = true then false
      else b) = (b && !onOriginalFace mp hf) := by
  unfold onOriginalFace
  cases mp.IS_ORIGINAL_F_allocated <;> cases mp.IS_ORIGINAL_F (face_handle hf) <;> cases b <;> rfl

/-- The callback on a half-face whose next tet accepts the motorcycle. -/
theorem propagateCallback_accept {T : Type} (ext : External T) (mot : Motorcycle) (heOpp : HEH)
    (coords : Vec3i) (values : Vec3Q) (acc : Propagation T) (hf : HFH)
    (h : ext.orientationRelativeToTet acc.tracer.meshProps
      (newMotorcycle ext acc.tracer.meshProps heOpp coords values
        (ext.chain acc.totalTransition (acc.tracer.meshProps.hfTransition hf)) hf) ≠
      Orientation.OUTSIDE) :
    propagateCallback ext mot heOpp coords values acc hf =
      ({ tracer :=
          if (acc.insideOriginalTet && !onOriginalFace acc.tracer.meshProps hf) = true then
            pushedLocal ext acc.tracer
              (followUp ext acc.tracer.meshProps mot
                (newMotorcycle ext acc.tracer.meshProps heOpp coords values
                  (ext.chain acc.totalTransition (acc.tracer.meshProps.hfTransition hf)) hf))
          else
            pushedGlobal ext acc.tracer
              (followUp ext acc.tracer.meshProps mot
                (newMotorcycle ext acc.tracer.meshProps heOpp coords values
                  (ext.chain acc.totalTransition (acc.tracer.meshProps.hfTransition hf)) hf))
         hasPropagated := true
         passed := acc.passed
         insideOriginalTet := (acc.insideOriginalTet && !onOriginalFace acc.tracer.meshProps hf)
         totalTransition := ext.chain acc.totalTransition (acc.tracer.meshProps.hfTransition hf) },
        true) := by
  unfold propagateCallback
  simp only [inside_flag_eq, if_pos h]

/-- The callback on a half-face whose next tet does not accept the motorcycle. -/
theorem propagateCallback_reject {T : Type} (ext : External T) (mot : Motorcycle) (heOpp : HEH)
    (coords : Vec3i) (values : Vec3Q) (acc : Propagation T) (hf : HFH)
    (h : ¬ ext.orientationRelativeToTet acc.tracer.meshProps
      (newMotorcycle ext acc.tracer.meshProps heOpp coords values
        (ext.chain acc.totalTransition (acc.tracer.meshProps.hfTransition hf)) hf) ≠
      Orientation.OUTSIDE) :
    propagateCallback ext mot heOpp coords values acc hf =
      ({ tracer := acc.tracer
         hasPropagated := acc.hasPropagated
         passed := acc.passed + 1
         insideOriginalTet := (acc.insideOriginalTet && !onOriginalFace acc.tracer.meshProps hf)
         totalTransition := ext.chain acc.totalTransition (acc.tracer.meshProps.hfTransition hf) },
        false) := by
  unfold propagateCallback
  simp only [inside_flag_eq, if_neg h]

/-- The tracer with the follow-up motorcycle of position `i` pushed: into the local
queue when `inside` holds, into the global queue otherwise. -/
theorem circulate_spec {T : Type} (ext : External T) (s : MotorcycleTracer T)
    (mot : Motorcycle) (he : HEH) (cycle : List HFH) :
    ∀ (hp : Bool) (p : Int) (b0 : Bool) (t0 : T),
      ((∀ i, i < cycle.length → acceptsAt ext s.meshProps mot he t0 cycle i = false) →
        (forEachHfInHeCycle
          (propagateCallback ext mot (opposite_halfedge_handle he) mot.encodedCoords
            (startValues ext mot)) cycle
          { tracer := s, hasPropagated := hp, passed := p, insideOriginalTet := b0,
            totalTransition := t0 }).tracer = s) ∧
      (∀ i, i < cycle.length → acceptsAt ext s.meshProps mot he t0 cycle i = true →
        (∀ j, j < i → acceptsAt ext s.meshProps mot he t0 cycle j = false) →
        (forEachHfInHeCycle
          (propagateCallback ext mot (opposite_halfedge_handle he) mot.encodedCoords
            (startValues ext mot)) cycle
          { tracer := s, hasPropagated := hp, passed := p, insideOriginalTet := b0,
            totalTransition := t0 }).tracer =
          if (b0 && insideUpTo s.meshProps cycle i) = true then
            pushedLocal ext s
              (followUp ext s.meshProps mot (candidateAt ext s.meshProps mot he t0 cycle i))
          else
            pushedGlobal ext s
              (followUp ext s.meshProps mot (candidateAt ext s.meshProps mot he t0 cycle i))) := by
  induction cycle with
  | nil =>
    intro hp p b0 t0
    exact ⟨fun _ => rfl, fun i hi => absurd hi (Nat.not_lt_zero i)⟩
  | cons hf rest ih =>
    intro hp p b0 t0
    have hacc0 : acceptsAt ext s.meshProps mot he t0 (hf :: rest) 0 =
        decide (ext.orientationRelativeToTet s.meshProps
          (newMotorcycle ext s.meshProps (opposite_halfedge_handle he) mot.encodedCoords
            (startValues ext mot) (ext.chain t0 (s.meshProps.hfTransition hf)) hf) ≠
          Orientation.OUTSIDE) := by
      simp [acceptsAt, candidateAt, chainedFrom_cons_zero]
    by_cases h0 : ext.orientationRelativeToTet s.meshProps
          (newMotorcycle ext s.meshProps (opposite_halfedge_handle he) mot.encodedCoords
            (startValues ext mot) (ext.chain t0 (s.meshProps.hfTransition hf)) hf) ≠
          Orientation.OUTSIDE
    · -- the first half-face accepts
      have hrun : (forEachHfInHeCycle
          (propagateCallback ext mot (opposite_halfedge_handle he) mot.encodedCoords
            (startValues ext mot)) (hf :: rest)
          { tracer := s, hasPropagated := hp, passed := p, insideOriginalTet := b0,
            totalTransition := t0 }).tracer =
          if (b0 && !onOriginalFace s.meshProps hf) = true then
            pushedLocal ext s
              (followUp ext s.meshProps mot
                (newMotorcycle ext s.meshProps (opposite_halfedge_handle he) mot.encodedCoords
                  (startValues ext mot) (ext.chain t0 (s.meshProps.hfTransition hf)) hf))
          else
            pushedGlobal ext s
              (followUp ext s.meshProps mot
                (newMotorcycle ext s.meshProps (opposite_halfedge_handle he) mot.encodedCoords
                  (startValues ext mot) (ext.chain t0 (s.meshProps.hfTransition hf)) hf)) := by
        unfold forEachHfInHeCycle
        rw [propagateCallback_accept ext mot _ _ _ _ hf h0]
        rfl
      constructor
      · intro hnone
        have := hnone 0 (Nat.succ_pos _)
        rw [hacc0] at this
        simp [h0] at this
      · intro i hi hacc hmin
        have hi0 : i = 0 := by
          rcases Nat.eq_zero_or_pos i with h | h
          · exact h
          · have := hmin 0 h
            rw [hacc0] at this
            simp [h0] at this
        subst hi0
        rw [hrun]
        simp [insideUpTo, candidateAt, chainedFrom_cons_zero]
    · -- the first half-face does not accept: the circulation goes on
      have hstep : forEachHfInHeCycle
          (propagateCallback ext mot (opposite_halfedge_handle he) mot.encodedCoords
            (startValues ext mot)) (hf :: rest)
          { tracer := s, hasPropagated := hp, passed := p, insideOriginalTet := b0,
            totalTransition := t0 } =
          forEachHfInHeCycle
          (propagateCallback ext mot (opposite_halfedge_handle he) mot.encodedCoords
            (startValues ext mot)) rest
          { tracer := s, hasPropagated := hp, passed := p + 1,
            insideOriginalTet := (b0 && !onOriginalFace s.meshProps hf),
            totalTransition := ext.chain t0 (s.meshProps.hfTransition hf) } := by
        conv_lhs => unfold forEachHfInHeCycle
        rw [propagateCallback_reject ext mot _ _ _ _ hf h0]
        rfl
      obtain ⟨ihA, ihB⟩ := ih hp (p + 1) (b0 && !onOriginalFace s.meshProps hf)
        (ext.chain t0 (s.meshProps.hfTransition hf))
      rw [hstep]
      constructor
      · intro hnone
        apply ihA
        intro i hi
        have := hnone (i + 1) (Nat.succ_lt_succ hi)
        rw [acceptsAt_cons_succ] at this
        exact this
      · intro i hi hacc hmin
        cases i with
        | zero =>
          rw [hacc0] at hacc
          simp [h0] at hacc
        | succ i =>
          rw [acceptsAt_cons_succ] at hacc
          have hmin' : ∀ j, j < i → acceptsAt ext s.meshProps mot he
              (ext.chain t0 (s.meshProps.hfTransition hf)) rest j = false := by
            intro j hj
            have := hmin (j + 1) (Nat.succ_lt_succ hj)
            rw [acceptsAt_cons_succ] at this
            exact this
          rw [ihB i (Nat.lt_of_succ_lt_succ hi) hacc hmin', candidateAt_cons_succ]
          have hinside : insideUpTo s.meshProps (hf :: rest) (i + 1) =
              (!onOriginalFace s.meshProps hf && insideUpTo s.meshProps rest i) := by
            simp [insideUpTo]
          rw [hinside, Bool.and_assoc]

/-- C18: `propagateAcrossEdge` pushes at most one follow-up motorcycle.  If no half-face
of the cycle has a next tet that accepts the transformed motorcycle, the tracer is
unchanged.  Otherwise let `i` be the first position whose next tet accepts: the pushed
motorcycle is the one built for `cycle[i]` from the coordinates and the iso and start
values of `mot` carried through the transitions of `cycle[0 .. i]` chained onto the
identity, with `directDist` and `dist` filled in, and it goes to the local queue if none
of `cycle[0 .. i]` lies on an allocated `IS_ORIGINAL_F` face and to the global queue
otherwise; nothing else changes. -/
theorem propagateAcrossEdge_one_followUp {T : Type} (ext : External T)
    (s : MotorcycleTracer T) (mot : Motorcycle) (he : HEH) (hfWall : HFH) :
    ((∀ i, i < (propagationCycle ext s.meshProps he hfWall).length →
        acceptsAt ext s.meshProps mot he ext.identity
          (propagationCycle ext s.meshProps he hfWall) i = false) →
      propagateAcrossEdge ext s mot he hfWall = s) ∧
    (∀ i, i < (propagationCycle ext s.meshProps he hfWall).length →
      acceptsAt ext s.meshProps mot he ext.identity
        (propagationCycle ext s.meshProps he hfWall) i = true →
      (∀ j, j < i → acceptsAt ext s.meshProps mot he ext.identity
        (propagationCycle ext s.meshProps he hfWall) j = false) →
      propagateAcrossEdge ext s mot he hfWall =
        (if insideUpTo s.meshProps (propagationCycle ext s.meshProps he hfWall) i = true then
          pushedLocal ext s
            (followUp ext s.meshProps mot
              (candidateAt ext s.meshProps mot he ext.identity
                (propagationCycle ext s.meshProps he hfWall) i))
        else
          pushedGlobal ext s
            (followUp ext s.meshProps mot
              (candidateAt ext s.meshProps mot he ext.identity
                (propagationCycle ext s.meshProps he hfWall) i)))) ∧
    (∀ (cycle : List HFH) (i : Nat),
      (candidateAt ext s.meshProps mot he ext.identity cycle i).encodedCoords =
        ext.rotate (chainedFrom ext s.meshProps ext.identity cycle i) mot.encodedCoords ∧
      (candidateAt ext s.meshProps mot he ext.identity cycle i).isoValue =
        vecGet (ext.apply (chainedFrom ext s.meshProps ext.identity cycle i)
            (startValues ext mot))
          (ext.isoCoord
            (ext.rotate (chainedFrom ext s.meshProps ext.identity cycle i) mot.encodedCoords)) ∧
      (candidateAt ext s.meshProps mot he ext.identity cycle i).startValue =
        vecGet (ext.apply (chainedFrom ext s.meshProps ext.identity cycle i)
            (startValues ext mot))
          (ext.propagationCoord
            (ext.rotate (chainedFrom ext s.meshProps ext.identity cycle i) mot.encodedCoords)) ∧
      (candidateAt ext s.meshProps mot he ext.identity cycle i).tet =
        s.meshProps.incident_cell (opposite_halfface_handle (cycle.getD i 0))) := by
  obtain ⟨hA, hB⟩ := circulate_spec ext s mot he (propagationCycle ext s.meshProps he hfWall)
    false 0 true ext.identity
  refine ⟨hA, ?_, fun cycle i => ⟨rfl, rfl, rfl, rfl⟩⟩
  intro i hi hacc hmin
  have := hB i hi hacc hmin
  rw [Bool.true_and] at this
  exact this

/-- Whatever the cycle, `propagateAcrossEdge` leaves the tracer alone or pushes one
motorcycle into one of the two queues. -/
theorem propagateAcrossEdge_cases {T : Type} (ext : External T) (s : MotorcycleTracer T)
    (mot : Motorcycle) (he : HEH) (hfWall : HFH) :
    propagateAcrossEdge ext s mot he hfWall = s ∨
    (∃ m, propagateAcrossEdge ext s mot he hfWall = pushedLocal ext s m) ∨
    (∃ m, propagateAcrossEdge ext s mot he hfWall = pushedGlobal ext s m) := by
  obtain ⟨hA, hB⟩ := circulate_spec ext s mot he (propagationCycle ext s.meshProps he hfWall)
    false 0 true ext.identity
  by_cases hex : ∃ i, i < (propagationCycle ext s.meshProps he hfWall).length ∧
      acceptsAt ext s.meshProps mot he ext.identity
        (propagationCycle ext s.meshProps he hfWall) i = true
  · have hspec := Nat.find_spec hex
    have hmin : ∀ j, j < Nat.find hex → acceptsAt ext s.meshProps mot he ext.identity
        (propagationCycle ext s.meshProps he hfWall) j = false := by
      intro j hj
      have hnot := Nat.find_min hex hj
      have hjlen : j < (propagationCycle ext s.meshProps he hfWall).length :=
        Nat.lt_trans hj hspec.1
      cases hacc : acceptsAt ext s.meshProps mot he ext.identity
          (propagationCycle ext s.meshProps he hfWall) j with
      | false => rfl
      | true => exact absurd ⟨hjlen, hacc⟩ hnot
    have hres := hB (Nat.find hex) hspec.1 hspec.2 hmin
    right
    unfold propagateAcrossEdge propagateLocals
    rw [hres]
    split
    · exact Or.inl ⟨_, rfl⟩
    · exact Or.inr ⟨_, rfl⟩
  · left
    apply hA
    intro i hi
    cases hacc : acceptsAt ext s.meshProps mot he ext.identity
        (propagationCycle ext s.meshProps he hfWall) i with
    | false => rfl
    | true => exact absurd ⟨i, hi, hacc⟩ hex

/-! ## `traceMotorcycle` -/

theorem pushedOnto_refl (push : Motorcycle → List Motorcycle → List Motorcycle)
    (q : List Motorcycle) : PushedOnto push q q :=
  ⟨[], rfl⟩

theorem pushedOnto_trans {push : Motorcycle → List Motorcycle → List Motorcycle}
    {q1 q2 q3 : List Motorcycle} (h12 : PushedOnto push q1 q2) (h23 : PushedOnto push q2 q3) :
    PushedOnto push q1 q3 := by
  obtain ⟨ms, rfl⟩ := h12
  obtain ⟨ns, rfl⟩ := h23
  exact ⟨ms ++ ns, by rw [List.foldl_append]⟩

theorem pushedOnto_single (push : Motorcycle → List Motorcycle → List Motorcycle)
    (q : List Motorcycle) (m : Motorcycle) : PushedOnto push q (push m q) :=
  ⟨[m], rfl⟩

theorem onlyPushes_refl {T : Type} (ext : External T) (s : MotorcycleTracer T) :
    OnlyPushes ext s s :=
  ⟨rfl, rfl, rfl, rfl, rfl, pushedOnto_refl _ _, pushedOnto_refl _ _⟩

theorem onlyPushes_trans {T : Type} {ext : External T} {s1 s2 s3 : MotorcycleTracer T}
    (h12 : OnlyPushes ext s1 s2) (h23 : OnlyPushes ext s2 s3) : OnlyPushes ext s1 s3 := by
  obtain ⟨a1, a2, a3, a4, a5, a6, a7⟩ := h12
  obtain ⟨b1, b2, b3, b4, b5, b6, b7⟩ := h23
  exact ⟨b1.trans a1, b2.trans a2, b3.trans a3, b4.trans a4, b5.trans a5, pushedOnto_trans a6 b6,
    pushedOnto_trans a7 b7⟩

theorem propagateAcrossEdge_onlyPushes {T : Type} (ext : External T) (s : MotorcycleTracer T)
    (mot : Motorcycle) (he : HEH) (hfWall : HFH) :
    OnlyPushes ext s (propagateAcrossEdge ext s mot he hfWall) := by
  rcases propagateAcrossEdge_cases ext s mot he hfWall with h | ⟨m, h⟩ | ⟨m, h⟩
  · rw [h]; exact onlyPushes_refl ext s
  · rw [h]
    exact ⟨rfl, rfl, rfl, rfl, rfl, pushedOnto_refl _ _, pushedOnto_single _ _ m⟩
  · rw [h]
    exact ⟨rfl, rfl, rfl, rfl, rfl, pushedOnto_single _ _ m, pushedOnto_refl _ _⟩

/-- The wall candidate by the position of `A` and `D` relative to the iso-plane. -/
theorem wallCandidate_cases {T : Type} (ext : External T) (s : MotorcycleTracer T)
    (mot : Motorcycle) :
    (deltaA ext s.meshProps mot = 0 → deltaD ext s.meshProps mot = 0 →
      wallCandidate ext s mot = none) ∧
    (deltaA ext s.meshProps mot ≠ 0 → deltaD ext s.meshProps mot ≠ 0 →
      wallCandidate ext s mot = some
        { tracer :=
            { s with
              meshProps := (ext.splitHalfEdge s.meshProps
                (ext.getTetElements s.meshProps mot.tet mot.edge).heAD mot.tet
                (splitParameter ext s.meshProps mot)).1
              _eSplits := wrapInt (s._eSplits + 1) }
          newWallHf := (ext.splitHalfEdge s.meshProps
              (ext.getTetElements s.meshProps mot.tet mot.edge).heAD mot.tet
              (splitParameter ext s.meshProps mot)).1.find_halfface
            [(ext.getTetElements s.meshProps mot.tet mot.edge).vB,
             (ext.getTetElements s.meshProps mot.tet mot.edge).vC,
             (ext.splitHalfEdge s.meshProps
                (ext.getTetElements s.meshProps mot.tet mot.edge).heAD mot.tet
                (splitParameter ext s.meshProps mot)).2]
          heNext1 := (ext.splitHalfEdge s.meshProps
              (ext.getTetElements s.meshProps mot.tet mot.edge).heAD mot.tet
              (splitParameter ext s.meshProps mot)).1.find_halfedge
            (ext.splitHalfEdge s.meshProps
                (ext.getTetElements s.meshProps mot.tet mot.edge).heAD mot.tet
                (splitParameter ext s.meshProps mot)).2
            (ext.getTetElements s.meshProps mot.tet mot.edge).vB
          heNext2 := (ext.splitHalfEdge s.meshProps
              (ext.getTetElements s.meshProps mot.tet mot.edge).heAD mot.tet
              (splitParameter ext s.meshProps mot)).1.find_halfedge
            (ext.getTetElements s.meshProps mot.tet mot.edge).vC
            (ext.splitHalfEdge s.meshProps
                (ext.getTetElements s.meshProps mot.tet mot.edge).heAD mot.tet
                (splitParameter ext s.meshProps mot)).2 }) ∧
    (deltaA ext s.meshProps mot ≠ 0 → deltaD ext s.meshProps mot = 0 →
      wallCandidate ext s mot = some
        { tracer := s
          newWallHf := (ext.getTetElements s.meshProps mot.tet mot.edge).hfBCD
          heNext1 := s.meshProps.next_halfedge_in_halfface
            (ext.getTetElements s.meshProps mot.tet mot.edge).heBC
            (ext.getTetElements s.meshProps mot.tet mot.edge).hfBCD
          heNext2 := s.meshProps.prev_halfedge_in_halfface
            (ext.getTetElements s.meshProps mot.tet mot.edge).heBC
            (ext.getTetElements s.meshProps mot.tet mot.edge).hfBCD }) ∧
    (deltaA ext s.meshProps mot = 0 → deltaD ext s.meshProps mot ≠ 0 →
      wallCandidate ext s mot = some
        { tracer := s
          newWallHf := (ext.getTetElements s.meshProps mot.tet mot.edge).hfCBA
          heNext1 := s.meshProps.next_halfedge_in_halfface
            (opposite_halfedge_handle (ext.getTetElements s.meshProps mot.tet mot.edge).heBC)
            (ext.getTetElements s.meshProps mot.tet mot.edge).hfCBA
          heNext2 := s.meshProps.prev_halfedge_in_halfface
            (opposite_halfedge_handle (ext.getTetElements s.meshProps mot.tet mot.edge).heBC)
            (ext.getTetElements s.meshProps mot.tet mot.edge).hfCBA }) := by
  refine ⟨?_, ?_, ?_, ?_⟩
  · intro hA hD
    unfold wallCandidate
    simp [hA, hD]
  · intro hA hD
    unfold wallCandidate
    simp [hA, hD]
  · intro hA hD
    unfold wallCandidate
    simp [hA, hD]
  · intro hA hD
    unfold wallCandidate
    simp [hA, hD]

theorem wallAndPropagate_success {T : Type} (ext : External T) (w : WallCandidate T)
    (mot : Motorcycle) : (wallAndPropagate ext w mot).1 = RetCode.SUCCESS := by
  unfold wallAndPropagate
  simp only []
  split <;> rfl

/-- The second part of `traceMotorcycle` when the candidate face is already a wall or a
boundary face. -/
theorem wallAndPropagate_skip {T : Type} (ext : External T) (w : WallCandidate T)
    (mot : Motorcycle)
    (h : w.tracer.meshProps.IS_WALL (face_handle w.newWallHf) = true ∨
      w.tracer.meshProps.is_boundary_face (face_handle w.newWallHf) = true) :
    wallAndPropagate ext w mot = (RetCode.SUCCESS, w.tracer) := by
  unfold wallAndPropagate
  have hc : (w.tracer.meshProps.IS_WALL (face_handle w.newWallHf) ||
      w.tracer.meshProps.is_boundary_face (face_handle w.newWallHf)) = true := by
    rw [Bool.or_eq_true]; exact h
  simp only []
  rw [if_pos hc]

/-- The second part of `traceMotorcycle` when the candidate face is neither a wall nor a
boundary face. -/
theorem wallAndPropagate_mark {T : Type} (ext : External T) (w : WallCandidate T)
    (mot : Motorcycle)
    (h : ¬ (w.tracer.meshProps.IS_WALL (face_handle w.newWallHf) = true ∨
      w.tracer.meshProps.is_boundary_face (face_handle w.newWallHf) = true)) :
    wallAndPropagate ext w mot = (RetCode.SUCCESS, afterSecondEdge ext w mot) := by
  unfold wallAndPropagate
  have hc : ¬ (w.tracer.meshProps.IS_WALL (face_handle w.newWallHf) ||
      w.tracer.meshProps.is_boundary_face (face_handle w.newWallHf)) = true := by
    rw [Bool.or_eq_true]; exact h
  simp only []
  rw [if_neg hc]

theorem afterFirstEdge_onlyPushes {T : Type} (ext : External T) (w : WallCandidate T)
    (mot : Motorcycle) : OnlyPushes ext (afterMark ext w mot) (afterFirstEdge ext w mot) := by
  unfold afterFirstEdge
  split
  · exact propagateAcrossEdge_onlyPushes _ _ _ _ _
  · exact onlyPushes_refl _ _

theorem afterSecondEdge_onlyPushes {T : Type} (ext : External T) (w : WallCandidate T)
    (mot : Motorcycle) : OnlyPushes ext (afterMark ext w mot) (afterSecondEdge ext w mot) := by
  refine onlyPushes_trans (afterFirstEdge_onlyPushes ext w mot) ?_
  unfold afterSecondEdge
  split
  · exact propagateAcrossEdge_onlyPushes _ _ _ _ _
  · exact onlyPushes_refl _ _

theorem markWall_frame {T : Type} (ext : External T) (s : MotorcycleTracer T) (mot : Motorcycle)
    (newWall : FH) :
    (markWall ext s mot newWall)._eSplits = s._eSplits ∧
    (markWall ext s mot newWall)._qPops = s._qPops ∧
    (markWall ext s mot newWall)._mQ = s._mQ ∧
    (markWall ext s mot newWall)._localQ = s._localQ ∧
    (markWall ext s mot newWall)._simulateBC = s._simulateBC :=
  ⟨rfl, rfl, rfl, rfl, rfl⟩

/-- The second part of `traceMotorcycle` leaves `_eSplits` and `_qPops` alone and only
pushes into the queues. -/
theorem wallAndPropagate_frame {T : Type} (ext : External T) (w : WallCandidate T)
    (mot : Motorcycle) :
    (wallAndPropagate ext w mot).2._eSplits = w.tracer._eSplits ∧
    (wallAndPropagate ext w mot).2._qPops = w.tracer._qPops ∧
    PushedOnto ext.pushGlobal w.tracer._mQ (wallAndPropagate ext w mot).2._mQ ∧
    PushedOnto ext.pushLocal w.tracer._localQ (wallAndPropagate ext w mot).2._localQ := by
  by_cases h : w.tracer.meshProps.IS_WALL (face_handle w.newWallHf) = true ∨
      w.tracer.meshProps.is_boundary_face (face_handle w.newWallHf) = true
  · rw [wallAndPropagate_skip ext w mot h]
    exact ⟨rfl, rfl, pushedOnto_refl _ _, pushedOnto_refl _ _⟩
  · rw [wallAndPropagate_mark ext w mot h]
    obtain ⟨_, h2, h3, _, _, h6, h7⟩ := afterSecondEdge_onlyPushes ext w mot
    exact ⟨h3, h2, h6, h7⟩

theorem wrapInt_of_range (x : Int) (h1 : -2147483648 ≤ x) (h2 : x ≤ 2147483647) :
    wrapInt x = x := by
  unfold wrapInt
  omega

/-- C12: under the pass-through precondition `deltaA * deltaD <= 0`, `traceMotorcycle`
returns `DEGENERATE_CHART` exactly when `deltaA = 0` and `deltaD = 0`, and `SUCCESS`
otherwise; when it returns `DEGENERATE_CHART`, the tracer (mesh, properties, `_eSplits`,
`newWalls`, both queues) is unchanged. -/
theorem traceMotorcycle_degenerate_iff {T : Type} (ext : External T) (s : MotorcycleTracer T)
    (mot : Motorcycle)
    (_hpass : deltaA ext s.meshProps mot * deltaD ext s.meshProps mot ≤ 0) :
    ((traceMotorcycle ext s mot).1 = RetCode.DEGENERATE_CHART ↔
      (deltaA ext s.meshProps mot = 0 ∧ deltaD ext s.meshProps mot = 0)) ∧
    ((traceMotorcycle ext s mot).1 ≠ RetCode.DEGENERATE_CHART →
      (traceMotorcycle ext s mot).1 = RetCode.SUCCESS) ∧
    ((traceMotorcycle ext s mot).1 = RetCode.DEGENERATE_CHART →
      (traceMotorcycle ext s mot).2 = s) := by
  obtain ⟨c1, c2, c3, c4⟩ := wallCandidate_cases ext s mot
  have hsome : ∀ w, wallCandidate ext s mot = some w →
      (traceMotorcycle ext s mot).1 = RetCode.SUCCESS := by
    intro w hw
    unfold traceMotorcycle
    rw [hw]
    exact wallAndPropagate_success ext w mot
  have hnone : wallCandidate ext s mot = none →
      traceMotorcycle ext s mot = (RetCode.DEGENERATE_CHART, s) := by
    intro hw
    unfold traceMotorcycle
    rw [hw]
  by_cases hA : deltaA ext s.meshProps mot = 0
  · by_cases hD : deltaD ext s.meshProps mot = 0
    · rw [hnone (c1 hA hD)]
      exact ⟨⟨fun _ => ⟨hA, hD⟩, fun _ => rfl⟩, fun h => absurd rfl h, fun _ => rfl⟩
    · have hs := hsome _ (c4 hA hD)
      rw [hs]
      exact ⟨⟨fun h => (by cases h), fun h => absurd h.2 hD⟩, fun _ => rfl,
        fun h => (by cases h)⟩
  · by_cases hD : deltaD ext s.meshProps mot = 0
    · have hs := hsome _ (c3 hA hD)
      rw [hs]
      exact ⟨⟨fun h => (by cases h), fun h => absurd h.1 hA⟩, fun _ => rfl,
        fun h => (by cases h)⟩
    · have hs := hsome _ (c2 hA hD)
      rw [hs]
      exact ⟨⟨fun h => (by cases h), fun h => absurd h.1 hA⟩, fun _ => rfl,
        fun h => (by cases h)⟩

theorem traceMotorcycle_degenerate_iff_witness :
    deltaA sampleExt (sampleTracer []).meshProps (sampleMotorcycle 2 3) *
        deltaD sampleExt (sampleTracer []).meshProps (sampleMotorcycle 2 3) ≤ 0 ∧
    (traceMotorcycle sampleExt (sampleTracer []) (sampleMotorcycle 2 3)).1 =
      RetCode.DEGENERATE_CHART ∧
    ((traceMotorcycle sampleExt (sampleTracer []) (sampleMotorcycle 2 3)).1 =
        RetCode.DEGENERATE_CHART →
      (traceMotorcycle sampleExt (sampleTracer []) (sampleMotorcycle 2 3)).2 = sampleTracer []) :=
  ⟨by decide!, by decide!,
    (traceMotorcycle_degenerate_iff sampleExt (sampleTracer []) (sampleMotorcycle 2 3)
      (by decide!)).2.2⟩

theorem traceMotorcycle_of_some {T : Type} (ext : External T) (s : MotorcycleTracer T)
    (mot : Motorcycle) (w : WallCandidate T) (hw : wallCandidate ext s mot = some w) :
    traceMotorcycle ext s mot = wallAndPropagate ext w mot := by
  unfold traceMotorcycle
  rw [hw]

theorem traceMotorcycle_of_none {T : Type} (ext : External T) (s : MotorcycleTracer T)
    (mot : Motorcycle) (hw : wallCandidate ext s mot = none) :
    traceMotorcycle ext s mot = (RetCode.DEGENERATE_CHART, s) := by
  unfold traceMotorcycle
  rw [hw]

/-- C13: `traceMotorcycle` splits half-edge `AD`, and raises `_eSplits` by one (the
counter being below the largest `int`), exactly when `deltaA != 0` and `deltaD != 0`;
the wall candidate then is the half-face found through `B`, `C` and the new vertex `N`.
When exactly one of the two is zero, the first part changes nothing and the candidate
is `hfBCD` for `deltaD = 0` and `hfCBA` for `deltaA = 0`; when both are zero the tracer
is unchanged. -/
theorem traceMotorcycle_split_iff {T : Type} (ext : External T) (s : MotorcycleTracer T)
    (mot : Motorcycle)
    (_hpass : deltaA ext s.meshProps mot * deltaD ext s.meshProps mot ≤ 0)
    (hlo : -2147483648 ≤ s._eSplits) (hhi : s._eSplits < 2147483647) :
    (deltaA ext s.meshProps mot ≠ 0 → deltaD ext s.meshProps mot ≠ 0 →
      ∃ w, wallCandidate ext s mot = some w ∧
        w.tracer.meshProps = (ext.splitHalfEdge s.meshProps
          (ext.getTetElements s.meshProps mot.tet mot.edge).heAD mot.tet
          (splitParameter ext s.meshProps mot)).1 ∧
        w.newWallHf = w.tracer.meshProps.find_halfface
          [(ext.getTetElements s.meshProps mot.tet mot.edge).vB,
           (ext.getTetElements s.meshProps mot.tet mot.edge).vC,
           (ext.splitHalfEdge s.meshProps
              (ext.getTetElements s.meshProps mot.tet mot.edge).heAD mot.tet
              (splitParameter ext s.meshProps mot)).2] ∧
        w.tracer._eSplits = s._eSplits + 1) ∧
    (deltaA ext s.meshProps mot ≠ 0 → deltaD ext s.meshProps mot = 0 →
      ∃ w, wallCandidate ext s mot = some w ∧ w.tracer = s ∧
        w.newWallHf = (ext.getTetElements s.meshProps mot.tet mot.edge).hfBCD) ∧
    (deltaA ext s.meshProps mot = 0 → deltaD ext s.meshProps mot ≠ 0 →
      ∃ w, wallCandidate ext s mot = some w ∧ w.tracer = s ∧
        w.newWallHf = (ext.getTetElements s.meshProps mot.tet mot.edge).hfCBA) ∧
    (deltaA ext s.meshProps mot = 0 → deltaD ext s.meshProps mot = 0 →
      traceMotorcycle ext s mot = (RetCode.DEGENERATE_CHART, s)) ∧
    ((traceMotorcycle ext s mot).2._eSplits = s._eSplits + 1 ↔
      (deltaA ext s.meshProps mot ≠ 0 ∧ deltaD ext s.meshProps mot ≠ 0)) ∧
    (¬ (deltaA ext s.meshProps mot ≠ 0 ∧ deltaD ext s.meshProps mot ≠ 0) →
      (traceMotorcycle ext s mot).2._eSplits = s._eSplits) := by
  obtain ⟨c1, c2, c3, c4⟩ := wallCandidate_cases ext s mot
  have hwrap : wrapInt (s._eSplits + 1) = s._eSplits + 1 :=
    wrapInt_of_range _ (by omega) (by omega)
  have hsplit : deltaA ext s.meshProps mot ≠ 0 → deltaD ext s.meshProps mot ≠ 0 →
      (traceMotorcycle ext s mot).2._eSplits = s._eSplits + 1 := by
    intro hA hD
    rw [traceMotorcycle_of_some ext s mot _ (c2 hA hD), (wallAndPropagate_frame ext _ mot).1]
    exact hwrap
  have hkeep : ¬ (deltaA ext s.meshProps mot ≠ 0 ∧ deltaD ext s.meshProps mot ≠ 0) →
      (traceMotorcycle ext s mot).2._eSplits = s._eSplits := by
    intro hn
    by_cases hA : deltaA ext s.meshProps mot = 0
    · by_cases hD : deltaD ext s.meshProps mot = 0
      · rw [traceMotorcycle_of_none ext s mot (c1 hA hD)]
      · rw [traceMotorcycle_of_some ext s mot _ (c4 hA hD), (wallAndPropagate_frame ext _ mot).1]
    · by_cases hD : deltaD ext s.meshProps mot = 0
      · rw [traceMotorcycle_of_some ext s mot _ (c3 hA hD), (wallAndPropagate_frame ext _ mot).1]
      · exact absurd ⟨hA, hD⟩ hn
  refine ⟨?_, ?_, ?_, ?_, ?_, hkeep⟩
  · intro hA hD
    exact ⟨_, c2 hA hD, rfl, rfl, hwrap⟩
  · intro hA hD
    exact ⟨_, c3 hA hD, rfl, rfl⟩
  · intro hA hD
    exact ⟨_, c4 hA hD, rfl, rfl⟩
  · intro hA hD
    exact traceMotorcycle_of_none ext s mot (c1 hA hD)
  · constructor
    · intro h
      by_contra hn
      have := hkeep hn
      omega
    · intro h
      exact hsplit h.1 h.2

theorem traceMotorcycle_split_iff_witness :
    (deltaA sampleExt (sampleTracer []).meshProps (sampleMotorcycle 1 3) *
        deltaD sampleExt (sampleTracer []).meshProps (sampleMotorcycle 1 3) ≤ 0 ∧
      -2147483648 ≤ (sampleTracer [])._eSplits ∧ (sampleTracer [])._eSplits < 2147483647) ∧
    (deltaA sampleExt (sampleTracer []).meshProps (sampleMotorcycle 1 3) ≠ 0 ∧
      deltaD sampleExt (sampleTracer []).meshProps (sampleMotorcycle 1 3) ≠ 0) ∧
    (traceMotorcycle sampleExt (sampleTracer []) (sampleMotorcycle 1 3)).2._eSplits = 1 ∧
    ((traceMotorcycle sampleExt (sampleTracer []) (sampleMotorcycle 1 3)).2._eSplits =
        (sampleTracer [])._eSplits + 1 ↔
      (deltaA sampleExt (sampleTracer []).meshProps (sampleMotorcycle 1 3) ≠ 0 ∧
        deltaD sampleExt (sampleTracer []).meshProps (sampleMotorcycle 1 3) ≠ 0)) :=
  ⟨⟨by decide!, by decide!, by decide!⟩, ⟨by decide!, by decide!⟩, by decide!,
    (traceMotorcycle_split_iff sampleExt (sampleTracer []) (sampleMotorcycle 1 3)
      (by decide!) (by decide!) (by decide!)).2.2.2.2.1⟩

/-- C14: over the rationals, when `deltaA * deltaD <= 0` with `deltaA != 0` and
`deltaD != 0`, the divisor `uvwA[c] - uvwD[c]` of the split parameter is not zero, the
split parameter `t` lies strictly between `0` and `1`, and the point at parameter `t` on
the segment from `A` to `D` has the iso value as its iso coordinate. -/
theorem splitParameter_in_unit_interval {T : Type} (ext : External T) (mp : TetMeshProps T)
    (mot : Motorcycle)
    (hpass : deltaA ext mp mot * deltaD ext mp mot ≤ 0)
    (hA : deltaA ext mp mot ≠ 0) (hD : deltaD ext mp mot ≠ 0) :
    vecGet (mp.CHART mot.tet (ext.getTetElements mp mot.tet mot.edge).vA)
        (ext.isoCoord mot.encodedCoords) -
      vecGet (mp.CHART mot.tet (ext.getTetElements mp mot.tet mot.edge).vD)
        (ext.isoCoord mot.encodedCoords) ≠ 0 ∧
    0 < splitParameter ext mp mot ∧ splitParameter ext mp mot < 1 ∧
    vecGet (mp.CHART mot.tet (ext.getTetElements mp mot.tet mot.edge).vA)
        (ext.isoCoord mot.encodedCoords) +
      splitParameter ext mp mot *
        (vecGet (mp.CHART mot.tet (ext.getTetElements mp mot.tet mot.edge).vD)
            (ext.isoCoord mot.encodedCoords) -
          vecGet (mp.CHART mot.tet (ext.getTetElements mp mot.tet mot.edge).vA)
            (ext.isoCoord mot.encodedCoords)) = mot.isoValue := by
  unfold splitParameter
  simp only []
  unfold deltaA deltaD at *
  simp only [] at *
  generalize vecGet (mp.CHART mot.tet (ext.getTetElements mp mot.tet mot.edge).vA)
    (ext.isoCoord mot.encodedCoords) = a at *
  generalize vecGet (mp.CHART mot.tet (ext.getTetElements mp mot.tet mot.edge).vD)
    (ext.isoCoord mot.encodedCoords) = d at *
  generalize mot.isoValue = v at *
  have hlt : (a - v) * (d - v) < 0 := lt_of_le_of_ne hpass (mul_ne_zero hA hD)
  have hne : a - d ≠ 0 := by
    intro h
    have had : a = d := sub_eq_zero.1 h
    rw [had] at hlt
    exact absurd hlt (not_lt.2 (mul_self_nonneg _))
  refine ⟨hne, ?_, ?_, ?_⟩
  · rcases mul_neg_iff.1 hlt with ⟨h1, h2⟩ | ⟨h1, h2⟩
    · exact div_pos h1 (by linarith)
    · exact div_pos_of_neg_of_neg h1 (by linarith)
  · rcases mul_neg_iff.1 hlt with ⟨h1, h2⟩ | ⟨h1, h2⟩
    · rw [div_lt_one (by linarith)]; linarith
    · rw [div_lt_one_of_neg (by linarith)]; linarith
  · field_simp
    ring

theorem splitParameter_in_unit_interval_witness :
    (deltaA sampleExt sampleProps (sampleMotorcycle 1 3) *
        deltaD sampleExt sampleProps (sampleMotorcycle 1 3) ≤ 0 ∧
      deltaA sampleExt sampleProps (sampleMotorcycle 1 3) ≠ 0 ∧
      deltaD sampleExt sampleProps (sampleMotorcycle 1 3) ≠ 0) ∧
    splitParameter sampleExt sampleProps (sampleMotorcycle 1 3) = 1 / 2 ∧
    0 < splitParameter sampleExt sampleProps (sampleMotorcycle 1 3) ∧
    splitParameter sampleExt sampleProps (sampleMotorcycle 1 3) < 1 :=
  ⟨⟨by decide!, by decide!, by decide!⟩, by decide!,
    (splitParameter_in_unit_interval sampleExt sampleProps (sampleMotorcycle 1 3)
      (by decide!) (by decide!) (by decide!)).2.1,
    (splitParameter_in_unit_interval sampleExt sampleProps (sampleMotorcycle 1 3)
      (by decide!) (by decide!) (by decide!)).2.2.1⟩

/-! ## `isAlive` and the marking of the wall -/

theorem wallCount_eq (p : FH → Bool) (l : List FH) (k : Int) :
    l.foldl (fun (n : Int) f => if p f = true then n + 1 else n) k =
      k + ((l.filter p).length : Int) := by
  induction l generalizing k with
  | nil => simp
  | cons a l ih =>
    rw [List.foldl_cons, ih]
    by_cases h : p a = true
    · rw [if_pos h, List.filter_cons_of_pos h, List.length_cons]
      push_cast
      ring
    · rw [if_neg h, List.filter_cons_of_neg h]

/-- The member function `isAlive`, case by case. -/
theorem isAlive_cases {T : Type} (s : MotorcycleTracer T) (e : EH) :
    (s.meshProps.is_boundary_edge e = true → isAlive s e = false) ∧
    (s.meshProps.IS_SINGULAR e = true → isAlive s e = false) ∧
    (s.meshProps.is_boundary_edge e = false → s.meshProps.IS_SINGULAR e = false →
      (s._simulateBC = true ∧ s.meshProps.MC_BLOCK_DATA_allocated = false) →
      isAlive s e = true) ∧
    (s.meshProps.is_boundary_edge e = false → s.meshProps.IS_SINGULAR e = false →
      ¬ (s._simulateBC = true ∧ s.meshProps.MC_BLOCK_DATA_allocated = false) →
      (isAlive s e = true ↔
        ((s.meshProps.edge_faces e).filter s.meshProps.IS_WALL).length < 2)) := by
  refine ⟨?_, ?_, ?_, ?_⟩
  · intro hb
    unfold isAlive
    rw [if_pos hb]
  · intro hs
    unfold isAlive
    by_cases hb : s.meshProps.is_boundary_edge e = true
    · rw [if_pos hb]
    · rw [if_neg hb, if_pos hs]
  · intro hb hs hsim
    unfold isAlive
    rw [if_neg (by rw [hb]; decide), if_neg (by rw [hs]; decide),
      if_pos (by rw [hsim.1, hsim.2]; decide)]
  · intro hb hs hsim
    unfold isAlive
    have hcond : ¬ (s._simulateBC && !s.meshProps.MC_BLOCK_DATA_allocated) = true := by
      intro h
      apply hsim
      cases h1 : s._simulateBC <;> cases h2 : s.meshProps.MC_BLOCK_DATA_allocated <;>
        simp [h1, h2] at h ⊢
    rw [if_neg (by rw [hb]; decide), if_neg (by rw [hs]; decide), if_neg hcond]
    simp only [wallCount_eq, decide_eq_true_eq]
    constructor
    · intro h; omega
    · intro h; omega

theorem two_le_length_of_mem_ne {α : Type} (l : List α) (a b : α) (ha : a ∈ l) (hb : b ∈ l)
    (hab : a ≠ b) : 2 ≤ l.length := by
  match l, ha, hb with
  | [x], ha, hb =>
    have h1 : a = x := by simpa using ha
    have h2 : b = x := by simpa using hb
    exact absurd (h1.trans h2.symm) hab
  | _ :: _ :: _, _, _ => simp

/-- An alive edge of a wall face has no other wall face, outside simulate-BC mode. -/
theorem isAlive_no_other_wall {T : Type} (s : MotorcycleTracer T) (e : EH) (newWall : FH)
    (hmode : ¬ (s._simulateBC = true ∧ s.meshProps.MC_BLOCK_DATA_allocated = false))
    (hwall : s.meshProps.IS_WALL newWall = true)
    (hmem : newWall ∈ s.meshProps.edge_faces e) (halive : isAlive s e = true) :
    ∀ f ∈ s.meshProps.edge_faces e, f ≠ newWall → s.meshProps.IS_WALL f = false := by
  obtain ⟨c1, c2, _, c4⟩ := isAlive_cases s e
  have hb : s.meshProps.is_boundary_edge e = false := by
    cases h : s.meshProps.is_boundary_edge e with
    | false => rfl
    | true => rw [c1 h] at halive; cases halive
  have hs : s.meshProps.IS_SINGULAR e = false := by
    cases h : s.meshProps.IS_SINGULAR e with
    | false => rfl
    | true => rw [c2 h] at halive; cases halive
  have hcount := (c4 hb hs hmode).1 halive
  intro f hf hne
  cases hw : s.meshProps.IS_WALL f with
  | false => rfl
  | true =>
    have h1 : newWall ∈ (s.meshProps.edge_faces e).filter s.meshProps.IS_WALL :=
      List.mem_filter.2 ⟨hmem, hwall⟩
    have h2 : f ∈ (s.meshProps.edge_faces e).filter s.meshProps.IS_WALL :=
      List.mem_filter.2 ⟨hf, hw⟩
    have := two_le_length_of_mem_ne _ _ _ h1 h2 (Ne.symm hne)
    omega

theorem afterMark_props {T : Type} (ext : External T) (w : WallCandidate T) (mot : Motorcycle) :
    (afterMark ext w mot).meshProps.IS_WALL (face_handle w.newWallHf) = true ∧
    (∀ f, f ≠ face_handle w.newWallHf →
      (afterMark ext w mot).meshProps.IS_WALL f = w.tracer.meshProps.IS_WALL f) ∧
    (afterMark ext w mot).meshProps.edge_faces = w.tracer.meshProps.edge_faces ∧
    (afterMark ext w mot).meshProps.MC_BLOCK_DATA_allocated =
      w.tracer.meshProps.MC_BLOCK_DATA_allocated ∧
    (afterMark ext w mot)._simulateBC = w.tracer._simulateBC := by
  refine ⟨?_, ?_, rfl, rfl, rfl⟩
  · simp [afterMark, markWall]
  · intro f hf
    simp [afterMark, markWall, Function.update, hf]

/-- C15: `isAlive(e)` is `false` for a boundary edge and for a singular edge; for any
other edge it is `true` when boundary conditions are simulated and `MC_BLOCK_DATA` is
not allocated, and otherwise it is `true` exactly when fewer than two wall faces are
incident on `e`.  Hence, outside that mode, `traceMotorcycle`, which checks `isAlive`
after marking its new wall and propagates only across an alive edge, propagates across
an edge of the new wall only if no other face incident on that edge is a wall. -/
theorem isAlive_first_wall_only {T : Type} (ext : External T) (s : MotorcycleTracer T)
    (e : EH) (w : WallCandidate T) (mot : Motorcycle) :
    ((s.meshProps.is_boundary_edge e = true → isAlive s e = false) ∧
      (s.meshProps.IS_SINGULAR e = true → isAlive s e = false) ∧
      (s.meshProps.is_boundary_edge e = false → s.meshProps.IS_SINGULAR e = false →
        (s._simulateBC = true ∧ s.meshProps.MC_BLOCK_DATA_allocated = false) →
        isAlive s e = true) ∧
      (s.meshProps.is_boundary_edge e = false → s.meshProps.IS_SINGULAR e = false →
        ¬ (s._simulateBC = true ∧ s.meshProps.MC_BLOCK_DATA_allocated = false) →
        (isAlive s e = true ↔
          ((s.meshProps.edge_faces e).filter s.meshProps.IS_WALL).length < 2))) ∧
    (isAlive (afterMark ext w mot) (edge_handle w.heNext1) = false →
      afterFirstEdge ext w mot = afterMark ext w mot) ∧
    (isAlive (afterFirstEdge ext w mot) (edge_handle w.heNext2) = false →
      afterSecondEdge ext w mot = afterFirstEdge ext w mot) ∧
    (¬ (w.tracer._simulateBC = true ∧ w.tracer.meshProps.MC_BLOCK_DATA_allocated = false) →
      (face_handle w.newWallHf ∈ w.tracer.meshProps.edge_faces (edge_handle w.heNext1) →
        isAlive (afterMark ext w mot) (edge_handle w.heNext1) = true →
        ∀ f ∈ w.tracer.meshProps.edge_faces (edge_handle w.heNext1),
          f ≠ face_handle w.newWallHf → w.tracer.meshProps.IS_WALL f = false) ∧
      (face_handle w.newWallHf ∈ w.tracer.meshProps.edge_faces (edge_handle w.heNext2) →
        isAlive (afterFirstEdge ext w mot) (edge_handle w.heNext2) = true →
        ∀ f ∈ w.tracer.meshProps.edge_faces (edge_handle w.heNext2),
          f ≠ face_handle w.newWallHf → w.tracer.meshProps.IS_WALL f = false)) := by
  obtain ⟨m1, m2, m3, m4, m5⟩ := afterMark_props ext w mot
  obtain ⟨p1, _, _, p4, _, _, _⟩ := afterFirstEdge_onlyPushes ext w mot
  refine ⟨isAlive_cases s e, ?_, ?_, ?_⟩
  · intro h
    unfold afterFirstEdge
    rw [if_neg (by rw [h]; decide)]
  · intro h
    unfold afterSecondEdge
    rw [if_neg (by rw [h]; decide)]
  · intro hmode
    constructor
    · intro hmem halive f hf hne
      have := isAlive_no_other_wall (afterMark ext w mot) (edge_handle w.heNext1)
        (face_handle w.newWallHf) (by rw [m4, m5]; exact hmode) m1
        (by rw [m3]; exact hmem) halive f (by rw [m3]; exact hf) hne
      rw [← m2 f hne]
      exact this
    · intro hmem halive f hf hne
      have := isAlive_no_other_wall (afterFirstEdge ext w mot) (edge_handle w.heNext2)
        (face_handle w.newWallHf) (by rw [p1, p4, m4, m5]; exact hmode)
        (by rw [p1]; exact m1) (by rw [p1, m3]; exact hmem) halive f
        (by rw [p1, m3]; exact hf) hne
      rw [p1] at this
      rw [← m2 f hne]
      exact this

/-- The wall candidate keeps `newWalls`, the queues and `_qPops`; without a split it keeps
the whole tracer. -/
theorem wallCandidate_frame {T : Type} (ext : External T) (s : MotorcycleTracer T)
    (mot : Motorcycle) (w : WallCandidate T) (hw : wallCandidate ext s mot = some w) :
    w.tracer.newWalls = s.newWalls ∧ w.tracer._mQ = s._mQ ∧ w.tracer._localQ = s._localQ ∧
    w.tracer._qPops = s._qPops ∧ w.tracer._simulateBC = s._simulateBC ∧
    ((deltaA ext s.meshProps mot = 0 ∨ deltaD ext s.meshProps mot = 0) → w.tracer = s) := by
  obtain ⟨c1, c2, c3, c4⟩ := wallCandidate_cases ext s mot
  by_cases hA : deltaA ext s.meshProps mot = 0
  · by_cases hD : deltaD ext s.meshProps mot = 0
    · rw [c1 hA hD] at hw; cases hw
    · rw [c4 hA hD] at hw
      cases hw
      exact ⟨rfl, rfl, rfl, rfl, rfl, fun _ => rfl⟩
  · by_cases hD : deltaD ext s.meshProps mot = 0
    · rw [c3 hA hD] at hw
      cases hw
      exact ⟨rfl, rfl, rfl, rfl, rfl, fun _ => rfl⟩
    · rw [c2 hA hD] at hw
      cases hw
      refine ⟨rfl, rfl, rfl, rfl, rfl, ?_⟩
      rintro (h | h)
      · exact absurd h hA
      · exact absurd h hD

/-- C16: let `w` be the wall candidate of `traceMotorcycle` (the tracer as it is when the
candidate face is examined: `newWalls` and both queues are those of the call, and
without a split the whole tracer is).  If
the candidate face is already marked `IS_WALL` or is a boundary face, the call returns
`SUCCESS` and leaves the tracer as it is: `IS_WALL`, `WALL_DIST`, `newWalls` and both
queues are unchanged.  Otherwise it returns `SUCCESS`, sets `IS_WALL` on that face and
on no other, records the `float` value of `mot.dist` as `WALL_DIST` of that face and of
no other, leaves the rest of the mesh and its properties alone and appends the face
once to `newWalls`. -/
theorem traceMotorcycle_wall_frame {T : Type} (ext : External T) (s : MotorcycleTracer T)
    (mot : Motorcycle) (w : WallCandidate T) (hw : wallCandidate ext s mot = some w) :
    (traceMotorcycle ext s mot).1 = RetCode.SUCCESS ∧
    (w.tracer.newWalls = s.newWalls ∧ w.tracer._mQ = s._mQ ∧ w.tracer._localQ = s._localQ ∧
      ((deltaA ext s.meshProps mot = 0 ∨ deltaD ext s.meshProps mot = 0) → w.tracer = s)) ∧
    ((w.tracer.meshProps.IS_WALL (face_handle w.newWallHf) = true ∨
        w.tracer.meshProps.is_boundary_face (face_handle w.newWallHf) = true) →
      (traceMotorcycle ext s mot).2 = w.tracer ∧
      (traceMotorcycle ext s mot).2.newWalls = s.newWalls ∧
      (traceMotorcycle ext s mot).2._mQ = s._mQ ∧
      (traceMotorcycle ext s mot).2._localQ = s._localQ) ∧
    (¬ (w.tracer.meshProps.IS_WALL (face_handle w.newWallHf) = true ∨
        w.tracer.meshProps.is_boundary_face (face_handle w.newWallHf) = true) →
      (traceMotorcycle ext s mot).2.meshProps =
        { w.tracer.meshProps with
          IS_WALL := Function.update w.tracer.meshProps.IS_WALL (face_handle w.newWallHf) true
          WALL_DIST := Function.update w.tracer.meshProps.WALL_DIST (face_handle w.newWallHf)
            (ext.toFloat mot.dist) } ∧
      (traceMotorcycle ext s mot).2.meshProps.IS_WALL (face_handle w.newWallHf) = true ∧
      (∀ f, f ≠ face_handle w.newWallHf →
        (traceMotorcycle ext s mot).2.meshProps.IS_WALL f = w.tracer.meshProps.IS_WALL f) ∧
      (traceMotorcycle ext s mot).2.meshProps.WALL_DIST (face_handle w.newWallHf) =
        ext.toFloat mot.dist ∧
      (∀ f, f ≠ face_handle w.newWallHf →
        (traceMotorcycle ext s mot).2.meshProps.WALL_DIST f =
          w.tracer.meshProps.WALL_DIST f) ∧
      (traceMotorcycle ext s mot).2.newWalls = s.newWalls ++ [face_handle w.newWallHf]) := by
  obtain ⟨f1, f2, f3, _, _, f6⟩ := wallCandidate_frame ext s mot w hw
  rw [traceMotorcycle_of_some ext s mot w hw]
  refine ⟨wallAndPropagate_success ext w mot, ⟨f1, f2, f3, f6⟩, ?_, ?_⟩
  · intro h
    rw [wallAndPropagate_skip ext w mot h]
    exact ⟨rfl, f1, f2, f3⟩
  · intro h
    rw [wallAndPropagate_mark ext w mot h]
    obtain ⟨p1, _, _, _, p5, _, _⟩ := afterSecondEdge_onlyPushes ext w mot
    simp only []
    rw [p1, p5]
    refine ⟨rfl, ?_, ?_, ?_, ?_, ?_⟩
    · simp [afterMark, markWall]
    · intro f hf
      simp [afterMark, markWall, Function.update, hf]
    · simp [afterMark, markWall]
    · intro f hf
      simp [afterMark, markWall, Function.update, hf]
    · show w.tracer.newWalls ++ [face_handle w.newWallHf] = _
      rw [f1]

theorem isAlive_first_wall_only_witness :
    (¬ (sampleWall.tracer._simulateBC = true ∧
        sampleWall.tracer.meshProps.MC_BLOCK_DATA_allocated = false) ∧
      face_handle sampleWall.newWallHf ∈
        sampleWall.tracer.meshProps.edge_faces (edge_handle sampleWall.heNext1) ∧
      isAlive (afterMark sampleExt sampleWall (sampleMotorcycle 0 3))
        (edge_handle sampleWall.heNext1) = true) ∧
    (∀ f ∈ sampleWall.tracer.meshProps.edge_faces (edge_handle sampleWall.heNext1),
      f ≠ face_handle sampleWall.newWallHf → sampleWall.tracer.meshProps.IS_WALL f = false) :=
  ⟨⟨by decide, by decide, by decide⟩,
    ((isAlive_first_wall_only sampleExt (sampleTracer []) 4 sampleWall
      (sampleMotorcycle 0 3)).2.2.2 (by decide)).1 (by decide) (by decide)⟩

theorem sampleCandidate_eq :
    wallCandidate sampleExt (sampleTracer []) (sampleMotorcycle 0 3) = some sampleCandidate :=
  (wallCandidate_cases sampleExt (sampleTracer []) (sampleMotorcycle 0 3)).2.2.1
    (by decide!) (by decide!)

theorem traceMotorcycle_wall_frame_witness :
    wallCandidate sampleExt (sampleTracer []) (sampleMotorcycle 0 3) = some sampleCandidate ∧
    ¬ (sampleCandidate.tracer.meshProps.IS_WALL (face_handle sampleCandidate.newWallHf) = true ∨
      sampleCandidate.tracer.meshProps.is_boundary_face
        (face_handle sampleCandidate.newWallHf) = true) ∧
    (traceMotorcycle sampleExt (sampleTracer []) (sampleMotorcycle 0 3)).2.meshProps.IS_WALL
      (face_handle sampleCandidate.newWallHf) = true ∧
    (traceMotorcycle sampleExt (sampleTracer []) (sampleMotorcycle 0 3)).2.newWalls =
      (sampleTracer []).newWalls ++ [face_handle sampleCandidate.newWallHf] :=
  ⟨sampleCandidate_eq, by decide,
    ((traceMotorcycle_wall_frame sampleExt (sampleTracer []) (sampleMotorcycle 0 3)
      sampleCandidate sampleCandidate_eq).2.2.2 (by decide)).2.1,
    ((traceMotorcycle_wall_frame sampleExt (sampleTracer []) (sampleMotorcycle 0 3)
      sampleCandidate sampleCandidate_eq).2.2.2 (by decide)).2.2.2.2.2⟩

theorem propagateAcrossEdge_one_followUp_witness :
    (2 < (propagationCycle sampleExt (sampleTracer []).meshProps 9 2).length ∧
      acceptsAt sampleExt (sampleTracer []).meshProps (sampleMotorcycle 0 3) 9
        sampleExt.identity (propagationCycle sampleExt (sampleTracer []).meshProps 9 2) 2 = true ∧
      (∀ j, j < 2 → acceptsAt sampleExt (sampleTracer []).meshProps (sampleMotorcycle 0 3) 9
        sampleExt.identity (propagationCycle sampleExt (sampleTracer []).meshProps 9 2) j =
          false)) ∧
    propagateAcrossEdge sampleExt (sampleTracer []) (sampleMotorcycle 0 3) 9 2 =
      (if insideUpTo (sampleTracer []).meshProps
          (propagationCycle sampleExt (sampleTracer []).meshProps 9 2) 2 = true then
        pushedLocal sampleExt (sampleTracer [])
          (followUp sampleExt (sampleTracer []).meshProps (sampleMotorcycle 0 3)
            (candidateAt sampleExt (sampleTracer []).meshProps (sampleMotorcycle 0 3) 9
              sampleExt.identity (propagationCycle sampleExt (sampleTracer []).meshProps 9 2) 2))
      else
        pushedGlobal sampleExt (sampleTracer [])
          (followUp sampleExt (sampleTracer []).meshProps (sampleMotorcycle 0 3)
            (candidateAt sampleExt (sampleTracer []).meshProps (sampleMotorcycle 0 3) 9
              sampleExt.identity
              (propagationCycle sampleExt (sampleTracer []).meshProps 9 2) 2))) :=
  ⟨⟨by decide, by decide!, by decide!⟩,
    (propagateAcrossEdge_one_followUp sampleExt (sampleTracer []) (sampleMotorcycle 0 3) 9
      2).2.1 2 (by decide) (by decide!) (by decide!)⟩

theorem sample_followUp_global :
    (propagateAcrossEdge sampleExt (sampleTracer []) (sampleMotorcycle 0 3) 9 2)._localQ = [] ∧
    (propagateAcrossEdge sampleExt (sampleTracer []) (sampleMotorcycle 0 3) 9 2)._mQ =
      [{ tet := 5, edge := 4, encodedCoords := (1, 2, 3), isoValue := 0, startValue := 25,
         dist := 29, directDist := 25 }] := by
  constructor <;> decide!

/-! ## `traceNextMotorcycle` and `traceAllMotorcycles` -/

theorem keepsPops_refl {T : Type} (ext : External T) (s : MotorcycleTracer T) :
    KeepsPops ext s s :=
  ⟨rfl, pushedOnto_refl _ _⟩

theorem keepsPops_trans {T : Type} {ext : External T} {s1 s2 s3 : MotorcycleTracer T}
    (h12 : KeepsPops ext s1 s2) (h23 : KeepsPops ext s2 s3) : KeepsPops ext s1 s3 :=
  ⟨h23.1.trans h12.1, pushedOnto_trans h12.2 h23.2⟩

/-- The function `traceMotorcycle` never pops the global queue. -/
theorem traceMotorcycle_keepsPops {T : Type} (ext : External T) (s : MotorcycleTracer T)
    (mot : Motorcycle) : KeepsPops ext s (traceMotorcycle ext s mot).2 := by
  cases hw : wallCandidate ext s mot with
  | none =>
    rw [traceMotorcycle_of_none ext s mot hw]
    exact keepsPops_refl ext s
  | some w =>
    rw [traceMotorcycle_of_some ext s mot w hw]
    obtain ⟨_, f2, _, f4, _, _⟩ := wallCandidate_frame ext s mot w hw
    obtain ⟨_, g2, g3, _⟩ := wallAndPropagate_frame ext w mot
    refine ⟨g2.trans f4, ?_⟩
    rw [← f2]
    exact g3

/-- An invariant of the callback is an invariant of the inner loop of
`forEachChildMotorcycle`. -/
theorem childEdgeLoop_invariant {T σ : Type} (ext : External T) (meshOf : σ → TetMeshProps T)
    (func : σ → Motorcycle → σ) (mot : Motorcycle) (tet : CH) (tetEdges : List EH)
    (R : σ → σ → Prop) (hrefl : ∀ a, R a a) (hfunc : ∀ a m, R a (func a m)) :
    ∀ (fuel : Nat) (acc : σ) (kept l : List EH) (r : σ × List EH),
      childEdgeLoop ext meshOf func mot tet tetEdges fuel acc kept l = some r → R acc r.1 := by
  intro fuel
  induction fuel with
  | zero =>
    intro acc kept l r h
    simp [childEdgeLoop] at h
  | succ fuel ih =>
    intro acc kept l r h
    cases l with
    | nil =>
      simp only [childEdgeLoop] at h
      cases h
      exact hrefl acc
    | cons e rest =>
      simp only [childEdgeLoop] at h
      split at h
      · exact ih _ _ _ _ h
      · split at h
        · split at h
          · cases h
            exact hfunc _ _
          · exact ih _ _ _ _ h
        · exact ih _ _ _ _ h

/-- An invariant of the callback is an invariant of the outer loop of
`forEachChildMotorcycle`. -/
theorem childTetLoop_invariant {T σ : Type} (ext : External T) (meshOf : σ → TetMeshProps T)
    (func : σ → Motorcycle → σ) (mot : Motorcycle)
    (R : σ → σ → Prop) (hrefl : ∀ a, R a a) (htrans : ∀ a b c, R a b → R b c → R a c)
    (hfunc : ∀ a m, R a (func a m)) :
    ∀ (fuel : Nat) (acc : σ) (tets : List CH) (edges : List EH) (r : σ),
      childTetLoop ext meshOf func mot fuel acc tets edges = some r → R acc r := by
  intro fuel
  induction fuel with
  | zero =>
    intro acc tets edges r h
    simp [childTetLoop] at h
  | succ fuel ih =>
    intro acc tets edges r h
    cases tets with
    | nil =>
      simp only [childTetLoop] at h
      cases h
      exact hrefl acc
    | cons tet rest =>
      simp only [childTetLoop] at h
      split at h
      · exact ih _ _ _ _ h
      · split at h
        · cases h
        · rename_i r1 hr1
          exact htrans _ _ _
            (childEdgeLoop_invariant ext meshOf func mot tet _ R hrefl hfunc _ _ _ _ _ hr1)
            (ih _ _ _ _ h)

/-- An invariant of the callback is an invariant of `forEachChildMotorcycle`. -/
theorem forEachChildMotorcycle_invariant {T σ : Type} (ext : External T)
    (meshOf : σ → TetMeshProps T) (fuel : Nat) (mot : Motorcycle) (func : σ → Motorcycle → σ)
    (R : σ → σ → Prop) (hrefl : ∀ a, R a a) (htrans : ∀ a b c, R a b → R b c → R a c)
    (hfunc : ∀ a m, R a (func a m)) (acc r : σ)
    (h : forEachChildMotorcycle ext meshOf fuel mot func acc = some r) : R acc r :=
  childTetLoop_invariant ext meshOf func mot R hrefl htrans hfunc fuel acc _ _ r h

/-- The loop over the local queue never pops the global queue, and it returns `SUCCESS`
only with an empty local queue. -/
theorem drainLocalQueue_spec {T : Type} (ext : External T) :
    ∀ (fuel : Nat) (s : MotorcycleTracer T) (r : RetCode × MotorcycleTracer T),
      drainLocalQueue ext fuel s = some r →
      KeepsPops ext s r.2 ∧ (r.1 = RetCode.SUCCESS → r.2._localQ = []) := by
  intro fuel
  induction fuel with
  | zero =>
    intro s r h
    simp [drainLocalQueue] at h
  | succ fuel ih =>
    intro s r h
    simp only [drainLocalQueue] at h
    split at h
    · rename_i hemp
      cases h
      exact ⟨keepsPops_refl ext s, fun _ => List.isEmpty_iff.mp hemp⟩
    · have hpop : KeepsPops ext s { s with _localQ := s._localQ.tail } :=
        ⟨rfl, pushedOnto_refl _ _⟩
      split at h
      · split at h
        · rename_i hne
          cases h
          exact ⟨keepsPops_trans hpop (traceMotorcycle_keepsPops ext _ _), fun hs => absurd hs hne⟩
        · obtain ⟨k1, k2⟩ := ih _ _ h
          exact ⟨keepsPops_trans (keepsPops_trans hpop (traceMotorcycle_keepsPops ext _ _)) k1, k2⟩
      · split at h
        · cases h
        · rename_i r1 hr1
          have hinv : KeepsPops ext { s with _localQ := s._localQ.tail } r1.1 :=
            forEachChildMotorcycle_invariant ext (fun acc => acc.1.meshProps) fuel _
              (traceChild ext) (fun a b => KeepsPops ext a.1 b.1)
              (fun a => keepsPops_refl ext a.1) (fun a b c hab hbc => keepsPops_trans hab hbc)
              (fun a m => traceMotorcycle_keepsPops ext a.1 m) _ _ hr1
          split at h
          · rename_i hne
            cases h
            exact ⟨keepsPops_trans hpop hinv, fun hs => absurd hs hne⟩
          · obtain ⟨k1, k2⟩ := ih _ _ h
            exact ⟨keepsPops_trans (keepsPops_trans hpop hinv) k1, k2⟩

/-! ## More passes allowed, same result -/

theorem childEdgeLoop_mono {T σ : Type} (ext : External T) (meshOf : σ → TetMeshProps T)
    (func : σ → Motorcycle → σ) (mot : Motorcycle) (tet : CH) (tetEdges : List EH) :
    ∀ (fuel fuel' : Nat), fuel ≤ fuel' → ∀ (acc : σ) (kept l : List EH) (r : σ × List EH),
      childEdgeLoop ext meshOf func mot tet tetEdges fuel acc kept l = some r →
      childEdgeLoop ext meshOf func mot tet tetEdges fuel' acc kept l = some r := by
  intro fuel
  induction fuel with
  | zero =>
    intro fuel' _ acc kept l r h
    simp [childEdgeLoop] at h
  | succ fuel ih =>
    intro fuel' hle acc kept l r h
    obtain ⟨m, rfl⟩ : ∃ m, fuel' = m + 1 := ⟨fuel' - 1, by omega⟩
    have hm : fuel ≤ m := by omega
    cases l with
    | nil =>
      simp only [childEdgeLoop] at h ⊢
      exact h
    | cons e rest =>
      simp only [childEdgeLoop] at h ⊢
      split
      · rename_i hd
        rw [if_pos hd] at h
        exact ih m hm _ _ _ _ h
      · rename_i hd
        rw [if_neg hd] at h
        split
        · rename_i hin
          rw [if_pos hin] at h
          split
          · rename_i ho
            rw [if_pos ho] at h
            exact h
          · rename_i ho
            rw [if_neg ho] at h
            exact ih m hm _ _ _ _ h
        · rename_i hin
          rw [if_neg hin] at h
          exact ih m hm _ _ _ _ h

theorem childTetLoop_mono {T σ : Type} (ext : External T) (meshOf : σ → TetMeshProps T)
    (func : σ → Motorcycle → σ) (mot : Motorcycle) :
    ∀ (fuel fuel' : Nat), fuel ≤ fuel' → ∀ (acc : σ) (tets : List CH) (edges : List EH) (r : σ),
      childTetLoop ext meshOf func mot fuel acc tets edges = some r →
      childTetLoop ext meshOf func mot fuel' acc tets edges = some r := by
  intro fuel
  induction fuel with
  | zero =>
    intro fuel' _ acc tets edges r h
    simp [childTetLoop] at h
  | succ fuel ih =>
    intro fuel' hle acc tets edges r h
    obtain ⟨m, rfl⟩ : ∃ m, fuel' = m + 1 := ⟨fuel' - 1, by omega⟩
    have hm : fuel ≤ m := by omega
    cases tets with
    | nil =>
      simp only [childTetLoop] at h ⊢
      exact h
    | cons tet rest =>
      simp only [childTetLoop] at h ⊢
      split at h
      · rename_i hd
        rw [if_pos hd]
        exact ih m hm _ _ _ _ h
      · rename_i hd
        rw [if_neg hd]
        split at h
        · cases h
        · rename_i r1 hr1
          rw [childEdgeLoop_mono ext meshOf func mot tet _ fuel m hm _ _ _ _ hr1]
          exact ih m hm _ _ _ _ h

theorem drainLocalQueue_mono {T : Type} (ext : External T) :
    ∀ (fuel fuel' : Nat), fuel ≤ fuel' →
      ∀ (s : MotorcycleTracer T) (r : RetCode × MotorcycleTracer T),
      drainLocalQueue ext fuel s = some r → drainLocalQueue ext fuel' s = some r := by
  intro fuel
  induction fuel with
  | zero =>
    intro fuel' _ s r h
    simp [drainLocalQueue] at h
  | succ fuel ih =>
    intro fuel' hle s r h
    obtain ⟨m, rfl⟩ : ∃ m, fuel' = m + 1 := ⟨fuel' - 1, by omega⟩
    have hm : fuel ≤ m := by omega
    simp only [drainLocalQueue] at h ⊢
    split at h
    · rename_i hemp
      rw [if_pos hemp]
      exact h
    · rename_i hemp
      rw [if_neg hemp]
      split at h
      · rename_i hd
        rw [if_pos hd]
        split at h
        · rename_i hs
          rw [if_pos hs]
          exact h
        · rename_i hs
          rw [if_neg hs]
          exact ih m hm _ _ h
      · rename_i hd
        rw [if_neg hd]
        split at h
        · cases h
        · rename_i r1 hr1
          have hr1' := childTetLoop_mono ext (fun acc : MotorcycleTracer T × RetCode =>
            acc.1.meshProps) (traceChild ext) _ fuel m hm _ _ _ _ hr1
          unfold forEachChildMotorcycle
          rw [hr1']
          exact
            (by
              split at h
              · rename_i hs
                simp only []
                rw [if_pos hs]
                exact h
              · rename_i hs
                simp only []
                rw [if_neg hs]
                exact ih m hm _ _ h)

/-- A call of `traceNextMotorcycle` that returns within `fuel` passes of its loops returns
the same with any larger bound. -/
theorem traceNextMotorcycle_mono {T : Type} (ext : External T) (fuel fuel' : Nat)
    (hle : fuel ≤ fuel') (s : MotorcycleTracer T) (r : RetCode × MotorcycleTracer T)
    (h : traceNextMotorcycle ext fuel s = some r) : traceNextMotorcycle ext fuel' s = some r :=
  drainLocalQueue_mono ext fuel fuel' hle _ r h

/-- A run of `traceAllMotorcycles` that returns within the bounds `fuel` and `n` returns
the same with any larger bounds. -/
theorem traceAllMotorcycles_mono {T : Type} (ext : External T) (fuel fuel' : Nat)
    (hle : fuel ≤ fuel') :
    ∀ (n n' : Nat), n ≤ n' → ∀ (s : MotorcycleTracer T) (r : RetCode × MotorcycleTracer T),
      traceAllMotorcycles ext fuel n s = some r → traceAllMotorcycles ext fuel' n' s = some r := by
  intro n
  induction n with
  | zero =>
    intro n' _ s r h
    simp [traceAllMotorcycles] at h
  | succ n ih =>
    intro n' hn s r h
    obtain ⟨m, rfl⟩ : ∃ m, n' = m + 1 := ⟨n' - 1, by omega⟩
    have hm : n ≤ m := by omega
    rw [traceAllMotorcycles] at h ⊢
    split at h
    · rename_i hemp
      rw [if_pos hemp]
      exact h
    · rename_i hemp
      rw [if_neg hemp]
      split at h
      · cases h
      · rename_i r1 hr1
        rw [traceNextMotorcycle_mono ext fuel fuel' hle s r1 hr1]
        simp only []
        split at h
        · rename_i hs
          rw [if_pos hs]
          exact h
        · rename_i hs
          rw [if_neg hs]
          exact ih m hm _ _ h

theorem loopPass_eq_some {T : Type} (ext : External T) (fuel : Nat)
    (s s' : MotorcycleTracer T) :
    loopPass ext fuel s = some s' ↔
      (s._mQ ≠ [] ∧ traceNextMotorcycle ext fuel s = some (RetCode.SUCCESS, s')) := by
  unfold loopPass
  constructor
  · intro h
    split at h
    · cases h
    · rename_i hemp
      split at h
      · cases h
      · rename_i r hr
        split at h
        · cases h
        · rename_i hs
          cases h
          refine ⟨fun hnil => hemp (List.isEmpty_iff.mpr hnil), ?_⟩
          rw [hr]
          have h1 : r.1 = RetCode.SUCCESS := not_not.mp hs
          rw [← h1]
  · rintro ⟨hne, hr⟩
    rw [if_neg (fun hemp => hne (List.isEmpty_iff.mp hemp)), hr]
    simp

theorem loopHeadAfter_cons {T : Type} (ext : External T) (fuel : Nat) :
    ∀ (k : Nat) (s : MotorcycleTracer T),
      loopHeadAfter ext fuel (k + 1) s = (loopPass ext fuel s).bind (loopHeadAfter ext fuel k) := by
  intro k
  induction k with
  | zero =>
    intro s
    simp [loopHeadAfter]
  | succ k ih =>
    intro s
    rw [loopHeadAfter, ih s]
    cases loopPass ext fuel s with
    | none => rfl
    | some s' =>
      simp only [Option.some_bind]
      rw [loopHeadAfter]

theorem traceAllMotorcycles_of_loopPass {T : Type} (ext : External T) (fuel n : Nat)
    (s s' : MotorcycleTracer T) (h : loopPass ext fuel s = some s') :
    traceAllMotorcycles ext fuel (n + 1) s = traceAllMotorcycles ext fuel n s' := by
  obtain ⟨hne, hr⟩ := (loopPass_eq_some ext fuel s s').mp h
  rw [traceAllMotorcycles, if_neg (fun hemp => hne (List.isEmpty_iff.mp hemp)), hr]
  simp

/-- A run of `traceAllMotorcycles` whose loop reaches the tracer `st` after `k` passes
goes on from there. -/
theorem traceAllMotorcycles_of_loopHead {T : Type} (ext : External T) (fuel : Nat) :
    ∀ (k n : Nat) (s st : MotorcycleTracer T), loopHeadAfter ext fuel k s = some st →
      traceAllMotorcycles ext fuel (k + n) s = traceAllMotorcycles ext fuel n st := by
  intro k
  induction k with
  | zero =>
    intro n s st h
    simp only [loopHeadAfter, Option.some.injEq] at h
    rw [h, Nat.zero_add]
  | succ k ih =>
    intro n s st h
    rw [loopHeadAfter_cons] at h
    cases hp : loopPass ext fuel s with
    | none => rw [hp] at h; cases h
    | some s' =>
      rw [hp, Option.some_bind] at h
      rw [show k + 1 + n = (k + n) + 1 by omega, traceAllMotorcycles_of_loopPass ext fuel _ s s' hp]
      exact ih n s' st h

/-- The passes before a loop head that is reached. -/
theorem loopHeadAfter_earlier {T : Type} (ext : External T) (fuel : Nat) (s : MotorcycleTracer T) :
    ∀ (k : Nat) (st : MotorcycleTracer T), loopHeadAfter ext fuel k s = some st →
      ∀ j, j < k → ∃ sj sj', loopHeadAfter ext fuel j s = some sj ∧ sj._mQ ≠ [] ∧
        traceNextMotorcycle ext fuel sj = some (RetCode.SUCCESS, sj') ∧
        loopHeadAfter ext fuel (j + 1) s = some sj' := by
  intro k
  induction k with
  | zero =>
    intro st _ j hj
    omega
  | succ k ih =>
    intro st h j hj
    rw [loopHeadAfter] at h
    cases hk : loopHeadAfter ext fuel k s with
    | none => rw [hk] at h; cases h
    | some sk =>
      rw [hk, Option.some_bind] at h
      by_cases hjk : j < k
      · exact ih sk hk j hjk
      · have hj' : j = k := by omega
        subst hj'
        obtain ⟨hne, hr⟩ := (loopPass_eq_some ext fuel sk st).mp h
        refine ⟨sk, st, hk, hne, hr, ?_⟩
        rw [loopHeadAfter, hk, Option.some_bind]
        exact h

/-- The result of `traceAllMotorcycles` in terms of the passes of its loop. -/
theorem traceAllMotorcycles_eq_some_iff {T : Type} (ext : External T) (fuel : Nat) :
    ∀ (n : Nat) (s : MotorcycleTracer T) (r : RetCode × MotorcycleTracer T),
      traceAllMotorcycles ext fuel n s = some r ↔
        ∃ k st, k < n ∧ loopHeadAfter ext fuel k s = some st ∧
          ((st._mQ = [] ∧ r = (RetCode.SUCCESS, st)) ∨
            (st._mQ ≠ [] ∧ traceNextMotorcycle ext fuel st = some r ∧
              r.1 ≠ RetCode.SUCCESS)) := by
  intro n
  induction n with
  | zero =>
    intro s r
    constructor
    · intro h
      simp [traceAllMotorcycles] at h
    · rintro ⟨k, st, hk, _⟩
      omega
  | succ n ih =>
    intro s r
    constructor
    · intro h
      rw [traceAllMotorcycles] at h
      split at h
      · rename_i hemp
        cases h
        exact ⟨0, s, by omega, rfl, Or.inl ⟨List.isEmpty_iff.mp hemp, rfl⟩⟩
      · rename_i hemp
        have hne : s._mQ ≠ [] := fun hnil => hemp (List.isEmpty_iff.mpr hnil)
        split at h
        · cases h
        · rename_i r1 hr1
          split at h
          · rename_i hs
            cases h
            exact ⟨0, s, by omega, rfl, Or.inr ⟨hne, hr1, hs⟩⟩
          · rename_i hs
            have h1 : r1.1 = RetCode.SUCCESS := not_not.mp hs
            obtain ⟨k, st, hk, hst, hfin⟩ := (ih r1.2 r).mp h
            have hp : loopPass ext fuel s = some r1.2 := by
              rw [loopPass_eq_some]
              refine ⟨hne, ?_⟩
              rw [hr1, ← h1]
            refine ⟨k + 1, st, by omega, ?_, hfin⟩
            rw [loopHeadAfter_cons, hp, Option.some_bind]
            exact hst
    · rintro ⟨k, st, hk, hst, hfin⟩
      have hlink := traceAllMotorcycles_of_loopHead ext fuel k (n - k + 1) s st hst
      rw [show k + (n - k + 1) = n + 1 by omega] at hlink
      rw [hlink, traceAllMotorcycles]
      rcases hfin with ⟨hemp, hr⟩ | ⟨hne, hr, hs⟩
      · rw [if_pos (List.isEmpty_iff.mpr hemp), hr]
      · rw [if_neg (fun hemp => hne (List.isEmpty_iff.mp hemp)), hr]
        simp only []
        rw [if_pos hs]

/-- C11: `traceAllMotorcycles` returns a result exactly when its loop, after some number
`k` of passes in each of which the global queue was non-empty and `traceNextMotorcycle`
returned `SUCCESS`, reaches a tracer `st` where either the global queue is empty, and
then the result is `SUCCESS` with that tracer, or the queue is non-empty and
`traceNextMotorcycle` returns a code other than `SUCCESS`, and then the result is the
code and the tracer of that call: nothing is traced after it.  Hence a `SUCCESS` result
comes with an empty global queue, and a result obtained within some bounds on the
passes is the result for all larger bounds. -/
theorem traceAllMotorcycles_first_failure {T : Type} (ext : External T) (fuel n : Nat)
    (s : MotorcycleTracer T) (r : RetCode × MotorcycleTracer T) :
    (traceAllMotorcycles ext fuel n s = some r ↔
      ∃ k st, k < n ∧ loopHeadAfter ext fuel k s = some st ∧
        ((st._mQ = [] ∧ r = (RetCode.SUCCESS, st)) ∨
          (st._mQ ≠ [] ∧ traceNextMotorcycle ext fuel st = some r ∧
            r.1 ≠ RetCode.SUCCESS))) ∧
    (∀ k st, loopHeadAfter ext fuel k s = some st →
      ∀ j, j < k → ∃ sj sj', loopHeadAfter ext fuel j s = some sj ∧ sj._mQ ≠ [] ∧
        traceNextMotorcycle ext fuel sj = some (RetCode.SUCCESS, sj') ∧
        loopHeadAfter ext fuel (j + 1) s = some sj') ∧
    (traceAllMotorcycles ext fuel n s = some r → r.1 = RetCode.SUCCESS → r.2._mQ = []) ∧
    (traceAllMotorcycles ext fuel n s = some r → r.1 ≠ RetCode.SUCCESS →
      ∃ k st, loopHeadAfter ext fuel k s = some st ∧ st._mQ ≠ [] ∧
        traceNextMotorcycle ext fuel st = some r) ∧
    (traceAllMotorcycles ext fuel n s = some r → ∀ fuel' n', fuel ≤ fuel' → n ≤ n' →
      traceAllMotorcycles ext fuel' n' s = some r) := by
  refine ⟨traceAllMotorcycles_eq_some_iff ext fuel n s r, loopHeadAfter_earlier ext fuel s, ?_, ?_,
    fun h fuel' n' hf hn => traceAllMotorcycles_mono ext fuel fuel' hf n n' hn s r h⟩
  · intro h hs
    obtain ⟨k, st, _, _, hfin⟩ := (traceAllMotorcycles_eq_some_iff ext fuel n s r).mp h
    rcases hfin with ⟨hemp, hr⟩ | ⟨_, _, hne⟩
    · rw [hr]; exact hemp
    · exact absurd hs hne
  · intro h hs
    obtain ⟨k, st, _, hst, hfin⟩ := (traceAllMotorcycles_eq_some_iff ext fuel n s r).mp h
    rcases hfin with ⟨_, hr⟩ | ⟨hne, hr, _⟩
    · rw [hr] at hs; exact absurd rfl hs
    · exact ⟨k, st, hst, hne, hr⟩

/-- C17: `traceNextMotorcycle` starts by moving the top of the global queue into the
local queue and raising `_qPops` by one (the counter being below the largest `int`);
after that the global queue is only pushed onto, and `_qPops` stays; whenever the call
returns `SUCCESS` the local queue is empty.  Hence in a run of `traceAllMotorcycles`
started with an empty local queue, the local queue is empty at every head of the loop,
that is whenever the next motorcycle is taken from the global queue.  A result obtained
within `fuel` passes is the result for every larger bound. -/
theorem traceNextMotorcycle_pops_once {T : Type} (ext : External T) (fuel : Nat)
    (s : MotorcycleTracer T) :
    ((popGlobal ext s)._mQ = s._mQ.tail ∧
      (popGlobal ext s)._localQ = ext.pushLocal (queueTop s._mQ) s._localQ ∧
      (s._mQ ≠ [] → s._mQ = queueTop s._mQ :: (popGlobal ext s)._mQ) ∧
      traceNextMotorcycle ext fuel s = drainLocalQueue ext fuel (popGlobal ext s)) ∧
    (∀ r, traceNextMotorcycle ext fuel s = some r →
      (-2147483648 ≤ s._qPops → s._qPops < 2147483647 → r.2._qPops = s._qPops + 1) ∧
      PushedOnto ext.pushGlobal s._mQ.tail r.2._mQ ∧
      (r.1 = RetCode.SUCCESS → r.2._localQ = [])) ∧
    (s._localQ = [] → ∀ k st, loopHeadAfter ext fuel k s = some st →
      st._localQ = [] ∧
      ∀ n, traceAllMotorcycles ext fuel (k + n) s = traceAllMotorcycles ext fuel n st) ∧
    (∀ r fuel', traceNextMotorcycle ext fuel s = some r → fuel ≤ fuel' →
      traceNextMotorcycle ext fuel' s = some r) := by
  refine ⟨⟨rfl, rfl, ?_, rfl⟩, ?_, ?_,
    fun r fuel' h hf => traceNextMotorcycle_mono ext fuel fuel' hf s r h⟩
  · intro hne
    cases hq : s._mQ with
    | nil => exact absurd hq hne
    | cons m q => simp [popGlobal, queueTop, hq]
  · intro r h
    obtain ⟨⟨k1, k2⟩, k3⟩ := drainLocalQueue_spec ext fuel (popGlobal ext s) r h
    refine ⟨?_, k2, k3⟩
    intro hlo hhi
    rw [k1]
    exact wrapInt_of_range _ (by omega) (by omega)
  · intro hloc k st hst
    refine ⟨?_, fun n => traceAllMotorcycles_of_loopHead ext fuel k n s st hst⟩
    cases k with
    | zero =>
      simp only [loopHeadAfter, Option.some.injEq] at hst
      rw [← hst]; exact hloc
    | succ k =>
      obtain ⟨sj, sj', _, _, hr, hj⟩ := loopHeadAfter_earlier ext fuel s (k + 1) st hst k (by omega)
      rw [hst] at hj
      cases hj
      exact (drainLocalQueue_spec ext fuel (popGlobal ext sj) _ hr).2 rfl

theorem traceAllMotorcycles_first_failure_witness :
    ∃ r, traceAllMotorcycles sampleExt 20 20
        (sampleTracer [sampleMotorcycle 0 3, sampleMotorcycle 1 2]) = some r ∧
      r.1 = RetCode.SUCCESS ∧ r.2._mQ = [] := by
  have hcode : (traceAllMotorcycles sampleExt 20 20
      (sampleTracer [sampleMotorcycle 0 3, sampleMotorcycle 1 2])).map Prod.fst =
        some RetCode.SUCCESS := by decide!
  cases h : traceAllMotorcycles sampleExt 20 20
      (sampleTracer [sampleMotorcycle 0 3, sampleMotorcycle 1 2]) with
  | none => rw [h] at hcode; cases hcode
  | some r =>
    rw [h] at hcode
    have hs : r.1 = RetCode.SUCCESS := by
      simp only [Option.map_some', Option.some.injEq] at hcode
      exact hcode
    exact ⟨r, rfl, hs,
      (traceAllMotorcycles_first_failure sampleExt 20 20
        (sampleTracer [sampleMotorcycle 0 3, sampleMotorcycle 1 2]) r).2.2.1 h hs⟩

/-- On the sample mesh the run over three motorcycles stops at the second one, whose tet
has `A` and `D` on the iso-plane, and leaves the third one in the global queue. -/
theorem sample_run_stops_at_first_failure :
    (traceAllMotorcycles sampleExt 20 20
      (sampleTracer [sampleMotorcycle 0 3, sampleMotorcycle 2 2, sampleMotorcycle 1 2])).map
        (fun r => (r.1, r.2._mQ, r.2._localQ, r.2._qPops)) =
      some (RetCode.DEGENERATE_CHART, [sampleMotorcycle 1 2], [], 2) := by
  decide!

theorem traceNextMotorcycle_pops_once_witness :
    ∃ r, traceNextMotorcycle sampleExt 20 (sampleTracer [sampleMotorcycle 0 3]) = some r ∧
      r.2._qPops = (sampleTracer [sampleMotorcycle 0 3])._qPops + 1 ∧ r.2._localQ = [] := by
  have hcode : (traceNextMotorcycle sampleExt 20 (sampleTracer [sampleMotorcycle 0 3])).map
      Prod.fst = some RetCode.SUCCESS := by decide!
  cases h : traceNextMotorcycle sampleExt 20 (sampleTracer [sampleMotorcycle 0 3]) with
  | none => rw [h] at hcode; cases hcode
  | some r =>
    rw [h] at hcode
    have hs : r.1 = RetCode.SUCCESS := by
      simp only [Option.map_some', Option.some.injEq] at hcode
      exact hcode
    exact ⟨r, rfl,
      ((traceNextMotorcycle_pops_once sampleExt 20 (sampleTracer [sampleMotorcycle 0 3])).2.1
        r h).1 (by decide) (by decide),
      ((traceNextMotorcycle_pops_once sampleExt 20 (sampleTracer [sampleMotorcycle 0 3])).2.1
        r h).2.2 hs⟩

/-- On the sample mesh the call for the first motorcycle works off seven locally queued
follow-up motorcycles before it returns. -/
theorem sample_call_drains_local_queue :
    (traceNextMotorcycle sampleExt 20 (sampleTracer [sampleMotorcycle 0 3])).map
        (fun r => (r.1, r.2._mQ, r.2._localQ, r.2.newWalls, r.2._qPops)) =
      some (RetCode.SUCCESS, [], [], [20, 51, 85, 119, 153, 187, 221], 1) := by
  decide!

end mc3d
